import Mathlib

/-!
The control-system repository: gateway request pipeline and token service.

A shallow embedding of the Go sources

* `gateway/proxy/reverse_proxy.go`   (`ReverseProxy.proxy`, `respondWithError`)
* `gateway/middleware/auth.go`       (`JWTAuthMiddleware`, `respondWithError`)
* `user-service/internal/service/jwt_service.go` (`GenerateToken`, `ValidateToken`)
* `order-service/internal/middleware/auth_middleware.go` (`AuthMiddleware`)
* `gateway/main.go`, `user-service/cmd/main.go`, `order-service/cmd/main.go`
  (configuration and route tables)
* `user-service/internal/middleware/auth_middleware.go`
  (`AuthMiddleware`, `AdminMiddleware`)
* `order-service/internal/middleware/request_id_middleware.go`
* `order-service/models`, `validator`, `internal/repository`,
  `internal/events`, `internal/service/order_service.go`
* `user-service/models`, `internal/repository`,
  `internal/service/user_service.go`

together with the parts of the Go standard library and of
`github.com/golang-jwt/jwt/v5` that these functions call.  Library code that
is pure string manipulation (`net/url` escaping and `URL.String`,
`textproto.CanonicalMIMEHeaderKey`, `http.Header`, `strings.Split`,
`encoding/json` string quoting, `uuid.UUID.String`) is written out.  Library
code that talks to the outside world or is cryptography (`url.Parse`,
`http.Client.Do`, the base64/JSON token codec, HMAC) is a field of an
environment record, so every theorem holds for all behaviours of it.

Go strings are embedded as Lean `String`s, byte slices as `List UInt8`.
-/

namespace Go

/-! ## `net/textproto` and `net/http` headers -/

/-- Token bytes of RFC 7230, the table behind `textproto.validHeaderFieldByte`
and `httpguts.IsTokenRune`: letters, digits and the fifteen marks
``! # $ % & ' * + - . ^ _ ` | ~``. -/
def isTokenChar (c : Char) : Bool :=
  c.isAlphanum ||
    [33, 35, 36, 37, 38, 39, 42, 43, 45, 46, 94, 95, 96, 124, 126].contains c.toNat

/-- The second loop of `textproto.canonicalMIMEHeaderKey`: upper-case the first
letter and every letter after a dash, lower-case the others. -/
def canonLoop : Bool → List Char → List Char
  | _, [] => []
  | upper, c :: cs =>
    let d := if upper && c.isLower then c.toUpper
             else if !upper && c.isUpper then c.toLower else c
    d :: canonLoop (d == '-') cs

/-- Model of `textproto.CanonicalMIMEHeaderKey`: a key that holds a byte which
is not a token byte (a space included) is returned unchanged, every other key
is put in canonical case. -/
def CanonicalMIMEHeaderKey (s : String) : String :=
  if s.data.all isTokenChar then String.mk (canonLoop true s.data) else s

/-- Go type `http.Header`, a `map[string][]string`.  An association list
without duplicate keys; the order of its entries is the order in which a
`range` loop visits the map, which Go leaves unspecified. -/
abbrev Header := AList (fun _ : String => List String)

namespace Header

/-- Go expression `h[key]` on the raw map: the values stored under exactly this
key, `nil` when the key is absent. -/
def index (h : Header) (key : String) : List String :=
  (h.lookup key).getD []

/-- Model of `Header.Values`: the values of the canonical form of the key. -/
def Values (h : Header) (key : String) : List String :=
  h.index (CanonicalMIMEHeaderKey key)

/-- Model of `Header.Get`: the first value of the canonical form of the key,
or the empty string. -/
def Get (h : Header) (key : String) : String :=
  (h.Values key).headD ""

/-- Model of `Header.Set`: replace the values of the canonical key. -/
def Set (h : Header) (key value : String) : Header :=
  h.insert (CanonicalMIMEHeaderKey key) [value]

/-- Model of `Header.Add`: append to the values of the canonical key. -/
def Add (h : Header) (key value : String) : Header :=
  h.insert (CanonicalMIMEHeaderKey key) (h.index (CanonicalMIMEHeaderKey key) ++ [value])

/-- The keys are the ones a Go server or client hands out: each is in canonical
form (`textproto.Reader.ReadMIMEHeader` canonicalises every key it reads). -/
def Canonical (h : Header) : Prop :=
  ∀ k ∈ h.keys, CanonicalMIMEHeaderKey k = k

instance decidableCanonical (h : Header) : Decidable h.Canonical :=
  inferInstanceAs (Decidable (∀ k ∈ h.keys, CanonicalMIMEHeaderKey k = k))

end Header

/-! ## `http.ResponseWriter` -/

/-- State of an `http.ResponseWriter`, with the behaviour every implementation
in `net/http` shares (`httptest.ResponseRecorder` is the plainest one):
`header` is the map `Header()` returns, `sent` is the status code and the
header block fixed by the first `WriteHeader`, `body` the bytes written. -/
structure ResponseWriter where
  header : Header
  sent : Option (Nat × Header)
  body : List UInt8

namespace ResponseWriter

/-- A writer on which nothing has been written. -/
def fresh (h : Header) : ResponseWriter := ⟨h, none, []⟩

/-- Model of `ResponseWriter.WriteHeader`.  A second call is ignored; a code
outside 100..999 panics (`checkWriteHeaderCode`), which is `none` here. -/
def WriteHeader (w : ResponseWriter) (code : Nat) : Option ResponseWriter :=
  match w.sent with
  | some _ => some w
  | none =>
    if code < 100 ∨ 999 < code then none
    else some { w with sent := some (code, w.header) }

/-- Model of `ResponseWriter.Write`: an implicit `WriteHeader(200)` when no
header was written, then the bytes are appended. -/
def Write (w : ResponseWriter) (b : List UInt8) : ResponseWriter :=
  let w1 := match w.sent with
    | some _ => w
    | none => { w with sent := some (200, w.header) }
  { w1 with body := w1.body ++ b }

/-- Status code of the response, once it is sent. -/
def status (w : ResponseWriter) : Option Nat := w.sent.map Prod.fst

/-- Header block of the response, once it is sent. -/
def sentHeader (w : ResponseWriter) : Option Header := w.sent.map Prod.snd

end ResponseWriter

/-! ## `encoding/json` -/

/-- Lower-case hexadecimal digit. -/
def lowerhex (n : Nat) : Char :=
  if n < 10 then Char.ofNat (48 + n) else Char.ofNat (87 + n)

/-- Upper-case hexadecimal digit. -/
def upperhex (n : Nat) : Char :=
  if n < 10 then Char.ofNat (48 + n) else Char.ofNat (55 + n)

/-- One character of a JSON string as `encoding/json` writes it with HTML
escaping on (the default of `json.Encoder`). -/
def jsonEscapeChar (c : Char) : List Char :=
  if c = '"' then ['\\', '"']
  else if c = '\\' then ['\\', '\\']
  else if c.toNat = 8 then ['\\', 'b']
  else if c.toNat = 12 then ['\\', 'f']
  else if c = '\n' then ['\\', 'n']
  else if c = '\r' then ['\\', 'r']
  else if c = '\t' then ['\\', 't']
  else if c.toNat < 32 ∨ c = '<' ∨ c = '>' ∨ c = '&' then
    ['\\', 'u', '0', '0', lowerhex (c.toNat / 16), lowerhex (c.toNat % 16)]
  else if c.toNat = 8232 then ['\\', 'u', '2', '0', '2', '8']
  else if c.toNat = 8233 then ['\\', 'u', '2', '0', '2', '9']
  else [c]

/-- A Go string as a quoted JSON string. -/
def jsonString (s : String) : String :=
  String.mk (['"'] ++ s.data.flatMap jsonEscapeChar ++ ['"'])

/-- UTF-8 bytes of a string, Go conversion `[]byte(s)`. -/
def bytes (s : String) : List UInt8 :=
  s.data.flatMap String.utf8EncodeChar

/-! ## `net/url` -/

namespace Url

/-- Escaping modes of `net/url` that `URL.String` reaches. -/
inductive Encoding
  | encodePath
  | encodeHost
  | encodeUserPassword
  | encodeFragment
  deriving DecidableEq, Repr

open Encoding

/-- Model of `url.shouldEscape` for the modes above.  A character outside
ASCII stands for bytes of 0x80 and more, which are escaped in every mode. -/
def shouldEscape (c : Char) (mode : Encoding) : Bool :=
  if c.isAlphanum then false
  else if mode = encodeHost ∧
      ['!', '$', '&', Char.ofNat 39, '(', ')', '*', '+', ',', ';', '=', ':', '[', ']',
        '<', '>', '"'].contains c then false
  else if ['-', '_', '.', '~'].contains c then false
  else if ['$', '&', '+', ',', '/', ':', ';', '=', '?', '@'].contains c then
    match mode with
    | encodePath => c == '?'
    | encodeUserPassword => c == '@' || c == '/' || c == '?' || c == ':'
    | encodeFragment => false
    | encodeHost => true
  else if mode = encodeFragment ∧ ['!', '(', ')', '*'].contains c then false
  else true

/-- Percent-encoding of one byte, upper-case hexadecimal. -/
def escapeByte (b : UInt8) : List Char :=
  ['%', upperhex (b.toNat / 16), upperhex (b.toNat % 16)]

/-- Model of `url.escape` on the characters of a string. -/
def escapeChars (mode : Encoding) : List Char → List Char
  | [] => []
  | c :: cs =>
    (if shouldEscape c mode then (String.utf8EncodeChar c).flatMap escapeByte else [c])
      ++ escapeChars mode cs

/-- Model of `url.escape`. -/
def escape (s : String) (mode : Encoding) : String :=
  String.mk (escapeChars mode s.data)

/-- Value of a hexadecimal digit, `none` for any other character
(`url.ishex` with `url.unhex`). -/
def unhex (c : Char) : Option Nat :=
  if '0' ≤ c ∧ c ≤ '9' then some (c.toNat - 48)
  else if 'a' ≤ c ∧ c ≤ 'f' then some (c.toNat - 97 + 10)
  else if 'A' ≤ c ∧ c ≤ 'F' then some (c.toNat - 65 + 10)
  else none

/-- Model of `url.unescape` in the modes `encodePath` and `encodeFragment`
(no mode-specific branch is taken there): the decoded bytes, or `none` for a
`%` that two hexadecimal digits do not follow. -/
def unescapeChars : List Char → Option (List UInt8)
  | [] => some []
  | '%' :: h :: l :: cs =>
    match unhex h, unhex l, unescapeChars cs with
    | some a, some b, some rest => some (UInt8.ofNat (a * 16 + b) :: rest)
    | _, _, _ => none
  | '%' :: _ => none
  | c :: cs => (unescapeChars cs).map (String.utf8EncodeChar c ++ ·)

/-- Model of `url.validEncoded`. -/
def validEncoded (s : String) (mode : Encoding) : Bool :=
  s.data.all fun c =>
    ['!', '$', '&', Char.ofNat 39, '(', ')', '*', '+', ',', ';', '=', ':', '@', '[', ']',
      '%'].contains c || !shouldEscape c mode

/-- Go type `url.Userinfo`. -/
structure Userinfo where
  username : String
  password : String
  passwordSet : Bool
  deriving DecidableEq, Repr

/-- Model of `Userinfo.String`. -/
def Userinfo.String (u : Userinfo) : String :=
  escape u.username encodeUserPassword ++
    (if u.passwordSet then ":" ++ escape u.password encodeUserPassword else "")

/-- Go type `url.URL`. -/
structure URL where
  Scheme : String := ""
  Opaque : String := ""
  User : Option Userinfo := none
  Host : String := ""
  Path : String := ""
  RawPath : String := ""
  OmitHost : Bool := false
  ForceQuery : Bool := false
  RawQuery : String := ""
  Fragment : String := ""
  RawFragment : String := ""
  deriving DecidableEq, Repr

namespace URL

/-- Model of `URL.EscapedPath`: `RawPath` when it is a valid encoding of
`Path`, else the default encoding of `Path`. -/
def EscapedPath (u : URL) : String :=
  if u.RawPath ≠ "" ∧ validEncoded u.RawPath encodePath = true ∧
      unescapeChars u.RawPath.data = some (bytes u.Path) then u.RawPath
  else if u.Path = "*" then "*"
  else escape u.Path encodePath

/-- Model of `URL.EscapedFragment`. -/
def EscapedFragment (u : URL) : String :=
  if u.RawFragment ≠ "" ∧ validEncoded u.RawFragment encodeFragment = true ∧
      unescapeChars u.RawFragment.data = some (bytes u.Fragment) then u.RawFragment
  else escape u.Fragment encodeFragment

/-- The part of `URL.String` written for a URL that is not opaque: authority
and path. -/
def hierPart (u : URL) : String :=
  let auth :=
    if u.Scheme ≠ "" ∨ u.Host ≠ "" ∨ u.User.isSome then
      if u.OmitHost ∧ u.Host = "" ∧ u.User.isNone then ""
      else
        (if u.Host ≠ "" ∨ u.Path ≠ "" ∨ u.User.isSome then "//" else "") ++
        (match u.User with
          | some ui => ui.String ++ "@"
          | none => "") ++
        (if u.Host ≠ "" then escape u.Host encodeHost else "")
    else ""
  let path := u.EscapedPath
  let slash := if path ≠ "" ∧ path.data.head? ≠ some '/' ∧ u.Host ≠ "" then "/" else ""
  let dot :=
    if u.Scheme = "" ∧ auth = "" ∧ slash = "" ∧ (path.data.takeWhile (· ≠ '/')).contains ':'
    then "./" else ""
  auth ++ slash ++ dot ++ path

/-- Relational form of `URL.setPath`, the step by which `url.ParseRequestURI`
fills `Path` and `RawPath` from the path `p` of a request line: `Path` is `p`
unescaped, and `RawPath` is empty when `p` is the default encoding of `Path`,
else it is `p`. -/
def pathSetFrom (u : URL) (p : String) : Bool :=
  decide (unescapeChars p.data = some (bytes u.Path)) &&
    decide (u.RawPath = if escape u.Path encodePath = p then "" else p)

end URL

/-- Model of `URL.String`. -/
def URL.String (u : URL) : String :=
  (if u.Scheme ≠ "" then u.Scheme ++ ":" else "") ++
  (if u.Opaque ≠ "" then u.Opaque else u.hierPart) ++
  (if u.ForceQuery ∨ u.RawQuery ≠ "" then "?" ++ u.RawQuery else "") ++
  (if u.Fragment ≠ "" then "#" ++ u.EscapedFragment else "")

end Url

/-! ## `strings`, `io`, `time`, `uuid` -/

/-- Model of `strings.Split(s, sep)` for a separator of one byte: the pieces
between the occurrences of the separator, one more piece than occurrences. -/
def splitChars (sep : Char) : List Char → List (List Char)
  | [] => [[]]
  | c :: cs =>
    if c = sep then [] :: splitChars sep cs
    else
      match splitChars sep cs with
      | [] => [[c]]
      | p :: ps => (c :: p) :: ps

/-- Model of `strings.Split(s, " ")`. -/
def splitSpace (s : String) : List String :=
  (splitChars ' ' s.data).map String.mk

/-- An `io.ReadCloser`: the bytes it delivers, then end of file (`err = none`)
or a read error. -/
structure Body where
  data : List UInt8
  err : Option String := none
  deriving DecidableEq, Repr

/-- Model of `io.ReadAll`. -/
def ReadAll (b : Body) : Except String (List UInt8) :=
  match b.err with
  | none => .ok b.data
  | some e => .error e

/-- Go type `time.Time`, as nanoseconds since the Unix epoch; a
`time.Duration` is a number of nanoseconds too. -/
abbrev Time := Int

/-- Nanoseconds in a second, `time.Second`. -/
def Second : Int := 1000000000

/-- Go constant `time.Hour`. -/
def Hour : Int := 3600 * Second

/-- Go type `uuid.UUID`, sixteen bytes. -/
abbrev UUID := { l : List UInt8 // l.length = 16 }

/-- Two lower-case hexadecimal digits of a byte. -/
def hexByte (b : UInt8) : List Char :=
  [lowerhex (b.toNat / 16), lowerhex (b.toNat % 16)]

/-- Model of `uuid.UUID.String`: the form 8-4-4-4-12 in lower-case hexadecimal. -/
def UUID.String (u : UUID) : String :=
  let hex (l : List UInt8) : List Char := l.flatMap hexByte
  let b := u.val
  String.mk (hex (b.take 4) ++ ['-'] ++ hex ((b.drop 4).take 2) ++ ['-'] ++
    hex ((b.drop 6).take 2) ++ ['-'] ++ hex ((b.drop 8).take 2) ++ ['-'] ++ hex (b.drop 10))

end Go

/-! ## The identity claims -/

/-- Go type `jwt.NumericDate`: a time in whole seconds (`jwt.TimePrecision` is a
second). -/
structure NumericDate where
  sec : Int
  deriving DecidableEq, Repr

/-- Model of `jwt.NewNumericDate`: the time truncated to the second. -/
def NewNumericDate (t : Go.Time) : NumericDate := ⟨t / Go.Second⟩

/-- The instant of a numeric date. -/
def NumericDate.Time (d : NumericDate) : Go.Time := d.sec * Go.Second

/-- Go type `jwt.RegisteredClaims`. -/
structure RegisteredClaims where
  Issuer : String := ""
  Subject : String := ""
  Audience : List String := []
  ExpiresAt : Option NumericDate := none
  NotBefore : Option NumericDate := none
  IssuedAt : Option NumericDate := none
  ID : String := ""
  deriving DecidableEq, Repr

/-- The struct `Claims`, declared with the same fields in
`gateway/middleware/auth.go`, `user-service/internal/service/jwt_service.go`
and `order-service/internal/middleware/auth_middleware.go`. -/
structure Claims where
  UserID : Go.UUID
  Email : String
  Roles : List String
  RegisteredClaims : RegisteredClaims := {}
  deriving DecidableEq, Repr

namespace Go

/-! ## `net/http` requests and the client -/

/-- Values a request context carries: the claims under the key
`UserContextKey`, the correlation id under the key `RequestIDKey`. -/
structure Context where
  user : Option Claims := none
  requestID : Option String := none
  deriving DecidableEq, Repr

/-- Go type `http.Request`, the fields the gateway reads or writes.  `TLS` is
`r.TLS != nil`: the request arrived over TLS. -/
structure Request where
  Method : String
  URL : Url.URL
  Header : Header := ∅
  Body : Option Body := none
  Host : String := ""
  RemoteAddr : String := ""
  TLS : Bool := false
  ctx : Context := {}

/-- Go type `http.Response`, as `http.Client.Do` returns it. -/
structure Response where
  StatusCode : Nat
  Header : Header := ∅
  Body : Body := ⟨[], none⟩

/-- What the program cannot compute by itself: `url.Parse` (`none` is a parse
error) and `http.Client.Do` with its 30 second timeout (`.error` is any error
it returns: connection failure, timeout, transport error). -/
structure Env where
  urlParse : String → Option Url.URL
  clientDo : Request → Except String Response

/-- Model of `http.validMethod`: a non-empty token. -/
def validMethod (m : String) : Bool :=
  decide (0 < m.length) && m.data.all isTokenChar

/-- Model of `http.removeEmptyPort`: a host that ends in a colon loses it. -/
def removeEmptyPort (host : String) : String :=
  if host.data.getLast? = some ':' then String.mk host.data.dropLast else host

/-- Model of `http.NewRequest`: the method is checked, the URL string is
parsed, the header map is new and empty. -/
def NewRequest (env : Env) (method url : String) (body : List UInt8) : Option Request :=
  let method := if method = "" then "GET" else method
  if validMethod method then
    match env.urlParse url with
    | none => none
    | some u =>
      let u := { u with Host := removeEmptyPort u.Host }
      some { Method := method, URL := u, Header := ∅, Body := some ⟨body, none⟩, Host := u.Host }
  else none

/-- The connection a handler works on: the response writer, and the record of
the requests handed to `http.Client.Do`, oldest first. -/
structure Conn where
  w : ResponseWriter
  calls : List Request := []

/-- Go type `http.Handler`.  `none` is a panic. -/
abbrev Handler := Conn → Request → Option Conn

end Go

/-! ## `github.com/golang-jwt/jwt/v5` -/

namespace Go
namespace Jwt

/-- Hash functions of the registered signing methods. -/
inductive Hash
  | SHA256
  | SHA384
  | SHA512
  deriving DecidableEq, Repr

/-- The signing methods the library registers. -/
inductive SigningMethod
  | HMAC (h : Hash)
  | RSA (h : Hash)
  | RSAPSS (h : Hash)
  | ECDSA (h : Hash)
  | Ed25519
  | None
  deriving DecidableEq, Repr

open Hash SigningMethod

/-- The registry `signingMethods` of the library, as the `init` functions of
its method files fill it. -/
def signingMethods : List (String × SigningMethod) :=
  [("HS256", HMAC SHA256), ("HS384", HMAC SHA384), ("HS512", HMAC SHA512),
   ("RS256", RSA SHA256), ("RS384", RSA SHA384), ("RS512", RSA SHA512),
   ("PS256", RSAPSS SHA256), ("PS384", RSAPSS SHA384), ("PS512", RSAPSS SHA512),
   ("ES256", ECDSA SHA256), ("ES384", ECDSA SHA384), ("ES512", ECDSA SHA512),
   ("EdDSA", Ed25519), ("none", SigningMethod.None)]

/-- Model of `jwt.GetSigningMethod`: the method registered under an `alg`
value, `none` when there is none. -/
def GetSigningMethod (alg : String) : Option SigningMethod :=
  signingMethods.lookup alg

/-- The method is `*jwt.SigningMethodHMAC` (HS256, HS384, HS512). -/
def SigningMethod.isHMAC : SigningMethod → Bool
  | HMAC _ => true
  | _ => false

/-- Dynamic type of the value a `jwt.Keyfunc` returns, with the key material. -/
inductive Key
  | bytes (k : List UInt8)
  | rsaPublicKey (k : List UInt8)
  | ecdsaPublicKey (k : List UInt8)
  | ed25519PublicKey (k : List UInt8)
  | unsafeAllowNoneSignatureType
  deriving DecidableEq, Repr

/-- Errors of the library, by the sentinel they wrap. -/
inductive Error
  | ErrTokenMalformed
  | ErrTokenUnverifiable
  | ErrTokenSignatureInvalid
  | ErrTokenInvalidClaims
  deriving DecidableEq, Repr

/-- What `Parser.ParseUnverified` and `Parser.DecodeSegment` read from the
three segments of a token string: the `alg` entry of the header when it is a
string, the claims, the signing string (first two segments joined by a dot)
and the decoded signature (`none`: the third segment is not base64url). -/
structure Parts where
  alg : Option String
  claims : Claims
  signingString : String
  signature : Option (List UInt8)
  deriving DecidableEq, Repr

/-- The codec and the cryptography of the library.  `decode` is the splitting,
base64url and JSON decoding of a token string (`none`: malformed);
`signingString` is `Token.SigningString` for a header with the given `alg` and
`typ` JWT; `encodeSegment` is `Token.EncodeSegment`; `hmac` is the HMAC of a
message; `verifyPublic` is the signature check of the public-key methods once
the key has the type the method expects. -/
structure Lib where
  decode : String → Option Parts
  signingString : String → Claims → String
  encodeSegment : List UInt8 → String
  hmac : Hash → List UInt8 → String → List UInt8
  verifyPublic : SigningMethod → String → List UInt8 → List UInt8 → Bool

/-- Decoding inverts encoding at one token: the string made of the signing
string of `(alg, c)`, a dot and the encoded signature decodes to the same
`alg`, claims, signing string and signature. -/
def Lib.RoundTripsAt (lib : Lib) (alg : String) (c : Claims) (sig : List UInt8) : Prop :=
  lib.decode (lib.signingString alg c ++ "." ++ lib.encodeSegment sig) =
    some ⟨some alg, c, lib.signingString alg c, some sig⟩

instance Lib.decidableRoundTripsAt (lib : Lib) (alg : String) (c : Claims) (sig : List UInt8) :
    Decidable (lib.RoundTripsAt alg c sig) :=
  inferInstanceAs (Decidable (_ = _))

/-- The `alg` a token string declares: the `alg` entry of its header, when the
string decodes and the entry is a string. -/
def declaredAlg (lib : Lib) (tokenString : String) : Option String :=
  (lib.decode tokenString).bind fun p => p.alg

/-- The token string declares an algorithm of the HMAC family: HS256, HS384 or
HS512. -/
def declaresHMAC (lib : Lib) (tokenString : String) : Bool :=
  match declaredAlg lib tokenString with
  | some a => a == "HS256" || a == "HS384" || a == "HS512"
  | none => false

/-- Model of `SigningMethod.Verify`.  Every method first asserts the dynamic
type of the key: HMAC wants `[]byte`, RSA and RSA-PSS `*rsa.PublicKey`, ECDSA
`*ecdsa.PublicKey`, EdDSA `ed25519.PublicKey`, and `none` wants the constant
`UnsafeAllowNoneSignatureType` and an empty signature. -/
def Verify (lib : Lib) (m : SigningMethod) (signingString : String) (sig : List UInt8)
    (key : Key) : Bool :=
  match m, key with
  | HMAC h, .bytes k => decide (sig = lib.hmac h k signingString)
  | RSA h, .rsaPublicKey k => lib.verifyPublic (RSA h) signingString sig k
  | RSAPSS h, .rsaPublicKey k => lib.verifyPublic (RSAPSS h) signingString sig k
  | ECDSA h, .ecdsaPublicKey k => lib.verifyPublic (ECDSA h) signingString sig k
  | Ed25519, .ed25519PublicKey k => lib.verifyPublic Ed25519 signingString sig k
  | SigningMethod.None, .unsafeAllowNoneSignatureType => decide (sig = [])
  | _, _ => false

/-- Model of `SigningMethodHMAC.Sign` with a `[]byte` key. -/
def SignHMAC (lib : Lib) (h : Hash) (signingString : String) (key : List UInt8) : List UInt8 :=
  lib.hmac h key signingString

/-- Model of `Validator.Validate` with the default options: `exp` and `nbf` are
checked when present, without leeway; `iat`, issuer, audience and subject are
not checked. -/
def Validate (now : Time) (c : Claims) : Bool :=
  (match c.RegisteredClaims.ExpiresAt with
    | none => true
    | some e => decide (now < e.Time)) &&
  (match c.RegisteredClaims.NotBefore with
    | none => true
    | some n => decide (¬ now < n.Time))

/-- Go type `jwt.Token` after parsing. -/
structure Token where
  Raw : String
  Method : SigningMethod
  Claims : Claims
  Signature : List UInt8
  Valid : Bool
  deriving DecidableEq, Repr

/-- Go type `jwt.Keyfunc`; it sees the token parsed but not yet verified. -/
abbrev Keyfunc := Token → Except String Key

/-- Model of `jwt.ParseWithClaims` with the default parser, at time `now`:
decode the segments and look up the method of the declared `alg`, decode the
signature, ask the key function for the key, verify the signature, validate
the claims; the token is `Valid` only when all of it succeeded. -/
def ParseWithClaims (lib : Lib) (now : Time) (tokenString : String) (keyFunc : Keyfunc) :
    Except Error Token :=
  match lib.decode tokenString with
  | none => .error .ErrTokenMalformed
  | some p =>
    match p.alg.bind GetSigningMethod with
    | none => .error .ErrTokenUnverifiable
    | some method =>
      match p.signature with
      | none => .error .ErrTokenMalformed
      | some sig =>
        let token : Token := ⟨tokenString, method, p.claims, sig, false⟩
        match keyFunc token with
        | .error _ => .error .ErrTokenUnverifiable
        | .ok key =>
          if Verify lib method p.signingString sig key then
            if Validate now p.claims then .ok { token with Valid := true }
            else .error .ErrTokenInvalidClaims
          else .error .ErrTokenSignatureInvalid

/-- Model of `jwt.NewWithClaims(method, claims)` followed by
`Token.SignedString(key)` for an HMAC method and a `[]byte` key. -/
def SignedString (lib : Lib) (h : Hash) (alg : String) (c : Claims) (key : List UInt8) : String :=
  let sstr := lib.signingString alg c
  sstr ++ "." ++ lib.encodeSegment (SignHMAC lib h sstr key)

end Jwt
end Go

open Go

/-! ## `gateway/proxy/reverse_proxy.go` -/

namespace Gateway
namespace Proxy

/-- Go type `ReverseProxy`; its `client`, an `http.Client` with a timeout of 30
seconds, is `Env.clientDo`. -/
structure ReverseProxy where
  userServiceURL : String
  orderServiceURL : String
  deriving DecidableEq, Repr

/-- Source function `NewReverseProxy`. -/
def NewReverseProxy (userServiceURL orderServiceURL : String) : ReverseProxy :=
  ⟨userServiceURL, orderServiceURL⟩

/-- The body `respondWithError` encodes: a `map[string]interface{}` with the
keys `success` and `error`, the latter a `map[string]string` with `code` and
`message`.  `encoding/json` writes map keys sorted, and `Encoder.Encode` ends
the value with a newline. -/
def errorBody (code message : String) : String :=
  "\x7b\"error\":\x7b\"code\":" ++ jsonString code ++ ",\"message\":" ++ jsonString message ++
    "\x7d,\"success\":false\x7d\n"

/-- Source function `respondWithError` of package `proxy`. -/
def respondWithError (c : Conn) (status : Nat) (code message : String) : Option Conn :=
  let w := { c.w with header := c.w.header.Set "Content-Type" "application/json" }
  match w.WriteHeader status with
  | none => none
  | some w => some { c with w := w.Write (bytes (errorBody code message)) }

/-- The nested loops of `proxy` (lines 68-72 and 92-96): every value of every
key of `src` is added to `dst` with `Header.Add`. -/
def addAll (dst src : Header) : Header :=
  src.entries.foldl (fun h e => e.2.foldl (fun h v => h.Add e.1 v) h) dst

/-- Lines 39-47 of `proxy`: the parsed target with the path and the raw query of
the inbound request written over its own. -/
def targetOf (env : Env) (r : Request) (targetURL : String) : Option Url.URL :=
  (env.urlParse targetURL).map fun target =>
    { target with Path := r.URL.Path, RawQuery := r.URL.RawQuery }

/-- Lines 67-77 of `proxy`: the header of the outbound request. -/
def outboundHeader (proxyReq r : Request) : Header :=
  (((addAll proxyReq.Header r.Header).Set "X-Forwarded-For" r.RemoteAddr).Set
    "X-Forwarded-Host" r.Host).Set "X-Forwarded-Proto" r.URL.Scheme

/-- Lines 39-77 of `proxy`: the outbound request, or the arguments of the
`respondWithError` call that ends the handler before any call is made. -/
def buildProxyReq (env : Env) (r : Request) (targetURL : String) :
    Except (Nat × String × String) Request :=
  match targetOf env r targetURL with
  | none => .error (500, "PROXY_ERROR", "failed to parse target URL")
  | some target =>
    match (match r.Body with
        | some b => ReadAll b
        | none => .ok []) with
    | .error _ => .error (400, "INVALID_REQUEST", "failed to read request body")
    | .ok bodyBytes =>
      match NewRequest env r.Method target.String bodyBytes with
      | none => .error (500, "PROXY_ERROR", "failed to create proxy request")
      | some proxyReq => .ok { proxyReq with Header := outboundHeader proxyReq r }

/-- Source function `ReverseProxy.proxy`. -/
def proxy (env : Env) (targetURL : String) : Handler := fun c r =>
  match buildProxyReq env r targetURL with
  | .error (status, code, message) => respondWithError c status code message
  | .ok proxyReq =>
    let c := { c with calls := c.calls ++ [proxyReq] }
    match env.clientDo proxyReq with
    | .error _ =>
      respondWithError c 502 "SERVICE_UNAVAILABLE" "target service is unavailable"
    | .ok resp =>
      let w := { c.w with header := addAll c.w.header resp.Header }
      match w.WriteHeader resp.StatusCode with
      | none => none
      | some w => some { c with w := w.Write resp.Body.data }

/-- Source function `ReverseProxy.ProxyToUserService`. -/
def ProxyToUserService (env : Env) (p : ReverseProxy) : Handler :=
  proxy env p.userServiceURL

/-- Source function `ReverseProxy.ProxyToOrderService`. -/
def ProxyToOrderService (env : Env) (p : ReverseProxy) : Handler :=
  proxy env p.orderServiceURL

end Proxy

/-! ## `gateway/middleware/auth.go` -/

namespace Middleware

/-- The body `respondWithError` encodes: the struct `ErrorResponse`, fields in
declaration order, ended with a newline by `Encoder.Encode`. -/
def errorBody (code message : String) : String :=
  "\x7b\"success\":false,\"error\":\x7b\"code\":" ++ jsonString code ++ ",\"message\":" ++
    jsonString message ++ "\x7d\x7d\n"

/-- Source function `respondWithError` of package `middleware`. -/
def respondWithError (c : Conn) (status : Nat) (code message : String) : Option Conn :=
  let w := { c.w with header := c.w.header.Set "Content-Type" "application/json" }
  match w.WriteHeader status with
  | none => none
  | some w => some { c with w := w.Write (bytes (errorBody code message)) }

/-- The key function `JWTAuthMiddleware` passes to `jwt.ParseWithClaims`: the
secret as `[]byte`, for every token. -/
def keyFunc (jwtSecret : String) : Jwt.Keyfunc := fun _ => .ok (.bytes (bytes jwtSecret))

/-- The test of line 56, `err != nil || !token.Valid`, on the result of
`jwt.ParseWithClaims` for a token string. -/
def rejects (lib : Jwt.Lib) (now : Time) (jwtSecret tokenString : String) : Bool :=
  match Jwt.ParseWithClaims lib now tokenString (keyFunc jwtSecret) with
  | .ok token => !token.Valid
  | .error _ => true

/-- Lines 62-66 of `JWTAuthMiddleware`: the request handed to the next handler,
with the two identity headers set and the claims in the context. -/
def authenticated (r : Request) (claims : Claims) : Request :=
  { r with
    Header := (r.Header.Set "X-User-ID" claims.UserID.String).Set "X-User-Email" claims.Email
    ctx := { r.ctx with user := some claims } }

/-- Source function `JWTAuthMiddleware`.  `now` is the clock the library reads
while it validates the claims. -/
def JWTAuthMiddleware (lib : Jwt.Lib) (now : Time) (jwtSecret : String) (next : Handler) :
    Handler := fun c r =>
  let authHeader := r.Header.Get "Authorization"
  if authHeader = "" then
    respondWithError c 401 "UNAUTHORIZED" "authorization header required"
  else
    let parts := splitSpace authHeader
    if parts.length ≠ 2 ∨ parts.getD 0 "" ≠ "Bearer" then
      respondWithError c 401 "UNAUTHORIZED" "invalid authorization header format"
    else
      let tokenString := parts.getD 1 ""
      match Jwt.ParseWithClaims lib now tokenString (keyFunc jwtSecret) with
      | .ok token =>
        if token.Valid then next c (authenticated r token.Claims)
        else respondWithError c 401 "UNAUTHORIZED" "invalid or expired token"
      | .error _ => respondWithError c 401 "UNAUTHORIZED" "invalid or expired token"

end Middleware
end Gateway

/-! ## `user-service/internal/service/jwt_service.go` -/

namespace UserService

/-- Go type `models.User`. -/
structure User where
  ID : UUID
  Email : String
  Password : String
  Name : String
  Roles : List String
  CreatedAt : Time
  UpdatedAt : Time
  deriving DecidableEq, Repr

/-- Go type `jwtService`. -/
structure jwtService where
  secretKey : String
  expiresIn : Int
  deriving DecidableEq, Repr

/-- Source function `NewJWTService`; the argument is the value of the
environment variable `JWT_SECRET`, empty when it is not set. -/
def NewJWTService (envSecret : String) : jwtService :=
  { secretKey := if envSecret = "" then "your-secret-key-change-in-production" else envSecret
    expiresIn := 24 * Hour }

/-- Lines 43-51 of `GenerateToken`: the claims of the token.  `now` and `now2`
are the two readings of `time.Now()`, for `ExpiresAt` and for `IssuedAt`. -/
def tokenClaims (s : jwtService) (now now2 : Time) (user : User) : Claims :=
  { UserID := user.ID
    Email := user.Email
    Roles := user.Roles
    RegisteredClaims :=
      { ExpiresAt := some (NewNumericDate (now + s.expiresIn))
        IssuedAt := some (NewNumericDate now2) } }

/-- Source function `jwtService.GenerateToken`: the claims signed with HS256
and the secret.  The error result of the Go function is always `nil` (the
claims marshal, and HMAC signing with a `[]byte` key does not fail), so the
token string alone is returned. -/
def GenerateToken (lib : Jwt.Lib) (s : jwtService) (now now2 : Time) (user : User) : String :=
  Jwt.SignedString lib .SHA256 "HS256" (tokenClaims s now now2 user) (bytes s.secretKey)

/-- The key function of `ValidateToken`: an error unless the method of the
token is an HMAC method, else the secret as `[]byte`. -/
def keyFunc (s : jwtService) : Jwt.Keyfunc := fun token =>
  if token.Method.isHMAC then .ok (.bytes (bytes s.secretKey))
  else .error "unexpected signing method"

/-- Errors of `ValidateToken`: the error of `jwt.ParseWithClaims` passed on, or
its own "invalid token". -/
inductive ValidateError
  | parse (err : Jwt.Error)
  | invalidToken
  deriving DecidableEq, Repr

/-- Source function `jwtService.ValidateToken`, at time `now`. -/
def ValidateToken (lib : Jwt.Lib) (s : jwtService) (now : Time) (tokenString : String) :
    Except ValidateError Claims :=
  match Jwt.ParseWithClaims lib now tokenString (keyFunc s) with
  | .error err => .error (.parse err)
  | .ok token =>
    if token.Valid then .ok token.Claims else .error .invalidToken

end UserService

/-! ## `order-service/internal/middleware/auth_middleware.go` -/

namespace OrderService

/-- The body `respondWithError` encodes: `dto.Response` with `Success` false,
no `Data` (omitted when empty) and the `ErrorDTO`. -/
def errorBody (code message : String) : String :=
  "\x7b\"success\":false,\"error\":\x7b\"code\":" ++ jsonString code ++ ",\"message\":" ++
    jsonString message ++ "\x7d\x7d\n"

/-- Source function `respondWithError` of the order service. -/
def respondWithError (c : Conn) (status : Nat) (code message : String) : Option Conn :=
  let w := { c.w with header := c.w.header.Set "Content-Type" "application/json" }
  match w.WriteHeader status with
  | none => none
  | some w => some { c with w := w.Write (bytes (errorBody code message)) }

/-- The key function `AuthMiddleware` passes to `jwt.ParseWithClaims`. -/
def keyFunc (jwtSecret : String) : Jwt.Keyfunc := fun _ => .ok (.bytes (bytes jwtSecret))

/-- Source function `AuthMiddleware` of the order service. -/
def AuthMiddleware (lib : Jwt.Lib) (now : Time) (jwtSecret : String) (next : Handler) :
    Handler := fun c r =>
  let authHeader := r.Header.Get "Authorization"
  if authHeader = "" then
    respondWithError c 401 "UNAUTHORIZED" "authorization header required"
  else
    let parts := splitSpace authHeader
    if parts.length ≠ 2 ∨ parts.getD 0 "" ≠ "Bearer" then
      respondWithError c 401 "UNAUTHORIZED" "invalid authorization header format"
    else
      let tokenString := parts.getD 1 ""
      match Jwt.ParseWithClaims lib now tokenString (keyFunc jwtSecret) with
      | .ok token =>
        if token.Valid then next c { r with ctx := { r.ctx with user := some token.Claims } }
        else respondWithError c 401 "UNAUTHORIZED" "invalid or expired token"
      | .error _ => respondWithError c 401 "UNAUTHORIZED" "invalid or expired token"

end OrderService

/-! ## `github.com/go-chi/chi/v5`: how a router is filled -/

namespace Go
namespace Chi

/-- Go type `func(http.Handler) http.Handler`, a middleware. -/
abbrev Middleware := Handler → Handler

/-- The calls made on a `chi.Router` inside one function body, in their order:
`Use`, a method call such as `Get`, `Route` with the body of its sub-router,
`Group` with the body of its inline router.  `μ` names the middlewares and `ε`
the handlers. -/
inductive Router (μ ε : Type)
  | done
  | use (m : μ) (rest : Router μ ε)
  | handle (method pattern : String) (h : ε) (rest : Router μ ε)
  | route (pattern : String) (sub : Router μ ε) (rest : Router μ ε)
  | group (sub : Router μ ε) (rest : Router μ ε)

/-- One entry of the routing tree: method, full pattern, the middlewares the
request passes (outermost first) and the handler. -/
structure Route (μ ε : Type) where
  method : String
  pattern : String
  stack : List μ
  endpoint : ε
  deriving DecidableEq, Repr

/-- The routes a router body registers under a path and a middleware stack.
`started` says that a route, sub-router or group was already registered on
this mux.  `none` is a panic of chi: `Use` after a route was registered ("all
middlewares must be defined before routes on a mux"), or a method pattern
that does not begin with a slash.  A sub-router and a group start with the
stack of their parent; what they `Use` ends with them. -/
def Router.routesFrom {μ ε : Type} :
    Router μ ε → String → List μ → Bool → Option (List (Route μ ε))
  | .done, _, _, _ => some []
  | .use m rest, path, stack, started =>
    if started then none else rest.routesFrom path (stack ++ [m]) false
  | .handle method pattern h rest, path, stack, _ =>
    if pattern.data.head? = some '/' then
      (rest.routesFrom path stack true).map fun rs => ⟨method, path ++ pattern, stack, h⟩ :: rs
    else none
  | .route pattern sub rest, path, stack, _ =>
    match sub.routesFrom (path ++ pattern) stack false, rest.routesFrom path stack true with
    | some rs, some rs' => some (rs ++ rs')
    | _, _ => none
  | .group sub rest, path, stack, _ =>
    match sub.routesFrom path stack false, rest.routesFrom path stack true with
    | some rs, some rs' => some (rs ++ rs')
    | _, _ => none

/-- The routes of a router built by `chi.NewRouter()` and the given body. -/
def Router.routes {μ ε : Type} (r : Router μ ε) : Option (List (Route μ ε)) :=
  r.routesFrom "" [] false

/-- The handler chi runs for a route: the middlewares wrapped around the
endpoint, the first of the stack outermost. -/
def Route.handler {μ ε : Type} (rt : Route μ ε) (mw : μ → Middleware) (ep : ε → Handler) :
    Handler :=
  rt.stack.foldr (fun m h => mw m h) (ep rt.endpoint)

end Chi
end Go

/-! ## `gateway/main.go` -/

namespace Go

/-- Value of a string of decimal digits; `none` for the empty string and for a
string that holds another character. -/
def digitsValue : List Char → Option Nat
  | [] => none
  | cs => cs.foldl (fun acc c =>
      match acc with
      | none => none
      | some n => if c.isDigit then some (n * 10 + (c.toNat - 48)) else none) (some 0)

/-- Model of `strconv.Atoi` on a 64-bit platform: an optional sign and decimal
digits, within the range of `int`; `none` is a syntax or range error. -/
def Atoi (s : String) : Option Int :=
  let signed : Bool × List Char :=
    match s.data with
    | '-' :: t => (true, t)
    | '+' :: t => (false, t)
    | t => (false, t)
  match digitsValue signed.2 with
  | none => none
  | some n =>
    let v : Int := if signed.1 then -(n : Int) else (n : Int)
    if -9223372036854775808 ≤ v ∧ v ≤ 9223372036854775807 then some v else none

end Go

namespace Gateway

/-- Source function `getEnv`.  `environ` is `os.Getenv`: the value of a
variable, the empty string when it is not set. -/
def getEnv (environ : String → String) (key defaultValue : String) : String :=
  let value := environ key
  if value = "" then defaultValue else value

/-- Source function `getEnvInt`. -/
def getEnvInt (environ : String → String) (key : String) (defaultValue : Int) : Int :=
  let value := environ key
  if value = "" then defaultValue
  else
    match Atoi value with
    | none => defaultValue
    | some intValue => intValue

/-- The configuration `main` reads (lines 23-28). -/
structure Config where
  port : String
  jwtSecret : String
  userServiceURL : String
  orderServiceURL : String
  rateLimitRPS : Int
  rateLimitBurst : Int
  deriving DecidableEq, Repr

/-- Lines 23-28 of `main`: every setting with its default. -/
def loadConfig (environ : String → String) : Config :=
  { port := getEnv environ "PORT" "8080"
    jwtSecret := getEnv environ "JWT_SECRET" "your-super-secret-jwt-key-change-in-production-12345"
    userServiceURL := getEnv environ "USER_SERVICE_URL" "http://localhost:3001"
    orderServiceURL := getEnv environ "ORDER_SERVICE_URL" "http://localhost:3002"
    rateLimitRPS := getEnvInt environ "RATE_LIMIT_RPS" 100
    rateLimitBurst := getEnvInt environ "RATE_LIMIT_BURST" 200 }

/-- The middlewares `main` installs. -/
inductive Mw
  | Logger
  | Recoverer
  | RequestIDMiddleware
  | CORSMiddleware
  | RateLimiter
  | JWTAuthMiddleware
  deriving DecidableEq, Repr

/-- The handlers `main` registers. -/
inductive Endpoint
  | health
  | ProxyToUserService
  | ProxyToOrderService
  deriving DecidableEq, Repr

/-- Lines 33-73 of `main`: the calls on the router `r`. -/
def router : Chi.Router Mw Endpoint :=
  .use .Logger <| .use .Recoverer <| .use .RequestIDMiddleware <| .use .CORSMiddleware <|
  .use .RateLimiter <|
  .handle "GET" "/health" .health <|
  .route "/api/v1/users"
    (.group
      (.handle "POST" "/register" .ProxyToUserService <|
       .handle "POST" "/login" .ProxyToUserService .done) <|
     .group
      (.use .JWTAuthMiddleware <|
       .handle "GET" "/profile" .ProxyToUserService <|
       .handle "PUT" "/profile" .ProxyToUserService <|
       .handle "GET" "/" .ProxyToUserService .done) .done) <|
  .route "/api/v1/orders"
    (.use .JWTAuthMiddleware <|
     .handle "POST" "/" .ProxyToOrderService <|
     .handle "GET" "/" .ProxyToOrderService <|
     .handle "GET" "/{id}" .ProxyToOrderService <|
     .handle "PUT" "/{id}/status" .ProxyToOrderService <|
     .handle "DELETE" "/{id}" .ProxyToOrderService .done) .done

/-- The handler the health route registers (lines 43-47). -/
def health : Handler := fun c _ =>
  let w := { c.w with header := c.w.header.Set "Content-Type" "application/json" }
  match w.WriteHeader 200 with
  | none => none
  | some w => some { c with w := w.Write (bytes "\x7b\"status\":\"ok\",\"service\":\"gateway\"\x7d") }

/-- The middlewares of `main` as functions.  `global` stands for the five
middlewares installed on every route: `Logger` and `Recoverer` of chi and
`RequestIDMiddleware`, `CORSMiddleware`, `rateLimiter.Middleware` of package
`middleware`. -/
def middlewareOf (global : Mw → Chi.Middleware) (lib : Jwt.Lib) (now : Time) (cfg : Config) :
    Mw → Chi.Middleware
  | .JWTAuthMiddleware => Middleware.JWTAuthMiddleware lib now cfg.jwtSecret
  | m => global m

/-- The handlers of `main` as functions, with the proxy `NewReverseProxy`
builds from the two backend URLs. -/
def endpointOf (env : Env) (cfg : Config) : Endpoint → Handler
  | .health => health
  | .ProxyToUserService =>
    Proxy.ProxyToUserService env (Proxy.NewReverseProxy cfg.userServiceURL cfg.orderServiceURL)
  | .ProxyToOrderService =>
    Proxy.ProxyToOrderService env (Proxy.NewReverseProxy cfg.userServiceURL cfg.orderServiceURL)

end Gateway

namespace Gateway

/-- The five middlewares `main` installs on the root router, in their order. -/
def globalStack : List Mw :=
  [.Logger, .Recoverer, .RequestIDMiddleware, .CORSMiddleware, .RateLimiter]

/-- The public routes of the spec: registration and login. -/
def isPublic (rt : Chi.Route Mw Endpoint) : Bool :=
  rt.method == "POST" &&
    (rt.pattern == "/api/v1/users/register" || rt.pattern == "/api/v1/users/login")

end Gateway

/-! ## `user-service/internal/middleware/auth_middleware.go` and the routes of
the user service -/

namespace UserService

/-- The body `respondWithError` encodes: `dto.Response` with `Success` false,
no `Data` (omitted when empty) and the `ErrorDTO`. -/
def errorBody (code message : String) : String :=
  "\x7b\"success\":false,\"error\":\x7b\"code\":" ++ jsonString code ++ ",\"message\":" ++
    jsonString message ++ "\x7d\x7d\n"

/-- Source function `respondWithError` of package `middleware` of the user
service. -/
def respondWithError (c : Conn) (status : Nat) (code message : String) : Option Conn :=
  let w := { c.w with header := c.w.header.Set "Content-Type" "application/json" }
  match w.WriteHeader status with
  | none => none
  | some w => some { c with w := w.Write (bytes (errorBody code message)) }

/-- Source function `AuthMiddleware` of the user service, at time `now`. -/
def AuthMiddleware (lib : Jwt.Lib) (s : jwtService) (now : Time) (next : Handler) : Handler :=
  fun c r =>
  let authHeader := r.Header.Get "Authorization"
  if authHeader = "" then
    respondWithError c 401 "UNAUTHORIZED" "authorization header required"
  else
    let parts := splitSpace authHeader
    if parts.length ≠ 2 ∨ parts.getD 0 "" ≠ "Bearer" then
      respondWithError c 401 "UNAUTHORIZED" "invalid authorization header format"
    else
      let token := parts.getD 1 ""
      match ValidateToken lib s now token with
      | .error _ => respondWithError c 401 "UNAUTHORIZED" "invalid or expired token"
      | .ok claims => next c { r with ctx := { r.ctx with user := some claims } }

/-- The loop of lines 52-58 of `AdminMiddleware`: one of the roles is the
string `admin`. -/
def hasAdminRole : List String → Bool
  | [] => false
  | role :: rest => if role = "admin" then true else hasAdminRole rest

/-- Source function `AdminMiddleware` of the user service. -/
def AdminMiddleware (next : Handler) : Handler := fun c r =>
  match r.ctx.user with
  | none => respondWithError c 401 "UNAUTHORIZED" "user not authenticated"
  | some claims =>
    if !hasAdminRole claims.Roles then
      respondWithError c 403 "FORBIDDEN" "admin access required"
    else next c r

/-- The middlewares the user service installs: four on the root router in
`main`, two in `RegisterRoutes`. -/
inductive Mw
  | Logger
  | Recoverer
  | RequestIDMiddleware
  | CORSMiddleware
  | AuthMiddleware
  | AdminMiddleware
  deriving DecidableEq, Repr

/-- The handlers the user service registers. -/
inductive Endpoint
  | Register
  | Login
  | GetProfile
  | UpdateProfile
  | GetUsers
  | health
  deriving DecidableEq, Repr

/-- Source function `UserHandler.RegisterRoutes`: the calls on the router,
followed by `rest`, the calls `main` makes after it. -/
def RegisterRoutes (rest : Chi.Router Mw Endpoint) : Chi.Router Mw Endpoint :=
  .route "/api/v1/users"
    (.handle "POST" "/register" .Register <|
     .handle "POST" "/login" .Login <|
     .group
      (.use .AuthMiddleware <|
       .handle "GET" "/profile" .GetProfile <|
       .handle "PUT" "/profile" .UpdateProfile <|
       .group (.use .AdminMiddleware <| .handle "GET" "/" .GetUsers .done) .done) .done)
    rest

/-- Lines 27-40 of `main` of the user service: the calls on the router. -/
def router : Chi.Router Mw Endpoint :=
  .use .Logger <| .use .Recoverer <| .use .RequestIDMiddleware <| .use .CORSMiddleware <|
  RegisterRoutes (.handle "GET" "/health" .health .done)

/-- The middlewares of the user service as functions; `global` stands for the
four installed on the root router. -/
def middlewareOf (global : Mw → Chi.Middleware) (lib : Jwt.Lib) (s : jwtService) (now : Time) :
    Mw → Chi.Middleware
  | .AuthMiddleware => AuthMiddleware lib s now
  | .AdminMiddleware => AdminMiddleware
  | m => global m

end UserService

/-! ## `order-service/internal/middleware/request_id_middleware.go` -/

namespace OrderService

/-- Source function `RequestIDMiddleware`.  `newID` is the value of
`uuid.New()`, read only when the request brings no id. -/
def RequestIDMiddleware (newID : UUID) (next : Handler) : Handler := fun c r =>
  let requestID := r.Header.Get "X-Request-ID"
  let requestID := if requestID = "" then newID.String else requestID
  let w := { c.w with header := c.w.header.Set "X-Request-ID" requestID }
  next { c with w := w } { r with ctx := { r.ctx with requestID := some requestID } }

end OrderService

/-! ## JSON values and the error bodies of the gateway as values -/

namespace Go

mutual
/-- A JSON value of the kinds the error bodies use: `null`, a boolean, a
string, an object. -/
inductive JSON
  | null
  | bool (b : Bool)
  | str (s : String)
  | obj (members : Members)
/-- The members of a JSON object, in the order in which they are written. -/
inductive Members
  | nil
  | cons (key : String) (value : JSON) (rest : Members)
end

mutual
/-- The text `encoding/json` writes for a value. -/
def JSON.encode : JSON → String
  | .null => "null"
  | .bool b => if b then "true" else "false"
  | .str s => jsonString s
  | .obj ms => "\x7b" ++ ms.encode ++ "\x7d"
/-- The members of an object, separated by commas. -/
def Members.encode : Members → String
  | .nil => ""
  | .cons k v .nil => jsonString k ++ ":" ++ v.encode
  | .cons k v (.cons k2 v2 rest) =>
    jsonString k ++ ":" ++ v.encode ++ "," ++ (Members.cons k2 v2 rest).encode
end

/-- The keys of the members. -/
def Members.keys : Members → List String
  | .nil => []
  | .cons k _ rest => k :: rest.keys

/-- The value of the first member with the given key. -/
def Members.get (key : String) : Members → Option JSON
  | .nil => none
  | .cons k v rest => if k = key then some v else rest.get key

/-- The keys of an object; no keys for a value that is not an object. -/
def JSON.keys : JSON → List String
  | .obj ms => ms.keys
  | _ => []

/-- The member of an object under a key. -/
def JSON.get (key : String) : JSON → Option JSON
  | .obj ms => ms.get key
  | _ => none

/-- The shape `{"success": false, "error": {"code": c, "message": m}}`, in any
order of the members: an object with the two members `success`, which is
false, and `error`, an object with the two members `code` and `message`,
which are the strings `c` and `m`. -/
def JSON.IsErrorEnvelope (v : JSON) (code message : String) : Prop :=
  v.keys.Perm ["success", "error"] ∧
  v.get "success" = some (.bool false) ∧
  ∃ e, v.get "error" = some e ∧ e.keys.Perm ["code", "message"] ∧
    e.get "code" = some (.str code) ∧ e.get "message" = some (.str message)

end Go

namespace Gateway

/-- The value `respondWithError` of package `proxy` encodes: the two maps of
lines 108-114; `encoding/json` writes the keys of a map sorted. -/
def Proxy.errorValue (code message : String) : JSON :=
  .obj (.cons "error" (.obj (.cons "code" (.str code) (.cons "message" (.str message) .nil)))
    (.cons "success" (.bool false) .nil))

/-- Go type `Error` of package `middleware`. -/
structure Middleware.Error where
  Code : String
  Message : String
  deriving DecidableEq, Repr

/-- Go type `ErrorResponse` of package `middleware`. -/
structure Middleware.ErrorResponse where
  Success : Bool
  Error : Option Middleware.Error
  deriving DecidableEq, Repr

/-- The JSON value of an `ErrorResponse`: the fields in the order of their
declaration, under the names of their `json` tags; a nil `Error` is `null`. -/
def Middleware.ErrorResponse.toJSON (e : Middleware.ErrorResponse) : JSON :=
  .obj (.cons "success" (.bool e.Success)
    (.cons "error"
      (match e.Error with
        | some err =>
          .obj (.cons "code" (.str err.Code) (.cons "message" (.str err.Message) .nil))
        | none => .null)
      .nil))

end Gateway

/-! ## `order-service/cmd/main.go` -/

namespace OrderService

/-- Lines 24-28 of `main` of the order service: the secret handed to
`RegisterRoutes`.  `environ` is `os.Getenv`. -/
def jwtSecret (environ : String → String) : String :=
  let jwtSecret := environ "JWT_SECRET"
  if jwtSecret = "" then "your-super-secret-jwt-key-change-in-production-12345" else jwtSecret

end OrderService

/-! ## The order service: `models/order.go`, `validator`, `repository`,
`events`, `service/order_service.go` -/

namespace Go

/-- Go type `float64`, as far as its values are told apart here: a rational
value (rounding is not modelled), an infinity, or NaN. -/
inductive Float64
  | finite (q : ℚ)
  | posInf
  | negInf
  | nan
  deriving DecidableEq

end Go

namespace OrderService

/-- Go type `models.OrderStatus`, a string. -/
abbrev OrderStatus := String

/-- Go constant `models.StatusCreated`. -/
def StatusCreated : OrderStatus := "created"

/-- Go constant `models.StatusInProgress`. -/
def StatusInProgress : OrderStatus := "in_progress"

/-- Go constant `models.StatusCompleted`. -/
def StatusCompleted : OrderStatus := "completed"

/-- Go constant `models.StatusCancelled`. -/
def StatusCancelled : OrderStatus := "cancelled"

/-- Go type `models.OrderItem`. -/
structure OrderItem where
  ProductName : String
  Quantity : Int
  Price : Float64
  deriving DecidableEq

/-- Go type `models.Order`. -/
structure Order where
  ID : UUID
  UserID : UUID
  Items : List OrderItem
  Status : OrderStatus
  TotalAmount : Float64
  CreatedAt : Time
  UpdatedAt : Time
  deriving DecidableEq

/-- Source function `Order.UpdateStatus`; `now` is `time.Now()`. -/
def Order.UpdateStatus (o : Order) (status : OrderStatus) (now : Time) : Order :=
  { o with Status := status, UpdatedAt := now }

/-- Source function `Order.Cancel`; `now` is `time.Now()`. -/
def Order.Cancel (o : Order) (now : Time) : Order :=
  { o with Status := StatusCancelled, UpdatedAt := now }

/-- Source function `ValidateOrderStatus`: `none` is the `nil` error. -/
def ValidateOrderStatus (status : String) : Option String :=
  let validStatuses : List (String × Bool) :=
    [("created", true), ("in_progress", true), ("completed", true), ("cancelled", true)]
  if !(validStatuses.lookup status).getD false then some "invalid order status" else none

/-- Source function `hasRole` of the order handlers. -/
def hasRole : List String → String → Bool
  | [], _ => false
  | r :: rest, role => if r = role then true else hasRole rest role

/-- The map `orders` of `InMemoryOrderRepository`, from an id to the order the
stored pointer points to. -/
abbrev Orders := AList (fun _ : UUID => Order)

/-- Source function `InMemoryOrderRepository.FindByID`. -/
def FindByID (orders : Orders) (id : UUID) : Except String Order :=
  match orders.lookup id with
  | none => .error "order not found"
  | some order => .ok order

/-- Source function `InMemoryOrderRepository.Update`. -/
def Update (orders : Orders) (order : Order) : Except String Orders :=
  match orders.lookup order.ID with
  | none => .error "order not found"
  | some _ => .ok (orders.insert order.ID order)

/-- Go type `events.EventType`. -/
inductive EventType
  | OrderCreated
  | OrderStatusUpdated
  | OrderCancelled
  deriving DecidableEq, Repr

/-- A value in the `Data` map of an event. -/
inductive DataValue
  | id (u : UUID)
  | status (s : OrderStatus)
  | amount (x : Float64)
  | count (n : Int)
  deriving DecidableEq

/-- Go type `events.OrderEvent`; `Typ` is its field `Type`. -/
structure OrderEvent where
  ID : UUID
  Typ : EventType
  Timestamp : Time
  Data : List (String × DataValue)
  deriving DecidableEq

/-- Source function `NewOrderStatusUpdatedEvent`; `id` is `uuid.New()` and
`now` is `time.Now()`. -/
def NewOrderStatusUpdatedEvent (id : UUID) (now : Time) (order : Order)
    (oldStatus : OrderStatus) : OrderEvent :=
  { ID := id, Typ := .OrderStatusUpdated, Timestamp := now
    Data := [("orderId", .id order.ID), ("userId", .id order.UserID),
      ("oldStatus", .status oldStatus), ("newStatus", .status order.Status)] }

/-- Source function `NewOrderCancelledEvent`. -/
def NewOrderCancelledEvent (id : UUID) (now : Time) (order : Order) : OrderEvent :=
  { ID := id, Typ := .OrderCancelled, Timestamp := now
    Data := [("orderId", .id order.ID), ("userId", .id order.UserID)] }

/-- What an `orderService` works on: the orders of its repository and the
events handed to `EventPublisher.Publish`, oldest first. -/
structure State where
  orders : Orders
  published : List OrderEvent := []

/-- The readings of the clock and the new id one operation makes: `now` for
the order, `eventID` and `eventTime` for the event. -/
structure Fresh where
  now : Time
  eventID : UUID
  eventTime : Time

/-- Source function `orderService.GetOrder`. -/
def GetOrder (st : State) (orderID userID : UUID) (isAdmin : Bool) : Except String Order :=
  match FindByID st.orders orderID with
  | .error err => .error err
  | .ok order =>
    if !isAdmin && order.UserID ≠ userID then .error "access denied"
    else .ok order

/-- Source function `orderService.UpdateOrderStatus`.  `FindByID` returns the
stored pointer, so `order.UpdateStatus` changes the stored order before
`repo.Update` is called; that is the `insert` under `orderID`. -/
def UpdateOrderStatus (st : State) (f : Fresh) (orderID userID : UUID) (status : String)
    (isAdmin : Bool) : Except String Order × State :=
  match FindByID st.orders orderID with
  | .error err => (.error err, st)
  | .ok order =>
    if !isAdmin && order.UserID ≠ userID then (.error "access denied", st)
    else
      let oldStatus := order.Status
      let order := order.UpdateStatus status f.now
      let changed := st.orders.insert orderID order
      match Update changed order with
      | .error err => (.error err, { st with orders := changed })
      | .ok orders =>
        let event := NewOrderStatusUpdatedEvent f.eventID f.eventTime order oldStatus
        (.ok order, { orders := orders, published := st.published ++ [event] })

/-- Source function `orderService.CancelOrder`, with the same remark on the
stored pointer. -/
def CancelOrder (st : State) (f : Fresh) (orderID userID : UUID) (isAdmin : Bool) :
    Except String Order × State :=
  match FindByID st.orders orderID with
  | .error err => (.error err, st)
  | .ok order =>
    if !isAdmin && order.UserID ≠ userID then (.error "access denied", st)
    else if order.Status = StatusCompleted then (.error "cannot cancel completed order", st)
    else
      let order := order.Cancel f.now
      let changed := st.orders.insert orderID order
      match Update changed order with
      | .error err => (.error err, { st with orders := changed })
      | .ok orders =>
        let event := NewOrderCancelledEvent f.eventID f.eventTime order
        (.ok order, { orders := orders, published := st.published ++ [event] })

end OrderService

/-! ## `order-service/validator/validator.go`: `ValidateCreateOrderRequest` -/

namespace Go

/-- Go comparison `x < y` on `float64`: false when either side is NaN. -/
def Float64.lt : Float64 → Float64 → Bool
  | .nan, _ => false
  | _, .nan => false
  | .negInf, .negInf => false
  | .negInf, _ => true
  | _, .negInf => false
  | .posInf, _ => false
  | .finite _, .posInf => true
  | .finite a, .finite b => decide (a < b)

/-- Go comparison `x == y` on `float64`: NaN is equal to nothing, the two
zeros (both `finite 0` here) are equal. -/
def Float64.eq : Float64 → Float64 → Bool
  | .nan, _ => false
  | _, .nan => false
  | a, b => decide (a = b)

end Go

namespace OrderService

/-- Go type `dto.OrderItemRequest`. -/
structure OrderItemRequest where
  ProductName : String
  Quantity : Int
  Price : Float64
  deriving DecidableEq

/-- Go type `dto.CreateOrderRequest`. -/
structure CreateOrderRequest where
  Items : List OrderItemRequest
  deriving DecidableEq

/-- Body of the loop of `ValidateCreateOrderRequest` for one item (lines
14-25): the error it returns, `none` when the loop goes on to the next item. -/
def validateItem (item : OrderItemRequest) : Option String :=
  if item.ProductName = "" then some "product name is required for all items"
  else if item.Quantity ≤ 0 then some "quantity must be greater than 0"
  else if item.Price.lt (.finite 0) then some "price cannot be negative"
  else if item.Price.eq (.finite 0) then some "price must be greater than 0"
  else none

/-- The loop of `ValidateCreateOrderRequest` (lines 13-27) over the items. -/
def validateItems : List OrderItemRequest → Option String
  | [] => none
  | item :: rest =>
    match validateItem item with
    | some err => some err
    | none => validateItems rest

/-- Source function `ValidateCreateOrderRequest`: `none` is the `nil` error. -/
def ValidateCreateOrderRequest (req : CreateOrderRequest) : Option String :=
  if req.Items.length = 0 then some "order must contain at least one item"
  else validateItems req.Items

end OrderService

/-! ## Go `int` arithmetic, slice expressions, `range` over a map, `sort.Slice` -/

namespace Go

/-- Go type `int` on a 64-bit platform: the value an arithmetic result wraps
around to (two's complement, 64 bits). -/
def wrapInt (x : Int) : Int :=
  (x + 9223372036854775808) % 18446744073709551616 - 9223372036854775808

/-- Go slice expression `s[lo:hi]`; `none` is the run-time panic "slice bounds
out of range".  Go admits `0 ≤ lo ≤ hi ≤ cap(s)`; the slices cut here are cut
with `hi ≤ len(s)` (the callers clamp `hi` to the length first), so the
capacity is taken to be the length. -/
def sliceRange {α : Type} (s : List α) (lo hi : Int) : Option (List α) :=
  if 0 ≤ lo ∧ lo ≤ hi ∧ hi ≤ (s.length : Int) then
    some ((s.drop lo.toNat).take (hi - lo).toNat)
  else none

/-- Go statement `for _, v := range m` on a map: the values in the order of the
iteration.  Go leaves the order open; here the entries come by increasing
`rank` of their keys, and as the keys of a map are distinct every order is
that of some `rank`. -/
def rangeValues {κ β : Type} (rank : κ → Nat) (m : AList (fun _ : κ => β)) : List β :=
  (m.entries.insertionSort (fun a b => rank a.1 ≤ rank b.1)).map (fun e => e.2)

/-- Go function `sort.Slice`: a rearrangement of the slice in which no element
is `less` than one before it (for a `less` that is a strict weak order).
`sort.Slice` is not stable; the order in which equal elements arrive is that
of the slice handed in, which here is already arbitrary. -/
def sortSlice {α : Type} (less : α → α → Bool) (s : List α) : List α :=
  s.insertionSort (fun a b => less b a = false)

end Go

/-! ## `order-service/internal/repository/order_repository.go`: `FindByUserID` -/

namespace OrderService

/-- Lines 65-81 of `FindByUserID`: the sort for the four known values of
`sortBy`, no sort for any other. -/
def sortOrders (sortBy : String) (userOrders : List Order) : List Order :=
  if sortBy = "createdAt_desc" then
    sortSlice (fun a b => decide (a.CreatedAt > b.CreatedAt)) userOrders
  else if sortBy = "createdAt_asc" then
    sortSlice (fun a b => decide (a.CreatedAt < b.CreatedAt)) userOrders
  else if sortBy = "totalAmount_desc" then
    sortSlice (fun a b => b.TotalAmount.lt a.TotalAmount) userOrders
  else if sortBy = "totalAmount_asc" then
    sortSlice (fun a b => a.TotalAmount.lt b.TotalAmount) userOrders
  else userOrders

/-- Source function `InMemoryOrderRepository.FindByUserID`: the page and the
total; the error result is always `nil`, and `none` is a run-time panic.
`rank` fixes the order of the iteration over the map; `endIdx` is the Go
variable `end`. -/
def FindByUserID (rank : UUID → Nat) (orders : Orders) (userID : UUID) (page limit : Int)
    (sortBy : String) : Option (List Order × Int) :=
  let userOrders := (rangeValues rank orders).filter (fun order => order.UserID = userID)
  let sorted := sortOrders sortBy userOrders
  let total : Int := (sorted.length : Int)
  let start := wrapInt (wrapInt (page - 1) * limit)
  let endIdx := wrapInt (start + limit)
  if start > total then some ([], total)
  else
    let endIdx := if endIdx > total then total else endIdx
    (sliceRange sorted start endIdx).map (fun orders => (orders, total))

end OrderService

/-! ## `user-service/internal/repository/user_repository.go` -/

namespace UserService

/-- The map `users` of `InMemoryUserRepository`, from an id to the user the
stored pointer points to. -/
abbrev Users := AList (fun _ : UUID => User)

/-- Source function `InMemoryUserRepository.Create`; `rank` fixes the order of
the iteration over the map. -/
def Create (rank : UUID → Nat) (users : Users) (user : User) : Except String Users :=
  if (rangeValues rank users).any (fun u => u.Email = user.Email) then
    .error "user with this email already exists"
  else .ok (users.insert user.ID user)

/-- Source function `InMemoryUserRepository.FindByID`. -/
def FindByID (users : Users) (id : UUID) : Except String User :=
  match users.lookup id with
  | none => .error "user not found"
  | some user => .ok user

/-- Source function `InMemoryUserRepository.FindByEmail`: the first user of the
iteration that has the email. -/
def FindByEmail (rank : UUID → Nat) (users : Users) (email : String) : Except String User :=
  match (rangeValues rank users).find? (fun user => user.Email = email) with
  | some user => .ok user
  | none => .error "user not found"

/-- Source function `InMemoryUserRepository.Update`. -/
def Update (users : Users) (user : User) : Except String Users :=
  match users.lookup user.ID with
  | none => .error "user not found"
  | some _ => .ok (users.insert user.ID user)

/-- Lines 86-92 of `FindAll`: the inner loop over the roles of a user. -/
def hasRole : List String → String → Bool
  | [], _ => false
  | r :: rest, role => if r = role then true else hasRole rest role

/-- Source function `InMemoryUserRepository.FindAll`: the page and the total;
the error result is always `nil`, and `none` is a run-time panic.  `rank`
fixes the order of the iteration over the map; `endIdx` is the Go variable
`end`. -/
def FindAll (rank : UUID → Nat) (users : Users) (page limit : Int) (role : String) :
    Option (List User × Int) :=
  let filtered := (rangeValues rank users).filter
    (fun user => if role ≠ "" then hasRole user.Roles role else true)
  let total : Int := (filtered.length : Int)
  let start := wrapInt (wrapInt (page - 1) * limit)
  let endIdx := wrapInt (start + limit)
  if start > total then some ([], total)
  else
    let endIdx := if endIdx > total then total else endIdx
    (sliceRange filtered start endIdx).map (fun users => (users, total))

end UserService

/-! ## `user-service/models/user_model.go` and
`user-service/internal/service/user_service.go` -/

namespace UserService

/-- Go type `dto.RegisterRequest`. -/
structure RegisterRequest where
  Email : String
  Password : String
  Name : String
  deriving DecidableEq

/-- Go type `dto.LoginRequest`. -/
structure LoginRequest where
  Email : String
  Password : String
  deriving DecidableEq

/-- Go type `dto.UpdateProfileRequest`. -/
structure UpdateProfileRequest where
  Name : String
  deriving DecidableEq

/-- What one call of `Register` takes from outside: the orders of the two
iterations over the map (in `FindByEmail` and in `Create`), the result of
`bcrypt.GenerateFromPassword` with the salt of this call as a function of the
password, the value of `uuid.New()` and the two readings of `time.Now()`. -/
structure Outside where
  rankFind : UUID → Nat
  rankCreate : UUID → Nat
  generateFromPassword : String → Except String String
  newID : UUID
  createdAt : Time
  updatedAt : Time

/-- Source function `models.NewUser`. -/
def NewUser (f : Outside) (email password name : String) : Except String User :=
  match f.generateFromPassword password with
  | .error err => .error err
  | .ok hashedPassword =>
    .ok { ID := f.newID
          Email := email
          Password := hashedPassword
          Name := name
          Roles := ["user"]
          CreatedAt := f.createdAt
          UpdatedAt := f.updatedAt }

/-- Source function `User.CheckPassword`; `compare hash password` tells whether
`bcrypt.CompareHashAndPassword` returns no error. -/
def User.CheckPassword (compare : String → String → Bool) (u : User) (password : String) :
    Bool :=
  compare u.Password password

/-- Source function `userService.Register`: the result and the store after the
call. -/
def Register (f : Outside) (users : Users) (req : RegisterRequest) :
    Except String User × Users :=
  match FindByEmail f.rankFind users req.Email with
  | .ok _ => (.error "user with this email already exists", users)
  | .error _ =>
    match NewUser f req.Email req.Password req.Name with
    | .error err => (.error err, users)
    | .ok user =>
      match Create f.rankCreate users user with
      | .error err => (.error err, users)
      | .ok users' => (.ok user, users')

/-- Source function `userService.Login`: the user and the token, or the error
(with which Go returns no user and the empty token).  `GenerateToken` returns
no error. -/
def Login (rank : UUID → Nat) (compare : String → String → Bool) (lib : Jwt.Lib)
    (s : jwtService) (now now2 : Time) (users : Users) (req : LoginRequest) :
    Except String (User × String) :=
  match FindByEmail rank users req.Email with
  | .error _ => .error "invalid credentials"
  | .ok user =>
    if !user.CheckPassword compare req.Password then .error "invalid credentials"
    else .ok (user, GenerateToken lib s now now2 user)

/-- Source function `userService.GetProfile`. -/
def GetProfile (users : Users) (userID : UUID) : Except String User :=
  FindByID users userID

/-- Source function `userService.UpdateProfile`: the result and the store after
the call.  `FindByID` hands out the stored pointer, so the two assignments
change the stored user under `userID` before `Update` is called. -/
def UpdateProfile (users : Users) (userID : UUID) (req : UpdateProfileRequest) (now : Time) :
    Except String User × Users :=
  match FindByID users userID with
  | .error err => (.error err, users)
  | .ok user =>
    let user' : User := { user with Name := req.Name, UpdatedAt := now }
    let users' : Users := users.insert userID user'
    match Update users' user' with
    | .error err => (.error err, users')
    | .ok users'' => (.ok user', users'')

/-- Source function `userService.GetUsers`. -/
def GetUsers (rank : UUID → Nat) (users : Users) (page limit : Int) (role : String) :
    Option (List User × Int) :=
  FindAll rank users page limit role

/-- One call of an operation of `UserService`, with what it takes from
outside. -/
inductive Call
  | register (f : Outside) (req : RegisterRequest)
  | login (rank : UUID → Nat) (now now2 : Time) (req : LoginRequest)
  | getProfile (userID : UUID)
  | updateProfile (userID : UUID) (req : UpdateProfileRequest) (now : Time)
  | getUsers (rank : UUID → Nat) (page limit : Int) (role : String)

/-- The store after a call: `Login`, `GetProfile` and `GetUsers` only read. -/
def Call.run (users : Users) : Call → Users
  | .register f req => (Register f users req).2
  | .login _ _ _ _ => users
  | .getProfile _ => users
  | .updateProfile userID req now => (UpdateProfile users userID req now).2
  | .getUsers _ _ _ _ => users

/-- The store after a sequence of calls, one after the other. -/
def runAll (users : Users) (calls : List Call) : Users :=
  calls.foldl Call.run users

/-- The id `uuid.New()` returns in a call of `Register` is not in use in the
store; the other calls draw no id. -/
def Call.NewIDUnused (users : Users) : Call → Prop
  | .register f _ => users.lookup f.newID = none
  | _ => True

/-- No two stored users have the same email. -/
def EmailsUnique (users : Users) : Prop :=
  ∀ (id1 id2 : UUID) (u1 u2 : User),
    users.lookup id1 = some u1 → users.lookup id2 = some u2 → u1.Email = u2.Email → id1 = id2

end UserService

namespace UserService

/-- What holds of every store the operations can produce: users are stored
under their ids, emails are unique, and the roles are `user`. -/
def Sound (users : Users) : Prop :=
  (∀ id u, users.lookup id = some u → u.ID = id) ∧ EmailsUnique users ∧
    ∀ id u, users.lookup id = some u → u.Roles = ["user"]

end UserService

/-! ## Concrete inputs

A backend base URL, inbound requests, upstream behaviours and a token library
small enough to evaluate, used where a statement is checked on a concrete
input. -/

namespace Sample

/-- The values `url.Parse` returns on the URL strings the examples use. -/
def urlParse (s : String) : Option Url.URL :=
  if s = "http://order:3002" then some { Scheme := "http", Host := "order:3002" }
  else if s = "http://order:3002/api/v1/orders/abc?x=1" then
    some { Scheme := "http", Host := "order:3002", Path := "/api/v1/orders/abc", RawQuery := "x=1" }
  else if s = "http://order:3002/api/v1/orders/a/b" then
    some { Scheme := "http", Host := "order:3002", Path := "/api/v1/orders/a/b" }
  else if s = "http://order:3002/api/v1/orders/a%2Fb" then
    some { Scheme := "http", Host := "order:3002", Path := "/api/v1/orders/a/b",
           RawPath := "/api/v1/orders/a%2Fb" }
  else if s = "http://order:3002/api/v1/orders/" then
    some { Scheme := "http", Host := "order:3002", Path := "/api/v1/orders/" }
  else none

/-- An upstream answer: 201 with a JSON body. -/
def created : Response :=
  { StatusCode := 201
    Header := (∅ : Header).insert "Content-Type" ["application/json"]
    Body := ⟨bytes "\x7b\"id\":\"42\"\x7d", none⟩ }

/-- A backend that answers every request with `created`. -/
def envUp : Env := ⟨urlParse, fun _ => .ok created⟩

/-- A backend that cannot be reached. -/
def envDown : Env := ⟨urlParse, fun _ => .error "dial tcp: connection refused"⟩

/-- A connection on which the request-id middleware has set its header and
nothing is written yet. -/
def conn : Conn := { w := ResponseWriter.fresh ((∅ : Header).insert "X-Request-Id" ["req-1"]) }

/-- Inbound `GET /api/v1/orders/abc?x=1` over plain HTTP. -/
def getOrder : Request :=
  { Method := "GET"
    URL := { Path := "/api/v1/orders/abc", RawQuery := "x=1" }
    Header := ((∅ : Header).insert "Accept" ["application/json"]).insert
      "X-Forwarded-For" ["10.0.0.1"]
    Host := "gateway.example:8080"
    RemoteAddr := "203.0.113.7:51000" }

/-- Inbound `GET /api/v1/orders/a%2Fb`: the server stores the decoded path in
`Path` and the path as sent in `RawPath`. -/
def getEscaped : Request :=
  { Method := "GET"
    URL := { Path := "/api/v1/orders/a/b", RawPath := "/api/v1/orders/a%2Fb" }
    Host := "gateway.example:8080"
    RemoteAddr := "203.0.113.7:51000" }

/-- Inbound `GET /api/v1/orders/` over plain HTTP; the URL of a server request
is parsed from the request line and has no scheme. -/
def listOrders : Request :=
  { Method := "GET"
    URL := { Path := "/api/v1/orders/" }
    Host := "gateway.example:8080"
    RemoteAddr := "203.0.113.7:51000" }

/-- The outbound request `proxy` builds from `getOrder` for the base
`http://order:3002`. -/
def getOrderOutbound : Request :=
  { Method := "GET"
    URL := { Scheme := "http", Host := "order:3002", Path := "/api/v1/orders/abc", RawQuery := "x=1" }
    Header := ((((∅ : Header).insert "Accept" ["application/json"]).insert
      "X-Forwarded-For" ["203.0.113.7:51000"]).insert
      "X-Forwarded-Host" ["gateway.example:8080"]).insert "X-Forwarded-Proto" [""]
    Body := some ⟨[], none⟩
    Host := "order:3002" }

/-- The scheme of the client-facing request: `https` when the request arrived
over TLS, else `http`. -/
def clientScheme (r : Request) : String := if r.TLS then "https" else "http"

/-- A user id. -/
def userID : UUID :=
  ⟨[0x12, 0x3e, 0x45, 0x67, 0xe8, 0x9b, 0x12, 0xd3, 0xa4, 0x56, 0x42, 0x66, 0x14, 0x17, 0x40, 0x00],
    by decide⟩

/-- A registered user. -/
def user : UserService.User :=
  { ID := userID, Email := "ann@example.com", Password := "$2a$10$hash", Name := "Ann",
    Roles := ["user"], CreatedAt := 0, UpdatedAt := 0 }

/-- The time at which the sample token is issued. -/
def issuedAt : Time := 1700000000 * Second

/-- Claims of the sample user that expire at the given second. -/
def claimsUntil (sec : Int) : Claims :=
  { UserID := userID, Email := "ann@example.com", Roles := ["user"],
    RegisteredClaims := { ExpiresAt := some ⟨sec⟩, IssuedAt := some ⟨1700000000⟩ } }

/-- A stand-in for the signing string of a token. -/
def signingString (alg : String) (c : Claims) : String := alg ++ "." ++ c.Email

/-- A stand-in for base64url. -/
def encodeSegment (sig : List UInt8) : String := String.mk (sig.map fun b => Char.ofNat b.toNat)

/-- A stand-in for HMAC. -/
def hmac (_ : Jwt.Hash) (key : List UInt8) (msg : String) : List UInt8 := key ++ bytes msg

/-- The secret of the examples. -/
def secret : String := "k"

/-- The token of the sample user, as `GenerateToken` builds it with the
stand-ins above. -/
def goodToken : String :=
  signingString "HS256" (claimsUntil 1700086400) ++ "." ++
    encodeSegment (hmac .SHA256 (bytes secret) (signingString "HS256" (claimsUntil 1700086400)))

/-- A token library that knows five token strings: the good one, one that
expired, one signed with another secret, one that declares `alg` none and one
that declares RS256; every other string is malformed. -/
def lib : Jwt.Lib where
  decode s :=
    if s = goodToken then
      some ⟨some "HS256", claimsUntil 1700086400, signingString "HS256" (claimsUntil 1700086400),
        some (hmac .SHA256 (bytes secret) (signingString "HS256" (claimsUntil 1700086400)))⟩
    else if s = "expired" then
      some ⟨some "HS256", claimsUntil 1600000000, "e", some (hmac .SHA256 (bytes secret) "e")⟩
    else if s = "forged" then
      some ⟨some "HS256", claimsUntil 1700086400, "f", some (hmac .SHA256 (bytes "other") "f")⟩
    else if s = "unsigned" then
      some ⟨some "none", claimsUntil 1700086400, "n", some []⟩
    else if s = "rs256" then
      some ⟨some "RS256", claimsUntil 1700086400, "r", some (hmac .SHA256 (bytes secret) "r")⟩
    else none
  signingString := signingString
  encodeSegment := encodeSegment
  hmac := hmac
  verifyPublic := fun _ _ _ _ => true

/-- A request to a protected route with the given `Authorization` values and a
client-supplied `X-User-Id`. -/
def withAuth (auth : List String) : Request :=
  { Method := "GET"
    URL := { Path := "/api/v1/orders/" }
    Header := ((∅ : Header).insert "Authorization" auth).insert "X-User-Id" ["intruder"]
    Host := "gateway.example:8080"
    RemoteAddr := "203.0.113.7:51000" }

/-- A request to a protected route without an `Authorization` header. -/
def noAuth : Request := listOrders

/-- The good token after `jwt.ParseWithClaims`. -/
def goodParsed : Jwt.Token :=
  { Raw := goodToken
    Method := .HMAC .SHA256
    Claims := claimsUntil 1700086400
    Signature := hmac .SHA256 (bytes secret) (signingString "HS256" (claimsUntil 1700086400))
    Valid := true }

/-- Inbound `POST /api/v1/orders/` whose body cannot be read to its end. -/
def brokenBody : Request :=
  { Method := "POST"
    URL := { Path := "/api/v1/orders/" }
    Body := some ⟨bytes "\x7b\"items\":", some "unexpected EOF"⟩
    Host := "gateway.example:8080"
    RemoteAddr := "203.0.113.7:51000" }

/-- Claims of the sample user with the given roles. -/
def claimsWithRoles (roles : List String) : Claims :=
  { UserID := userID, Email := "ann@example.com", Roles := roles }

/-- A request to the listing route of the user service after `AuthMiddleware`:
the verified claims are in its context. -/
def listUsers (roles : List String) : Request :=
  { Method := "GET"
    URL := { Path := "/api/v1/users/" }
    Host := "user:3001"
    RemoteAddr := "10.0.0.2:40000"
    ctx := { user := some (claimsWithRoles roles) } }

/-- A listing handler that answers 200 with an empty page. -/
def listingHandler : Handler := fun c _ =>
  match c.w.WriteHeader 200 with
  | none => none
  | some w => some { c with w := w.Write (bytes "\x7b\"success\":true,\"data\":[]\x7d\n") }

/-- An environment in which no variable is set. -/
def noEnvironment : String → String := fun _ => ""

/-- The token a user service with the default secret issues for the sample
user at `issuedAt`, with the stand-ins for the codec and for HMAC. -/
def defaultToken : String :=
  signingString "HS256" (claimsUntil 1700086400) ++ "." ++
    encodeSegment (hmac .SHA256 (bytes "your-secret-key-change-in-production")
      (signingString "HS256" (claimsUntil 1700086400)))

/-- A token library that knows the token `defaultToken`. -/
def libDefault : Jwt.Lib where
  decode s :=
    if s = defaultToken then
      some ⟨some "HS256", claimsUntil 1700086400, signingString "HS256" (claimsUntil 1700086400),
        some (hmac .SHA256 (bytes "your-secret-key-change-in-production")
          (signingString "HS256" (claimsUntil 1700086400)))⟩
    else none
  signingString := signingString
  encodeSegment := encodeSegment
  hmac := hmac
  verifyPublic := fun _ _ _ _ => true

/-- The id of the sample order. -/
def orderID : UUID :=
  ⟨[0xaa, 0, 0, 0, 0, 0, 0, 0, 0, 0, 0, 0, 0, 0, 0, 1], by decide⟩

/-- The id of a user who is not the owner of the sample order. -/
def otherUserID : UUID :=
  ⟨[0xbb, 0, 0, 0, 0, 0, 0, 0, 0, 0, 0, 0, 0, 0, 0, 2], by decide⟩

/-- An order of the sample user that is completed. -/
def completedOrder : OrderService.Order :=
  { ID := orderID, UserID := userID
    Items := [⟨"book", 1, .finite 10⟩]
    Status := OrderService.StatusCompleted
    TotalAmount := .finite 10
    CreatedAt := issuedAt, UpdatedAt := issuedAt + 60 * Second }

/-- An order service that stores the completed order and has published
nothing. -/
def orderState : OrderService.State :=
  { orders := (∅ : OrderService.Orders).insert orderID completedOrder }

/-- The clock and the new id of one operation. -/
def fresh : OrderService.Fresh :=
  { now := issuedAt + 120 * Second
    eventID := ⟨[0xee, 0, 0, 0, 0, 0, 0, 0, 0, 0, 0, 0, 0, 0, 0, 3], by decide⟩
    eventTime := issuedAt + 120 * Second }

/-- An order request with one item whose price is NaN. -/
def nanPriceRequest : OrderService.CreateOrderRequest :=
  { Items := [{ ProductName := "pen", Quantity := 1, Price := .nan }] }

/-- An order request with a good item followed by one without a name and with
a negative price. -/
def mixedRequest : OrderService.CreateOrderRequest :=
  { Items := [{ ProductName := "pen", Quantity := 2, Price := .finite 3 },
              { ProductName := "", Quantity := 0, Price := .finite (-1) }] }

/-- A second user id. -/
def secondUserID : UUID :=
  ⟨[0x22, 0, 0, 0, 0, 0, 0, 0, 0, 0, 0, 0, 0, 0, 0, 0x02], by decide⟩

/-- A second registered user. -/
def secondUser : UserService.User :=
  { ID := secondUserID, Email := "bob@example.com", Password := "$2a$10$other", Name := "Bob",
    Roles := ["user"], CreatedAt := 5, UpdatedAt := 5 }

/-- A user store with the two sample users. -/
def users : UserService.Users :=
  ((∅ : UserService.Users).insert userID user).insert secondUserID secondUser

/-- An iteration order for maps keyed by ids: by the first byte of the id. -/
def byFirstByte (id : UUID) : Nat := (id.val.headD 0).toNat

/-- What the sample registrations take from outside; the stand-in for bcrypt
puts a marker before the password. -/
def outside (id : UUID) (t : Time) : UserService.Outside :=
  { rankFind := fun _ => 0
    rankCreate := byFirstByte
    generateFromPassword := fun password => .ok ("$2a$10$" ++ password)
    newID := id
    createdAt := t
    updatedAt := t }

/-- The stand-in for `bcrypt.CompareHashAndPassword` that goes with it. -/
def compare (hash password : String) : Bool := hash = "$2a$10$" ++ password

/-- A registration request for Ann. -/
def registerAnn : UserService.RegisterRequest :=
  { Email := "ann@example.com", Password := "secret1", Name := "Ann" }

/-- A registration request with the email of Ann and another name. -/
def registerAnnAgain : UserService.RegisterRequest :=
  { Email := "ann@example.com", Password := "secret2", Name := "Anna" }

/-- A sequence of calls: Ann registers, logs in, changes her name, and a
second registration with her email follows. -/
def calls : List UserService.Call :=
  [.register (outside userID 10) registerAnn,
   .login (fun _ => 0) 20 20 ⟨"ann@example.com", "secret1"⟩,
   .updateProfile userID ⟨"Ann B."⟩ 30,
   .register (outside secondUserID 40) registerAnnAgain]

/-- An upstream response with the status line `HTTP/1.1 042 Odd`: three
digits, so `http.ReadResponse` accepts it, with the status code 42. -/
def odd : Response :=
  { StatusCode := 42
    Header := (∅ : Header).insert "Content-Type" ["application/json"]
    Body := ⟨bytes "\x7b\"id\":\"42\"\x7d", none⟩ }

/-- A backend that answers every request with `odd`. -/
def envOdd : Env := ⟨urlParse, fun _ => .ok odd⟩

end Sample

/-! ## Lemmas on headers and on the error responses -/

namespace Go.Header

theorem index_insert (h : Header) (k key : String) (vs : List String) :
    Header.index (h.insert key vs) k = if k = key then vs else h.index k := by
  unfold index
  by_cases hk : k = key
  · subst hk; simp [AList.lookup_insert]
  · simp [AList.lookup_insert_ne hk, hk]

theorem index_Set (h : Header) (k key v : String) :
    (h.Set key v).index k = if k = CanonicalMIMEHeaderKey key then [v] else h.index k := by
  unfold Set; exact index_insert _ _ _ _

theorem index_Add (h : Header) (k key v : String) :
    (h.Add key v).index k =
      if k = CanonicalMIMEHeaderKey key then h.index k ++ [v] else h.index k := by
  unfold Add
  rw [index_insert]
  by_cases hk : k = CanonicalMIMEHeaderKey key
  · subst hk; simp
  · simp [hk]

theorem index_foldl_Add (vs : List String) (h : Header) (k key : String) :
    (vs.foldl (fun h v => h.Add key v) h).index k =
      if k = CanonicalMIMEHeaderKey key then h.index k ++ vs else h.index k := by
  induction vs generalizing h with
  | nil => simp
  | cons v vs ih =>
    rw [List.foldl_cons, ih, index_Add]
    by_cases hk : k = CanonicalMIMEHeaderKey key
    · simp [hk]
    · simp [hk]

theorem index_foldl_entries (l : List (Σ _ : String, List String)) (hnd : l.NodupKeys)
    (hcanon : ∀ k ∈ l.keys, CanonicalMIMEHeaderKey k = k) (dst : Header) (k : String) :
    (l.foldl (fun h e => e.2.foldl (fun h v => h.Add e.1 v) h) dst).index k =
      dst.index k ++ (l.dlookup k).getD [] := by
  induction l generalizing dst with
  | nil => simp
  | cons e l ih =>
    obtain ⟨ek, ev⟩ := e
    rw [List.nodupKeys_cons] at hnd
    have hc : CanonicalMIMEHeaderKey ek = ek := hcanon ek (by simp [List.keys])
    have hcl : ∀ k ∈ l.keys, CanonicalMIMEHeaderKey k = k := fun k hk =>
      hcanon k (by simp [List.keys] at hk ⊢; exact Or.inr hk)
    rw [List.foldl_cons, ih hnd.2 hcl, index_foldl_Add, hc]
    by_cases hk : k = ek
    · subst hk
      have : l.dlookup k = none := List.dlookup_eq_none.mpr hnd.1
      simp [this, List.dlookup_cons_eq]
    · simp [hk, List.dlookup_cons_ne l (s := ⟨ek, ev⟩) hk]

theorem index_empty (k : String) : Header.index (∅ : Header) k = [] := by
  simp [index]

theorem canonical_Set (h : Header) (key v : String)
    (hkey : CanonicalMIMEHeaderKey (CanonicalMIMEHeaderKey key) = CanonicalMIMEHeaderKey key)
    (hc : h.Canonical) : (h.Set key v).Canonical := by
  intro k hk
  unfold Set at hk
  rw [← AList.mem_keys, AList.mem_insert] at hk
  rcases hk with rfl | hk
  · exact hkey
  · exact hc k (AList.mem_keys.mp hk)

end Go.Header

namespace Gateway.Proxy

/-- Copying a header with canonical keys appends, key by key, the values of the
source to those of the destination. -/
theorem addAll_index (dst src : Header) (hc : src.Canonical) (k : String) :
    (addAll dst src).index k = dst.index k ++ src.index k := by
  unfold addAll
  rw [Header.index_foldl_entries src.entries src.nodupKeys hc dst k]
  rfl

/-- What `respondWithError` leaves on a connection on which no header was sent. -/
theorem proxy_respondWithError_fresh (c : Conn) (status : Nat) (code message : String)
    (hfresh : c.w.sent = none) (hs : 100 ≤ status ∧ status ≤ 999) :
    respondWithError c status code message =
      some { c with w :=
        { header := c.w.header.Set "Content-Type" "application/json"
          sent := some (status, c.w.header.Set "Content-Type" "application/json")
          body := c.w.body ++ bytes (errorBody code message) } } := by
  have h1 : ¬ (status < 100 ∨ 999 < status) := by omega
  simp [respondWithError, ResponseWriter.WriteHeader, ResponseWriter.Write, hfresh, h1]

/-- The header of a request made by `http.NewRequest` is empty. -/
theorem NewRequest_header (env : Env) (method url : String) (body : List UInt8) (q : Request)
    (h : NewRequest env method url body = some q) : q.Header = ∅ := by
  by_cases hv : validMethod (if method = "" then "GET" else method) = true
  · cases hp : env.urlParse url with
    | none => simp [NewRequest, hv, hp] at h
    | some u =>
      simp only [NewRequest, hv, hp, if_true, Option.some.injEq] at h
      rw [← h]
  · simp [NewRequest, hv] at h

/-- A request that `buildProxyReq` returns carries the header of lines 67-77,
built on the empty header of `http.NewRequest`. -/
theorem buildProxyReq_header (env : Env) (r : Request) (targetURL : String) (q : Request)
    (h : buildProxyReq env r targetURL = .ok q) :
    q.Header = (((addAll ∅ r.Header).Set "X-Forwarded-For" r.RemoteAddr).Set
      "X-Forwarded-Host" r.Host).Set "X-Forwarded-Proto" r.URL.Scheme := by
  unfold buildProxyReq at h
  split at h
  · cases h
  · split at h
    · cases h
    · split at h
      · cases h
      · rename_i proxyReq hnew
        have hq : proxyReq.Header = ∅ := NewRequest_header _ _ _ _ _ hnew
        cases h
        simp [outboundHeader, hq]

/-- The header of the outbound request, key by key, for an inbound header with
canonical keys: the three forwarding headers hold one value each, every other
key holds the inbound values. -/
theorem buildProxyReq_header_index (env : Env) (r : Request) (targetURL : String) (q : Request)
    (h : buildProxyReq env r targetURL = .ok q) (hc : r.Header.Canonical) (k : String) :
    q.Header.index k =
      if k = "X-Forwarded-Proto" then [r.URL.Scheme]
      else if k = "X-Forwarded-Host" then [r.Host]
      else if k = "X-Forwarded-For" then [r.RemoteAddr]
      else r.Header.index k := by
  have h1 : CanonicalMIMEHeaderKey "X-Forwarded-Proto" = "X-Forwarded-Proto" := by decide
  have h2 : CanonicalMIMEHeaderKey "X-Forwarded-Host" = "X-Forwarded-Host" := by decide
  have h3 : CanonicalMIMEHeaderKey "X-Forwarded-For" = "X-Forwarded-For" := by decide
  rw [buildProxyReq_header env r targetURL q h, Header.index_Set, Header.index_Set,
    Header.index_Set, addAll_index _ _ hc, Header.index_empty, h1, h2, h3, List.nil_append]

end Gateway.Proxy

namespace Gateway.Middleware

/-- What `respondWithError` leaves on a connection on which no header was sent. -/
theorem middleware_respondWithError_fresh (c : Conn) (status : Nat) (code message : String)
    (hfresh : c.w.sent = none) (hs : 100 ≤ status ∧ status ≤ 999) :
    respondWithError c status code message =
      some { c with w :=
        { header := c.w.header.Set "Content-Type" "application/json"
          sent := some (status, c.w.header.Set "Content-Type" "application/json")
          body := c.w.body ++ bytes (errorBody code message) } } := by
  have h1 : ¬ (status < 100 ∨ 999 < status) := by omega
  simp [respondWithError, ResponseWriter.WriteHeader, ResponseWriter.Write, hfresh, h1]

end Gateway.Middleware

/-! ## The reverse proxy: claims C1 to C4 -/

open Gateway

/-- C1, the code at the failing input.  For inbound `GET /api/v1/orders/a%2Fb`
the server stores the decoded path `/api/v1/orders/a/b` in `Path` and the path
as sent in `RawPath`.  `proxy` copies `Path` and `RawQuery` only, so for the
base `http://order:3002` the URL it hands to `http.NewRequest`, and calls, is
`http://order:3002/api/v1/orders/a/b`: the escape `%2F` of the inbound path
has become a path separator.  The example of the spec, which holds no escape,
comes out as the spec writes it. -/
theorem proxy_target_loses_escaped_slash :
    Sample.getEscaped.URL.pathSetFrom "/api/v1/orders/a%2Fb" = true ∧
    (Proxy.targetOf Sample.envUp Sample.getEscaped "http://order:3002").map Url.URL.String =
      some "http://order:3002/api/v1/orders/a/b" ∧
    (Proxy.proxy Sample.envUp "http://order:3002" Sample.conn Sample.getEscaped).map
      (fun c => c.calls.map fun q => q.URL.String) =
      some ["http://order:3002/api/v1/orders/a/b"] ∧
    "http://order:3002/api/v1/orders/a/b" ≠ "http://order:3002" ++ "/api/v1/orders/a%2Fb" ∧
    (Proxy.targetOf Sample.envUp Sample.getOrder "http://order:3002").map Url.URL.String =
      some "http://order:3002/api/v1/orders/abc?x=1" := by
  refine ⟨by decide, by decide, by decide, by decide, by decide⟩

/-- C2.  When the outbound call is made and `http.Client.Do` returns an error,
`proxy` answers with status 502 (not 500) and the body
`{"error":{"code":"SERVICE_UNAVAILABLE","message":"target service is unavailable"},"success":false}`;
the header block is the one the gateway had, with `Content-Type` set, and the
body holds nothing else: nothing of an upstream response is written.  The call
is recorded once. -/
theorem proxy_failed_call_gives_502 (env : Env) (targetURL : String) (c : Conn) (r q : Request)
    (err : String) (hfresh : c.w.sent = none)
    (hreq : Proxy.buildProxyReq env r targetURL = .ok q)
    (hdo : env.clientDo q = .error err) :
    ∃ c', Proxy.proxy env targetURL c r = some c' ∧
      c'.w.status = some 502 ∧ c'.w.status ≠ some 500 ∧
      c'.w.sentHeader = some (c.w.header.Set "Content-Type" "application/json") ∧
      c'.w.body = c.w.body ++ bytes
        "\x7b\"error\":\x7b\"code\":\"SERVICE_UNAVAILABLE\",\"message\":\"target service is unavailable\"\x7d,\"success\":false\x7d\n" ∧
      c'.calls = c.calls ++ [q] := by
  have hb : Proxy.errorBody "SERVICE_UNAVAILABLE" "target service is unavailable" =
      "\x7b\"error\":\x7b\"code\":\"SERVICE_UNAVAILABLE\",\"message\":\"target service is unavailable\"\x7d,\"success\":false\x7d\n" := by
    decide
  have hp : Proxy.proxy env targetURL c r =
      Proxy.respondWithError { c with calls := c.calls ++ [q] } 502
        "SERVICE_UNAVAILABLE" "target service is unavailable" := by
    simp only [Proxy.proxy, hreq, hdo]
  rw [hp, Proxy.proxy_respondWithError_fresh { c with calls := c.calls ++ [q] } 502 _ _ hfresh
    (by omega), hb]
  exact ⟨_, rfl, rfl, by simp [ResponseWriter.status], rfl, rfl, rfl⟩

/-- C2 on a concrete input: `GET /api/v1/orders/abc?x=1` while the order
backend refuses the connection. -/
theorem proxy_failed_call_gives_502_witness :
    Sample.conn.w.sent = none ∧
    Proxy.buildProxyReq Sample.envDown Sample.getOrder "http://order:3002" =
      .ok Sample.getOrderOutbound ∧
    Sample.envDown.clientDo Sample.getOrderOutbound = .error "dial tcp: connection refused" ∧
    ∃ c', Proxy.proxy Sample.envDown "http://order:3002" Sample.conn Sample.getOrder = some c' ∧
      c'.w.status = some 502 ∧ c'.w.status ≠ some 500 ∧
      c'.w.sentHeader = some (Sample.conn.w.header.Set "Content-Type" "application/json") ∧
      c'.w.body = Sample.conn.w.body ++ bytes
        "\x7b\"error\":\x7b\"code\":\"SERVICE_UNAVAILABLE\",\"message\":\"target service is unavailable\"\x7d,\"success\":false\x7d\n" ∧
      c'.calls = Sample.conn.calls ++ [Sample.getOrderOutbound] :=
  ⟨rfl, rfl, rfl,
    proxy_failed_call_gives_502 Sample.envDown "http://order:3002" Sample.conn Sample.getOrder
      Sample.getOrderOutbound "dial tcp: connection refused" rfl rfl rfl⟩

/-- While the status code of the upstream response is one that `WriteHeader`
accepts (100 to 999), and with the header keys in canonical form as
`http.Client.Do` delivers them, the response `proxy` writes has the upstream
status code, a body that is the upstream body byte for byte, and under every
header name the values the gateway had already set followed by all upstream
values in their order. -/
theorem proxy_passes_response_through (env : Env) (targetURL : String) (c : Conn)
    (r q : Request) (resp : Response) (hfresh : c.w.sent = none)
    (hreq : Proxy.buildProxyReq env r targetURL = .ok q)
    (hdo : env.clientDo q = .ok resp)
    (hcanon : resp.Header.Canonical)
    (hcode : 100 ≤ resp.StatusCode ∧ resp.StatusCode ≤ 999) :
    ∃ c', Proxy.proxy env targetURL c r = some c' ∧
      c'.w.status = some resp.StatusCode ∧
      c'.w.body = c.w.body ++ resp.Body.data ∧
      c'.calls = c.calls ++ [q] ∧
      ∃ h, c'.w.sentHeader = some h ∧
        ∀ k, h.index k = c.w.header.index k ++ resp.Header.index k := by
  have hn : ¬ (resp.StatusCode < 100 ∨ 999 < resp.StatusCode) := by omega
  have hp : Proxy.proxy env targetURL c r =
      some { w := { header := Proxy.addAll c.w.header resp.Header
                    sent := some (resp.StatusCode, Proxy.addAll c.w.header resp.Header)
                    body := c.w.body ++ resp.Body.data }
             calls := c.calls ++ [q] } := by
    simp [Proxy.proxy, hreq, hdo, ResponseWriter.WriteHeader, ResponseWriter.Write, hfresh, hn]
  rw [hp]
  exact ⟨_, rfl, rfl, rfl, rfl, _, rfl, fun k => Proxy.addAll_index _ _ hcanon k⟩

/-- The example of the spec: the backend answers 201 with the body
`{"id":"42"}`, and the gateway passes it on. -/
theorem proxy_passes_response_through_witness :
    Sample.conn.w.sent = none ∧
    Proxy.buildProxyReq Sample.envUp Sample.getOrder "http://order:3002" =
      .ok Sample.getOrderOutbound ∧
    Sample.envUp.clientDo Sample.getOrderOutbound = .ok Sample.created ∧
    Sample.created.Header.Canonical ∧
    (100 ≤ Sample.created.StatusCode ∧ Sample.created.StatusCode ≤ 999) ∧
    ∃ c', Proxy.proxy Sample.envUp "http://order:3002" Sample.conn Sample.getOrder = some c' ∧
      c'.w.status = some Sample.created.StatusCode ∧
      c'.w.body = Sample.conn.w.body ++ Sample.created.Body.data ∧
      c'.calls = Sample.conn.calls ++ [Sample.getOrderOutbound] ∧
      ∃ h, c'.w.sentHeader = some h ∧
        ∀ k, h.index k = Sample.conn.w.header.index k ++ Sample.created.Header.index k :=
  ⟨rfl, rfl, rfl, by decide, by decide,
    proxy_passes_response_through Sample.envUp "http://order:3002" Sample.conn Sample.getOrder
      Sample.getOrderOutbound Sample.created rfl rfl rfl (by decide) (by decide)⟩

/-- C3, the code at the failing input.  The backend answers with the status
line `HTTP/1.1 042 Odd`, which `http.Client.Do` hands out as a response with
`StatusCode` 42.  `proxy` makes the call, adds the upstream headers and calls
`WriteHeader(42)`, which panics ("invalid WriteHeader code"): no status and no
body reach the client from `proxy`, where the claim has the upstream status
and body passed on. -/
theorem proxy_panics_on_low_status :
    Sample.conn.w.sent = none ∧
    Proxy.buildProxyReq Sample.envOdd Sample.getOrder "http://order:3002" =
      .ok Sample.getOrderOutbound ∧
    Sample.envOdd.clientDo Sample.getOrderOutbound = .ok Sample.odd ∧
    Sample.odd.Header.Canonical ∧
    Sample.odd.StatusCode = 42 ∧
    ResponseWriter.WriteHeader
      { Sample.conn.w with header := Proxy.addAll Sample.conn.w.header Sample.odd.Header }
      Sample.odd.StatusCode = none ∧
    Proxy.proxy Sample.envOdd "http://order:3002" Sample.conn Sample.getOrder = none := by
  refine ⟨rfl, rfl, rfl, by decide, rfl, rfl, rfl⟩

/-- C4, the code at the failing input.  For `GET /api/v1/orders/` received over
plain HTTP the URL of the inbound request has no scheme, and `proxy` sets
`X-Forwarded-Proto` to that empty string, while the scheme of the
client-facing request is `http`.  The other two forwarding headers hold the
remote address and the inbound host. -/
theorem proxy_forwarded_proto_is_empty :
    Sample.listOrders.URL.Scheme = "" ∧
    Sample.clientScheme Sample.listOrders = "http" ∧
    (Proxy.buildProxyReq Sample.envUp Sample.listOrders "http://order:3002").toOption.map
      (fun q => (q.Header.Values "X-Forwarded-Proto", q.Header.Values "X-Forwarded-For",
        q.Header.Values "X-Forwarded-Host")) =
      some ([""], ["203.0.113.7:51000"], ["gateway.example:8080"]) := by
  refine ⟨by decide, by decide, by decide⟩

/-! ## The authentication middleware: the four ways through it -/

namespace Gateway.Middleware

theorem splitSpace_bearer (s tok : String) (h : splitSpace s = ["Bearer", tok]) :
    s ≠ "" ∧ ¬ ((splitSpace s).length ≠ 2 ∨ (splitSpace s).getD 0 "" ≠ "Bearer") ∧
      (splitSpace s).getD 1 "" = tok := by
  refine ⟨?_, ?_, ?_⟩
  · rintro rfl
    have h0 : splitSpace "" = [""] := by decide
    rw [h0] at h
    simp at h
  · simp [h]
  · simp [h]

theorem JWTAuthMiddleware_missing (lib : Jwt.Lib) (now : Time) (secret : String)
    (next : Handler) (c : Conn) (r : Request) (h : r.Header.Get "Authorization" = "") :
    JWTAuthMiddleware lib now secret next c r =
      respondWithError c 401 "UNAUTHORIZED" "authorization header required" := by
  simp [JWTAuthMiddleware, h]

theorem JWTAuthMiddleware_malformed (lib : Jwt.Lib) (now : Time) (secret : String)
    (next : Handler) (c : Conn) (r : Request) (h : r.Header.Get "Authorization" ≠ "")
    (hbad : (splitSpace (r.Header.Get "Authorization")).length ≠ 2 ∨
      (splitSpace (r.Header.Get "Authorization")).getD 0 "" ≠ "Bearer") :
    JWTAuthMiddleware lib now secret next c r =
      respondWithError c 401 "UNAUTHORIZED" "invalid authorization header format" := by
  simp only [JWTAuthMiddleware, if_neg h, if_pos hbad]

theorem JWTAuthMiddleware_rejected (lib : Jwt.Lib) (now : Time) (secret : String)
    (next : Handler) (c : Conn) (r : Request) (tok : String)
    (h : splitSpace (r.Header.Get "Authorization") = ["Bearer", tok])
    (hrej : rejects lib now secret tok = true) :
    JWTAuthMiddleware lib now secret next c r =
      respondWithError c 401 "UNAUTHORIZED" "invalid or expired token" := by
  obtain ⟨h1, h2, h3⟩ := splitSpace_bearer _ _ h
  simp only [JWTAuthMiddleware, if_neg h1, if_neg h2, h3]
  unfold rejects at hrej
  cases hp : Jwt.ParseWithClaims lib now tok (keyFunc secret) with
  | error e => rfl
  | ok token =>
    rw [hp] at hrej
    have : token.Valid = false := by simpa using hrej
    simp [this]

theorem JWTAuthMiddleware_accepted (lib : Jwt.Lib) (now : Time) (secret : String)
    (next : Handler) (c : Conn) (r : Request) (tok : String) (token : Jwt.Token)
    (h : splitSpace (r.Header.Get "Authorization") = ["Bearer", tok])
    (hp : Jwt.ParseWithClaims lib now tok (keyFunc secret) = .ok token)
    (hv : token.Valid = true) :
    JWTAuthMiddleware lib now secret next c r = next c (authenticated r token.Claims) := by
  obtain ⟨h1, h2, h3⟩ := splitSpace_bearer _ _ h
  simp only [JWTAuthMiddleware, if_neg h1, if_neg h2, h3, hp, hv, if_true]

/-- The 401 response on a connection on which no header was sent. -/
theorem unauthorized_fresh (c : Conn) (msg : String) (hfresh : c.w.sent = none) :
    ∃ c', respondWithError c 401 "UNAUTHORIZED" msg = some c' ∧
      c'.w.status = some 401 ∧
      c'.w.body = c.w.body ++ bytes (errorBody "UNAUTHORIZED" msg) ∧
      c'.calls = c.calls :=
  ⟨_, middleware_respondWithError_fresh c 401 "UNAUTHORIZED" msg hfresh (by omega),
    rfl, rfl, rfl⟩

/-- A header of exactly two parts whose first is `Bearer`. -/
theorem splitSpace_wellformed (s : String)
    (h : ¬ ((splitSpace s).length ≠ 2 ∨ (splitSpace s).getD 0 "" ≠ "Bearer")) :
    splitSpace s = ["Bearer", (splitSpace s).getD 1 ""] := by
  push_neg at h
  obtain ⟨hl, h0⟩ := h
  match hs : splitSpace s, hl, h0 with
  | [a, b], _, h0 => simp at h0; simp [h0]

end Gateway.Middleware

/-! ## The authentication middleware: claims C5 to C9 -/

/-- C5.  On a connection on which nothing is sent yet, `JWTAuthMiddleware`
does one of two things.  Either the `Authorization` header is `Bearer`, a
space and a token that verifies, and the result is that of one invocation of
the next handler on the authenticated request, whatever the next handler is.
Or the result is one and the same for every next handler (the next handler is
not invoked): status 401, a body with code `UNAUTHORIZED`, no call to a
backend.  In particular a request without an `Authorization` header in front
of the proxy handler gets 401/`UNAUTHORIZED` and no call to the backend is
made. -/
theorem jwt_middleware_next_once_or_401 (lib : Jwt.Lib) (now : Time) (secret : String)
    (c : Conn) (r : Request) (hfresh : c.w.sent = none) :
    ((∃ tok token, splitSpace (r.Header.Get "Authorization") = ["Bearer", tok] ∧
        Jwt.ParseWithClaims lib now tok (Middleware.keyFunc secret) = .ok token ∧
        token.Valid = true ∧
        ∀ next, Middleware.JWTAuthMiddleware lib now secret next c r =
          next c (Middleware.authenticated r token.Claims)) ∨
     (∃ msg c', (∀ next, Middleware.JWTAuthMiddleware lib now secret next c r = some c') ∧
        c'.w.status = some 401 ∧
        c'.w.body = c.w.body ++ bytes (Middleware.errorBody "UNAUTHORIZED" msg) ∧
        c'.calls = c.calls)) ∧
    (r.Header.Get "Authorization" = "" →
      ∀ (env : Env) (p : Proxy.ReverseProxy), ∃ c',
        Middleware.JWTAuthMiddleware lib now secret (Proxy.ProxyToOrderService env p) c r =
          some c' ∧
        c'.w.status = some 401 ∧
        c'.w.body = c.w.body ++
          bytes (Middleware.errorBody "UNAUTHORIZED" "authorization header required") ∧
        c'.calls = c.calls) := by
  have hresp := fun msg => Middleware.unauthorized_fresh c msg hfresh
  constructor
  · by_cases h0 : r.Header.Get "Authorization" = ""
    · obtain ⟨c', hc', h1, h2, h3⟩ := hresp "authorization header required"
      refine Or.inr ⟨_, c', fun next => ?_, h1, h2, h3⟩
      rw [Middleware.JWTAuthMiddleware_missing lib now secret next c r h0, hc']
    · by_cases hbad : (splitSpace (r.Header.Get "Authorization")).length ≠ 2 ∨
          (splitSpace (r.Header.Get "Authorization")).getD 0 "" ≠ "Bearer"
      · obtain ⟨c', hc', h1, h2, h3⟩ := hresp "invalid authorization header format"
        refine Or.inr ⟨_, c', fun next => ?_, h1, h2, h3⟩
        rw [Middleware.JWTAuthMiddleware_malformed lib now secret next c r h0 hbad, hc']
      · have hs := Middleware.splitSpace_wellformed _ hbad
        cases hrej : Middleware.rejects lib now secret
            ((splitSpace (r.Header.Get "Authorization")).getD 1 "") with
        | true =>
          obtain ⟨c', hc', h1, h2, h3⟩ := hresp "invalid or expired token"
          refine Or.inr ⟨_, c', fun next => ?_, h1, h2, h3⟩
          rw [Middleware.JWTAuthMiddleware_rejected lib now secret next c r _ hs hrej, hc']
        | false =>
          unfold Middleware.rejects at hrej
          cases hp : Jwt.ParseWithClaims lib now
              ((splitSpace (r.Header.Get "Authorization")).getD 1 "")
              (Middleware.keyFunc secret) with
          | error e => rw [hp] at hrej; cases hrej
          | ok token =>
            rw [hp] at hrej
            have hv : token.Valid = true := by simpa using hrej
            exact Or.inl ⟨_, token, hs, hp, hv, fun next =>
              Middleware.JWTAuthMiddleware_accepted lib now secret next c r _ token hs hp hv⟩
  · intro h0 env p
    obtain ⟨c', hc', h1, h2, h3⟩ := hresp "authorization header required"
    refine ⟨c', ?_, h1, h2, h3⟩
    rw [Middleware.JWTAuthMiddleware_missing lib now secret _ c r h0, hc']

/-- C5 on a concrete input: a request without an `Authorization` header. -/
theorem jwt_middleware_next_once_or_401_witness :
    Sample.conn.w.sent = none ∧
    ((∃ tok token,
        splitSpace (Sample.noAuth.Header.Get "Authorization") = ["Bearer", tok] ∧
        Jwt.ParseWithClaims Sample.lib (Sample.issuedAt + 5) tok
          (Middleware.keyFunc Sample.secret) = .ok token ∧
        token.Valid = true ∧
        ∀ next, Middleware.JWTAuthMiddleware Sample.lib (Sample.issuedAt + 5) Sample.secret next
            Sample.conn Sample.noAuth =
          next Sample.conn (Middleware.authenticated Sample.noAuth token.Claims)) ∨
     (∃ msg c',
        (∀ next, Middleware.JWTAuthMiddleware Sample.lib (Sample.issuedAt + 5) Sample.secret next
            Sample.conn Sample.noAuth = some c') ∧
        c'.w.status = some 401 ∧
        c'.w.body = Sample.conn.w.body ++ bytes (Middleware.errorBody "UNAUTHORIZED" msg) ∧
        c'.calls = Sample.conn.calls)) ∧
    (Sample.noAuth.Header.Get "Authorization" = "" →
      ∀ (env : Env) (p : Proxy.ReverseProxy), ∃ c',
        Middleware.JWTAuthMiddleware Sample.lib (Sample.issuedAt + 5) Sample.secret
            (Proxy.ProxyToOrderService env p) Sample.conn Sample.noAuth = some c' ∧
        c'.w.status = some 401 ∧
        c'.w.body = Sample.conn.w.body ++
          bytes (Middleware.errorBody "UNAUTHORIZED" "authorization header required") ∧
        c'.calls = Sample.conn.calls) :=
  ⟨rfl, jwt_middleware_next_once_or_401 Sample.lib (Sample.issuedAt + 5) Sample.secret
    Sample.conn Sample.noAuth rfl⟩

/-! ### C6: tokens that do not declare an HMAC algorithm -/

/-- An entry found by `List.lookup` is in the list. -/
theorem mem_of_lookup_eq_some {β : Type} (l : List (String × β)) (a : String) (b : β)
    (h : l.lookup a = some b) : (a, b) ∈ l := by
  induction l with
  | nil => simp at h
  | cons e l ih =>
    obtain ⟨k, v⟩ := e
    by_cases hk : a = k
    · subst hk
      simp [List.lookup] at h
      simp [h]
    · have hb : (a == k) = false := by simpa using hk
      simp only [List.lookup, hb] at h
      exact List.mem_cons_of_mem _ (ih h)

/-- A name outside HS256, HS384 and HS512 resolves to no HMAC method. -/
theorem GetSigningMethod_not_hmac (a : String) (m : Jwt.SigningMethod)
    (ha : (a == "HS256" || a == "HS384" || a == "HS512") = false)
    (hm : Jwt.GetSigningMethod a = some m) : m.isHMAC = false := by
  have hmem := mem_of_lookup_eq_some _ a m hm
  have htable : ∀ e ∈ Jwt.signingMethods, e.2.isHMAC = true →
      (e.1 == "HS256" || e.1 == "HS384" || e.1 == "HS512") = true := by decide
  cases hh : m.isHMAC with
  | false => rfl
  | true =>
    have hin := htable (a, m) hmem hh
    rw [ha] at hin
    cases hin

/-- With a `[]byte` key only an HMAC method can verify a signature. -/
theorem Verify_bytes_not_hmac (lib : Jwt.Lib) (m : Jwt.SigningMethod) (text : String)
    (sig k : List UInt8) (hm : m.isHMAC = false) : Jwt.Verify lib m text sig (.bytes k) = false := by
  cases m <;> simp [Jwt.Verify, Jwt.SigningMethod.isHMAC] at hm ⊢

/-- What a successful `ParseWithClaims` went through. -/
theorem ParseWithClaims_ok (lib : Jwt.Lib) (now : Time) (tok : String) (kf : Jwt.Keyfunc)
    (token : Jwt.Token) (h : Jwt.ParseWithClaims lib now tok kf = .ok token) :
    ∃ p a m sig key, lib.decode tok = some p ∧ p.alg = some a ∧
      Jwt.GetSigningMethod a = some m ∧ p.signature = some sig ∧
      kf ⟨tok, m, p.claims, sig, false⟩ = .ok key ∧
      Jwt.Verify lib m p.signingString sig key = true ∧ Jwt.Validate now p.claims = true ∧
      token = ⟨tok, m, p.claims, sig, true⟩ := by
  unfold Jwt.ParseWithClaims at h
  cases hd : lib.decode tok with
  | none => simp [hd] at h
  | some p =>
    cases ha : p.alg with
    | none => simp [hd, ha] at h
    | some a =>
      cases hm : Jwt.GetSigningMethod a with
      | none => simp [hd, ha, hm] at h
      | some m =>
        cases hs : p.signature with
        | none => simp [hd, ha, hm, hs] at h
        | some sig =>
          cases hk : kf ⟨tok, m, p.claims, sig, false⟩ with
          | error e => simp [hd, ha, hm, hs, hk] at h
          | ok key =>
            by_cases hv : Jwt.Verify lib m p.signingString sig key = true
            · by_cases hc : Jwt.Validate now p.claims = true
              · simp [hd, ha, hm, hs, hk, hv, hc] at h
                exact ⟨p, a, m, sig, key, rfl, ha, hm, hs, hk, hv, hc, h.symm⟩
              · simp [hd, ha, hm, hs, hk, hv, hc] at h
            · simp [hd, ha, hm, hs, hk, hv] at h

/-- The way to a successful `ParseWithClaims`. -/
theorem ParseWithClaims_of (lib : Jwt.Lib) (now : Time) (tok : String) (kf : Jwt.Keyfunc)
    (p : Jwt.Parts) (a : String) (m : Jwt.SigningMethod) (sig : List UInt8) (key : Jwt.Key)
    (hd : lib.decode tok = some p) (ha : p.alg = some a)
    (hm : Jwt.GetSigningMethod a = some m) (hs : p.signature = some sig)
    (hk : kf ⟨tok, m, p.claims, sig, false⟩ = .ok key)
    (hv : Jwt.Verify lib m p.signingString sig key = true)
    (hc : Jwt.Validate now p.claims = true) :
    Jwt.ParseWithClaims lib now tok kf = .ok ⟨tok, m, p.claims, sig, true⟩ := by
  simp [Jwt.ParseWithClaims, hd, ha, hm, hs, hk, hv, hc]

/-- A key function that answers `[]byte` for every token cannot make a token
verify that does not declare an HMAC algorithm. -/
theorem ParseWithClaims_bytes_not_hmac (lib : Jwt.Lib) (now : Time) (tok : String)
    (k : List UInt8) (halg : Jwt.declaresHMAC lib tok = false) :
    ∃ e, Jwt.ParseWithClaims lib now tok (fun _ => .ok (.bytes k)) = .error e := by
  cases hp : Jwt.ParseWithClaims lib now tok (fun _ => .ok (.bytes k)) with
  | error e => exact ⟨e, rfl⟩
  | ok token =>
    obtain ⟨p, a, m, sig, key, hd, ha, hm, hs, hk, hv, -, -⟩ := ParseWithClaims_ok _ _ _ _ _ hp
    simp only [Jwt.declaresHMAC, Jwt.declaredAlg, hd, Option.some_bind, ha] at halg
    have hnot := GetSigningMethod_not_hmac a m halg hm
    cases hk
    rw [Verify_bytes_not_hmac lib m _ sig k hnot] at hv
    cases hv

/-- The key function of `ValidateToken` returns an error for a token that does
not declare an HMAC algorithm, so the token is not parsed. -/
theorem ParseWithClaims_checked_not_hmac (lib : Jwt.Lib) (now : Time) (tok : String)
    (s : UserService.jwtService) (halg : Jwt.declaresHMAC lib tok = false) :
    ∃ e, Jwt.ParseWithClaims lib now tok (UserService.keyFunc s) = .error e := by
  cases hp : Jwt.ParseWithClaims lib now tok (UserService.keyFunc s) with
  | error e => exact ⟨e, rfl⟩
  | ok token =>
    obtain ⟨p, a, m, sig, key, hd, ha, hm, hs, hk, -, -, -⟩ := ParseWithClaims_ok _ _ _ _ _ hp
    simp only [Jwt.declaresHMAC, Jwt.declaredAlg, hd, Option.some_bind, ha] at halg
    have hnot := GetSigningMethod_not_hmac a m halg hm
    simp [UserService.keyFunc, hnot] at hk

/-- C6.  A token string that does not declare HS256, HS384 or HS512 (it
declares RS256, ES256, `none`, an unknown name, or nothing) is rejected by the
gateway whatever its claims and signature are: `ParseWithClaims` with the key
function of the gateway returns an error, and `JWTAuthMiddleware` answers 401
without invoking the next handler.  The order service and `ValidateToken` of
the user service reject it too. -/
theorem non_hmac_token_is_rejected (lib : Jwt.Lib) (now : Time) (secret tok : String)
    (halg : Jwt.declaresHMAC lib tok = false) :
    (∃ e, Jwt.ParseWithClaims lib now tok (Middleware.keyFunc secret) = .error e) ∧
    (∀ (c : Conn) (r : Request), c.w.sent = none →
      splitSpace (r.Header.Get "Authorization") = ["Bearer", tok] →
      ∃ c', (∀ next, Middleware.JWTAuthMiddleware lib now secret next c r = some c') ∧
        c'.w.status = some 401 ∧
        c'.w.body = c.w.body ++
          bytes (Middleware.errorBody "UNAUTHORIZED" "invalid or expired token") ∧
        c'.calls = c.calls) ∧
    (∃ e, Jwt.ParseWithClaims lib now tok (OrderService.keyFunc secret) = .error e) ∧
    (∀ s : UserService.jwtService, ∃ e, UserService.ValidateToken lib s now tok = .error e) := by
  have hgw := ParseWithClaims_bytes_not_hmac lib now tok (bytes secret) halg
  refine ⟨hgw, ?_, hgw, ?_⟩
  · intro c r hfresh hsplit
    obtain ⟨e, he⟩ := hgw
    have hrej : Middleware.rejects lib now secret tok = true := by
      unfold Middleware.rejects
      rw [show Jwt.ParseWithClaims lib now tok (Middleware.keyFunc secret) = .error e from he]
    obtain ⟨c', hc', h1, h2, h3⟩ :=
      Middleware.unauthorized_fresh c "invalid or expired token" hfresh
    refine ⟨c', fun next => ?_, h1, h2, h3⟩
    rw [Middleware.JWTAuthMiddleware_rejected lib now secret next c r tok hsplit hrej, hc']
  · intro s
    obtain ⟨e, he⟩ := ParseWithClaims_checked_not_hmac lib now tok s halg
    exact ⟨.parse e, by simp only [UserService.ValidateToken, he]⟩

/-- C6 on a concrete input: a token that declares RS256, with a verifier of
public-key signatures that accepts everything. -/
theorem non_hmac_token_is_rejected_witness :
    Jwt.declaresHMAC Sample.lib "rs256" = false ∧
    ((∃ e, Jwt.ParseWithClaims Sample.lib (Sample.issuedAt + 5) "rs256"
        (Middleware.keyFunc Sample.secret) = .error e) ∧
    (∀ (c : Conn) (r : Request), c.w.sent = none →
      splitSpace (r.Header.Get "Authorization") = ["Bearer", "rs256"] →
      ∃ c', (∀ next, Middleware.JWTAuthMiddleware Sample.lib (Sample.issuedAt + 5) Sample.secret
          next c r = some c') ∧
        c'.w.status = some 401 ∧
        c'.w.body = c.w.body ++
          bytes (Middleware.errorBody "UNAUTHORIZED" "invalid or expired token") ∧
        c'.calls = c.calls) ∧
    (∃ e, Jwt.ParseWithClaims Sample.lib (Sample.issuedAt + 5) "rs256"
        (OrderService.keyFunc Sample.secret) = .error e) ∧
    (∀ s : UserService.jwtService,
      ∃ e, UserService.ValidateToken Sample.lib s (Sample.issuedAt + 5) "rs256" = .error e)) :=
  ⟨by decide, non_hmac_token_is_rejected Sample.lib (Sample.issuedAt + 5) Sample.secret "rs256"
    (by decide)⟩

/-! ### C7 and C8: what a rejection tells -/

/-- C7.  Two requests with a well-formed `Bearer` header whose tokens both fail
the test `err != nil || !token.Valid`, for whatever reasons, get one and the
same response on the same connection: status 401 and the body
`{"success":false,"error":{"code":"UNAUTHORIZED","message":"invalid or expired token"}}`. -/
theorem failed_tokens_get_one_response (lib : Jwt.Lib) (now : Time) (secret : String)
    (c : Conn) (r1 r2 : Request) (tok1 tok2 : String) (hfresh : c.w.sent = none)
    (h1 : splitSpace (r1.Header.Get "Authorization") = ["Bearer", tok1])
    (h2 : splitSpace (r2.Header.Get "Authorization") = ["Bearer", tok2])
    (hf1 : Middleware.rejects lib now secret tok1 = true)
    (hf2 : Middleware.rejects lib now secret tok2 = true) :
    ∃ c', (∀ next, Middleware.JWTAuthMiddleware lib now secret next c r1 = some c') ∧
      (∀ next, Middleware.JWTAuthMiddleware lib now secret next c r2 = some c') ∧
      c'.w.status = some 401 ∧
      c'.w.sentHeader = some (c.w.header.Set "Content-Type" "application/json") ∧
      c'.w.body = c.w.body ++ bytes
        "\x7b\"success\":false,\"error\":\x7b\"code\":\"UNAUTHORIZED\",\"message\":\"invalid or expired token\"\x7d\x7d\n" := by
  have hb : Middleware.errorBody "UNAUTHORIZED" "invalid or expired token" =
      "\x7b\"success\":false,\"error\":\x7b\"code\":\"UNAUTHORIZED\",\"message\":\"invalid or expired token\"\x7d\x7d\n" := by
    decide
  have hresp := Middleware.middleware_respondWithError_fresh c 401 "UNAUTHORIZED"
    "invalid or expired token" hfresh (by omega)
  rw [hb] at hresp
  exact ⟨_, fun next =>
      (Middleware.JWTAuthMiddleware_rejected lib now secret next c r1 tok1 h1 hf1).trans hresp,
    fun next =>
      (Middleware.JWTAuthMiddleware_rejected lib now secret next c r2 tok2 h2 hf2).trans hresp,
    rfl, rfl, rfl⟩

/-- C7 on a concrete input: an expired token, which fails in the validation of
the claims, and a token that declares `alg` none, which fails in the
verification of the signature. -/
theorem failed_tokens_get_one_response_witness :
    Jwt.ParseWithClaims Sample.lib (Sample.issuedAt + 5) "expired"
      (Middleware.keyFunc Sample.secret) = .error .ErrTokenInvalidClaims ∧
    Jwt.ParseWithClaims Sample.lib (Sample.issuedAt + 5) "unsigned"
      (Middleware.keyFunc Sample.secret) = .error .ErrTokenSignatureInvalid ∧
    Sample.conn.w.sent = none ∧
    splitSpace ((Sample.withAuth ["Bearer expired"]).Header.Get "Authorization") =
      ["Bearer", "expired"] ∧
    splitSpace ((Sample.withAuth ["Bearer unsigned"]).Header.Get "Authorization") =
      ["Bearer", "unsigned"] ∧
    Middleware.rejects Sample.lib (Sample.issuedAt + 5) Sample.secret "expired" = true ∧
    Middleware.rejects Sample.lib (Sample.issuedAt + 5) Sample.secret "unsigned" = true ∧
    ∃ c', (∀ next, Middleware.JWTAuthMiddleware Sample.lib (Sample.issuedAt + 5) Sample.secret
        next Sample.conn (Sample.withAuth ["Bearer expired"]) = some c') ∧
      (∀ next, Middleware.JWTAuthMiddleware Sample.lib (Sample.issuedAt + 5) Sample.secret
        next Sample.conn (Sample.withAuth ["Bearer unsigned"]) = some c') ∧
      c'.w.status = some 401 ∧
      c'.w.sentHeader = some (Sample.conn.w.header.Set "Content-Type" "application/json") ∧
      c'.w.body = Sample.conn.w.body ++ bytes
        "\x7b\"success\":false,\"error\":\x7b\"code\":\"UNAUTHORIZED\",\"message\":\"invalid or expired token\"\x7d\x7d\n" :=
  ⟨rfl, rfl, rfl, by decide, by decide, by decide, by decide,
    failed_tokens_get_one_response Sample.lib (Sample.issuedAt + 5) Sample.secret Sample.conn
      (Sample.withAuth ["Bearer expired"]) (Sample.withAuth ["Bearer unsigned"])
      "expired" "unsigned" rfl (by decide) (by decide) (by decide) (by decide)⟩

/-- C8 fails as stated: a request without an `Authorization` header and a
request with an expired token both get 401 with code `UNAUTHORIZED`, but the
messages, and so the bodies, differ. -/
theorem auth_failure_bodies_differ :
    (Middleware.JWTAuthMiddleware Sample.lib (Sample.issuedAt + 5) Sample.secret
        (Proxy.proxy Sample.envUp "http://order:3002") Sample.conn Sample.noAuth).map
      (fun c => (c.w.status, c.w.body)) =
      some (some 401, bytes
        "\x7b\"success\":false,\"error\":\x7b\"code\":\"UNAUTHORIZED\",\"message\":\"authorization header required\"\x7d\x7d\n") ∧
    (Middleware.JWTAuthMiddleware Sample.lib (Sample.issuedAt + 5) Sample.secret
        (Proxy.proxy Sample.envUp "http://order:3002") Sample.conn
        (Sample.withAuth ["Bearer expired"])).map
      (fun c => (c.w.status, c.w.body)) =
      some (some 401, bytes
        "\x7b\"success\":false,\"error\":\x7b\"code\":\"UNAUTHORIZED\",\"message\":\"invalid or expired token\"\x7d\x7d\n") ∧
    bytes
      "\x7b\"success\":false,\"error\":\x7b\"code\":\"UNAUTHORIZED\",\"message\":\"authorization header required\"\x7d\x7d\n" ≠
    bytes
      "\x7b\"success\":false,\"error\":\x7b\"code\":\"UNAUTHORIZED\",\"message\":\"invalid or expired token\"\x7d\x7d\n" := by
  refine ⟨by decide, by decide, by decide⟩

/-- C8 as amended.  Every authentication failure of `JWTAuthMiddleware` gets
status 401 and a body `{"success":false,"error":{"code":"UNAUTHORIZED","message":m}}`
with the same code; the message `m` tells which of the three checks failed: no
`Authorization` header, a header that is not `Bearer`, a space and a token, or
a token that did not pass `jwt.ParseWithClaims`. -/
theorem auth_failures_share_status_and_code (lib : Jwt.Lib) (now : Time) (secret : String)
    (c : Conn) (r : Request) (hfresh : c.w.sent = none) :
    (r.Header.Get "Authorization" = "" →
      ∃ c', (∀ next, Middleware.JWTAuthMiddleware lib now secret next c r = some c') ∧
        c'.w.status = some 401 ∧
        c'.w.body = c.w.body ++
          bytes (Middleware.errorBody "UNAUTHORIZED" "authorization header required")) ∧
    (r.Header.Get "Authorization" ≠ "" →
      ((splitSpace (r.Header.Get "Authorization")).length ≠ 2 ∨
        (splitSpace (r.Header.Get "Authorization")).getD 0 "" ≠ "Bearer") →
      ∃ c', (∀ next, Middleware.JWTAuthMiddleware lib now secret next c r = some c') ∧
        c'.w.status = some 401 ∧
        c'.w.body = c.w.body ++
          bytes (Middleware.errorBody "UNAUTHORIZED" "invalid authorization header format")) ∧
    (∀ tok, splitSpace (r.Header.Get "Authorization") = ["Bearer", tok] →
      Middleware.rejects lib now secret tok = true →
      ∃ c', (∀ next, Middleware.JWTAuthMiddleware lib now secret next c r = some c') ∧
        c'.w.status = some 401 ∧
        c'.w.body = c.w.body ++
          bytes (Middleware.errorBody "UNAUTHORIZED" "invalid or expired token")) ∧
    (∀ m, Middleware.errorBody "UNAUTHORIZED" m =
      "\x7b\"success\":false,\"error\":\x7b\"code\":\"UNAUTHORIZED\",\"message\":" ++ jsonString m ++
        "\x7d\x7d\n") := by
  have hresp := fun msg => Middleware.unauthorized_fresh c msg hfresh
  refine ⟨fun h0 => ?_, fun h0 hbad => ?_, fun tok hs hrej => ?_, fun m => ?_⟩
  · obtain ⟨c', hc', h1, h2, -⟩ := hresp "authorization header required"
    exact ⟨c', fun next => by
      rw [Middleware.JWTAuthMiddleware_missing lib now secret next c r h0, hc'], h1, h2⟩
  · obtain ⟨c', hc', h1, h2, -⟩ := hresp "invalid authorization header format"
    exact ⟨c', fun next => by
      rw [Middleware.JWTAuthMiddleware_malformed lib now secret next c r h0 hbad, hc'], h1, h2⟩
  · obtain ⟨c', hc', h1, h2, -⟩ := hresp "invalid or expired token"
    exact ⟨c', fun next => by
      rw [Middleware.JWTAuthMiddleware_rejected lib now secret next c r tok hs hrej, hc'], h1, h2⟩
  · have : jsonString "UNAUTHORIZED" = "\"UNAUTHORIZED\"" := by decide
    simp only [Middleware.errorBody, this]
    rfl

/-- C8 as amended, on concrete inputs: no header, a header with a lower-case
scheme, an expired token. -/
theorem auth_failures_share_status_and_code_witness :
    Sample.conn.w.sent = none ∧
    (Middleware.JWTAuthMiddleware Sample.lib (Sample.issuedAt + 5) Sample.secret
        (Proxy.proxy Sample.envUp "http://order:3002") Sample.conn
        (Sample.withAuth ["bearer expired"])).map (fun c => (c.w.status, c.w.body)) =
      some (some 401, bytes (Middleware.errorBody "UNAUTHORIZED"
        "invalid authorization header format")) ∧
    (∀ tok,
      splitSpace ((Sample.withAuth ["Bearer expired"]).Header.Get "Authorization") =
        ["Bearer", tok] →
      Middleware.rejects Sample.lib (Sample.issuedAt + 5) Sample.secret tok = true →
      ∃ c', (∀ next, Middleware.JWTAuthMiddleware Sample.lib (Sample.issuedAt + 5) Sample.secret
          next Sample.conn (Sample.withAuth ["Bearer expired"]) = some c') ∧
        c'.w.status = some 401 ∧
        c'.w.body = Sample.conn.w.body ++
          bytes (Middleware.errorBody "UNAUTHORIZED" "invalid or expired token")) :=
  ⟨rfl, by decide,
    (auth_failures_share_status_and_code Sample.lib (Sample.issuedAt + 5) Sample.secret
      Sample.conn (Sample.withAuth ["Bearer expired"]) rfl).2.2.1⟩

/-! ### C9: the identity headers -/

/-- C9.  When the header is `Bearer`, a space and a token that
`jwt.ParseWithClaims` accepts, the next handler is invoked on a request whose
`X-User-ID` has exactly one value, the string form of the `UserID` of the
verified claims, whose `X-User-Email` has exactly one value, their `Email`,
and whose context holds the claims, whatever values of the two headers the
client sent.  When the inbound header keys are canonical, as the Go server
delivers them, the outbound request `proxy` builds from it carries the same
single values. -/
theorem jwt_middleware_injects_identity (lib : Jwt.Lib) (now : Time) (secret : String)
    (c : Conn) (r : Request) (tok : String) (token : Jwt.Token)
    (hsplit : splitSpace (r.Header.Get "Authorization") = ["Bearer", tok])
    (hparse : Jwt.ParseWithClaims lib now tok (Middleware.keyFunc secret) = .ok token)
    (hvalid : token.Valid = true) :
    (∀ next, Middleware.JWTAuthMiddleware lib now secret next c r =
      next c (Middleware.authenticated r token.Claims)) ∧
    (Middleware.authenticated r token.Claims).Header.Values "X-User-ID" =
      [token.Claims.UserID.String] ∧
    (Middleware.authenticated r token.Claims).Header.Values "X-User-Email" =
      [token.Claims.Email] ∧
    (Middleware.authenticated r token.Claims).ctx.user = some token.Claims ∧
    (r.Header.Canonical → ∀ (env : Env) (targetURL : String) (q : Request),
      Proxy.buildProxyReq env (Middleware.authenticated r token.Claims) targetURL = .ok q →
      q.Header.Values "X-User-ID" = [token.Claims.UserID.String] ∧
      q.Header.Values "X-User-Email" = [token.Claims.Email]) := by
  have hid : CanonicalMIMEHeaderKey "X-User-ID" = "X-User-Id" := by decide
  have hem : CanonicalMIMEHeaderKey "X-User-Email" = "X-User-Email" := by decide
  have hid2 : CanonicalMIMEHeaderKey "X-User-Id" = "X-User-Id" := by decide
  have hne : ("X-User-Id" : String) ≠ "X-User-Email" := by decide
  have hv1 : (Middleware.authenticated r token.Claims).Header.Values "X-User-ID" =
      [token.Claims.UserID.String] := by
    simp only [Middleware.authenticated, Header.Values, Header.index_Set, hid, hem, if_neg hne,
      if_true]
  have hv2 : (Middleware.authenticated r token.Claims).Header.Values "X-User-Email" =
      [token.Claims.Email] := by
    simp only [Middleware.authenticated, Header.Values, Header.index_Set, hem, if_true]
  refine ⟨fun next =>
    Middleware.JWTAuthMiddleware_accepted lib now secret next c r tok token hsplit hparse hvalid,
    hv1, hv2, rfl, ?_⟩
  intro hc env targetURL q hq
  have hc' : (Middleware.authenticated r token.Claims).Header.Canonical := by
    apply Header.canonical_Set _ _ _ (by rw [hem, hem])
    exact Header.canonical_Set _ _ _ (by rw [hid, hid2]) hc
  have hx := Proxy.buildProxyReq_header_index env _ targetURL q hq hc'
  constructor
  · rw [Header.Values, hid, hx "X-User-Id",
      if_neg (by decide), if_neg (by decide), if_neg (by decide), ← hid]
    exact hv1
  · rw [Header.Values, hem, hx "X-User-Email",
      if_neg (by decide), if_neg (by decide), if_neg (by decide)]
    rw [Header.Values, hem] at hv2
    exact hv2

/-- C9 on a concrete input: the good token of the sample user on a request in
which the client sent its own `X-User-Id`. -/
theorem jwt_middleware_injects_identity_witness :
    splitSpace ((Sample.withAuth ["Bearer HS256.ann@example.com.kHS256.ann@example.com"]).Header.Get
      "Authorization") = ["Bearer", Sample.goodToken] ∧
    Jwt.ParseWithClaims Sample.lib (Sample.issuedAt + 5) Sample.goodToken
      (Middleware.keyFunc Sample.secret) = .ok Sample.goodParsed ∧
    Sample.goodParsed.Valid = true ∧
    (Sample.withAuth ["Bearer HS256.ann@example.com.kHS256.ann@example.com"]).Header.Values
      "X-User-ID" = ["intruder"] ∧
    (Middleware.authenticated
      (Sample.withAuth ["Bearer HS256.ann@example.com.kHS256.ann@example.com"])
      Sample.goodParsed.Claims).Header.Values "X-User-ID" =
      ["123e4567-e89b-12d3-a456-426614174000"] ∧
    (Middleware.authenticated
      (Sample.withAuth ["Bearer HS256.ann@example.com.kHS256.ann@example.com"])
      Sample.goodParsed.Claims).Header.Values "X-User-Email" = ["ann@example.com"] :=
  have h := jwt_middleware_injects_identity Sample.lib (Sample.issuedAt + 5) Sample.secret
    Sample.conn (Sample.withAuth ["Bearer HS256.ann@example.com.kHS256.ann@example.com"])
    Sample.goodToken Sample.goodParsed (by decide) (by unfold Jwt.ParseWithClaims; rfl) rfl
  ⟨by decide, by unfold Jwt.ParseWithClaims; rfl, rfl, by decide, h.2.1.trans (by decide),
    h.2.2.1.trans (by decide)⟩

/-! ## The token service: claim C10 -/

/-- C10.  For a service made by `NewJWTService` (one secret, 24 hours), a codec
that decodes the token it encoded, and a time before the `exp` of the token
(the issue time plus 24 hours, truncated to the second), `ValidateToken`
accepts the token `GenerateToken` made for a user and returns claims with the
`ID`, `Email` and `Roles` of the user. -/
theorem generated_token_validates (lib : Jwt.Lib) (envSecret : String) (now now2 t : Time)
    (user : UserService.User)
    (hcodec : lib.RoundTripsAt "HS256"
      (UserService.tokenClaims (UserService.NewJWTService envSecret) now now2 user)
      (lib.hmac .SHA256 (bytes (UserService.NewJWTService envSecret).secretKey)
        (lib.signingString "HS256"
          (UserService.tokenClaims (UserService.NewJWTService envSecret) now now2 user))))
    (hbefore : t < (NewNumericDate (now + 24 * Hour)).Time) :
    ∃ claims,
      UserService.ValidateToken lib (UserService.NewJWTService envSecret) t
        (UserService.GenerateToken lib (UserService.NewJWTService envSecret) now now2 user) =
        .ok claims ∧
      claims.UserID = user.ID ∧ claims.Email = user.Email ∧ claims.Roles = user.Roles := by
  have hm : Jwt.GetSigningMethod "HS256" = some (.HMAC .SHA256) := by decide
  have hvalid : Jwt.Validate t
      (UserService.tokenClaims (UserService.NewJWTService envSecret) now now2 user) = true := by
    simp only [Jwt.Validate, UserService.tokenClaims, UserService.NewJWTService, hbefore,
      decide_True, Bool.and_self]
  have hp := ParseWithClaims_of lib t
    (UserService.GenerateToken lib (UserService.NewJWTService envSecret) now now2 user)
    (UserService.keyFunc (UserService.NewJWTService envSecret)) _ "HS256" (.HMAC .SHA256) _
    (.bytes (bytes (UserService.NewJWTService envSecret).secretKey)) hcodec rfl hm rfl rfl
    (by simp [Jwt.Verify]) hvalid
  refine ⟨UserService.tokenClaims (UserService.NewJWTService envSecret) now now2 user, ?_,
    rfl, rfl, rfl⟩
  simp only [UserService.ValidateToken, hp, if_true]

/-- C10 on a concrete input: the sample user, a token issued at second
1700000000 and validated five nanoseconds later. -/
theorem generated_token_validates_witness :
    Sample.lib.RoundTripsAt "HS256"
      (UserService.tokenClaims (UserService.NewJWTService "k") Sample.issuedAt Sample.issuedAt
        Sample.user)
      (Sample.lib.hmac .SHA256 (bytes (UserService.NewJWTService "k").secretKey)
        (Sample.lib.signingString "HS256"
          (UserService.tokenClaims (UserService.NewJWTService "k") Sample.issuedAt
            Sample.issuedAt Sample.user))) ∧
    Sample.issuedAt + 5 < (NewNumericDate (Sample.issuedAt + 24 * Hour)).Time ∧
    ∃ claims,
      UserService.ValidateToken Sample.lib (UserService.NewJWTService "k") (Sample.issuedAt + 5)
        (UserService.GenerateToken Sample.lib (UserService.NewJWTService "k") Sample.issuedAt
          Sample.issuedAt Sample.user) = .ok claims ∧
      claims.UserID = Sample.user.ID ∧ claims.Email = Sample.user.Email ∧
      claims.Roles = Sample.user.Roles :=
  ⟨by decide, by decide,
    generated_token_validates Sample.lib "k" Sample.issuedAt Sample.issuedAt (Sample.issuedAt + 5)
      Sample.user (by decide) (by decide)⟩

/-! ## Local failures of the proxy: claim C13 -/

/-- C13.  On a connection on which nothing is sent yet: when the configured
target URL does not parse, `proxy` answers 500 with the body
`{"error":{"code":"PROXY_ERROR","message":"failed to parse target URL"},"success":false}`;
when the target parses and reading the inbound body fails, it answers 400 with
the body
`{"error":{"code":"INVALID_REQUEST","message":"failed to read request body"},"success":false}`.
In both cases no request is handed to `http.Client.Do`. -/
theorem proxy_local_failures (env : Env) (targetURL : String) (c : Conn) (r : Request)
    (hfresh : c.w.sent = none) :
    (env.urlParse targetURL = none →
      ∃ c', Proxy.proxy env targetURL c r = some c' ∧
        c'.w.status = some 500 ∧
        c'.w.body = c.w.body ++ bytes
          "\x7b\"error\":\x7b\"code\":\"PROXY_ERROR\",\"message\":\"failed to parse target URL\"\x7d,\"success\":false\x7d\n" ∧
        c'.calls = c.calls) ∧
    (∀ (target : Url.URL) (b : Body) (e : String),
      env.urlParse targetURL = some target → r.Body = some b → b.err = some e →
      ∃ c', Proxy.proxy env targetURL c r = some c' ∧
        c'.w.status = some 400 ∧
        c'.w.body = c.w.body ++ bytes
          "\x7b\"error\":\x7b\"code\":\"INVALID_REQUEST\",\"message\":\"failed to read request body\"\x7d,\"success\":false\x7d\n" ∧
        c'.calls = c.calls) := by
  have hb1 : Proxy.errorBody "PROXY_ERROR" "failed to parse target URL" =
      "\x7b\"error\":\x7b\"code\":\"PROXY_ERROR\",\"message\":\"failed to parse target URL\"\x7d,\"success\":false\x7d\n" := by
    decide
  have hb2 : Proxy.errorBody "INVALID_REQUEST" "failed to read request body" =
      "\x7b\"error\":\x7b\"code\":\"INVALID_REQUEST\",\"message\":\"failed to read request body\"\x7d,\"success\":false\x7d\n" := by
    decide
  constructor
  · intro hp
    have hbuild : Proxy.buildProxyReq env r targetURL =
        .error (500, "PROXY_ERROR", "failed to parse target URL") := by
      simp [Proxy.buildProxyReq, Proxy.targetOf, hp]
    have hrun : Proxy.proxy env targetURL c r =
        Proxy.respondWithError c 500 "PROXY_ERROR" "failed to parse target URL" := by
      simp only [Proxy.proxy, hbuild]
    rw [hrun, Proxy.proxy_respondWithError_fresh c 500 _ _ hfresh (by omega), hb1]
    exact ⟨_, rfl, rfl, rfl, rfl⟩
  · intro target b e hp hbody herr
    have hbuild : Proxy.buildProxyReq env r targetURL =
        .error (400, "INVALID_REQUEST", "failed to read request body") := by
      simp [Proxy.buildProxyReq, Proxy.targetOf, hp, hbody, ReadAll, herr]
    have hrun : Proxy.proxy env targetURL c r =
        Proxy.respondWithError c 400 "INVALID_REQUEST" "failed to read request body" := by
      simp only [Proxy.proxy, hbuild]
    rw [hrun, Proxy.proxy_respondWithError_fresh c 400 _ _ hfresh (by omega), hb2]
    exact ⟨_, rfl, rfl, rfl, rfl⟩

/-- C13 on concrete inputs: the target `://bad`, which does not parse, and a
request whose body breaks off. -/
theorem proxy_local_failures_witness :
    Sample.conn.w.sent = none ∧
    Sample.envUp.urlParse "://bad" = none ∧
    (Proxy.proxy Sample.envUp "://bad" Sample.conn Sample.getOrder).map
      (fun c => (c.w.status, c.calls.length)) = some (some 500, 0) ∧
    (Proxy.proxy Sample.envUp "http://order:3002" Sample.conn Sample.brokenBody).map
      (fun c => (c.w.status, c.calls.length)) = some (some 400, 0) ∧
    (∀ (target : Url.URL) (b : Body) (e : String),
      Sample.envUp.urlParse "http://order:3002" = some target →
      Sample.brokenBody.Body = some b → b.err = some e →
      ∃ c', Proxy.proxy Sample.envUp "http://order:3002" Sample.conn Sample.brokenBody =
          some c' ∧
        c'.w.status = some 400 ∧
        c'.w.body = Sample.conn.w.body ++ bytes
          "\x7b\"error\":\x7b\"code\":\"INVALID_REQUEST\",\"message\":\"failed to read request body\"\x7d,\"success\":false\x7d\n" ∧
        c'.calls = Sample.conn.calls) :=
  ⟨rfl, by decide, by decide, by decide,
    (proxy_local_failures Sample.envUp "http://order:3002" Sample.conn Sample.brokenBody rfl).2⟩

/-! ## The route table of the gateway: claim C12 -/

/-- C12.  The calls of `main` on the router register exactly these routes.
Registration and login go to the user backend behind the five global
middlewares only; the profile routes and the listing go to the user backend,
and the five order routes to the order backend, behind the global middlewares
followed by `JWTAuthMiddleware`.  So every route that ends in a proxy handler
and is not registration or login has `JWTAuthMiddleware` last in its stack,
and the handler chi runs for it is the global middlewares around
`JWTAuthMiddleware` around the proxy to the backend of the route. -/
theorem gateway_route_table :
    Gateway.router.routes = some
      [⟨"GET", "/health", Gateway.globalStack, .health⟩,
       ⟨"POST", "/api/v1/users/register", Gateway.globalStack, .ProxyToUserService⟩,
       ⟨"POST", "/api/v1/users/login", Gateway.globalStack, .ProxyToUserService⟩,
       ⟨"GET", "/api/v1/users/profile", Gateway.globalStack ++ [.JWTAuthMiddleware],
         .ProxyToUserService⟩,
       ⟨"PUT", "/api/v1/users/profile", Gateway.globalStack ++ [.JWTAuthMiddleware],
         .ProxyToUserService⟩,
       ⟨"GET", "/api/v1/users/", Gateway.globalStack ++ [.JWTAuthMiddleware],
         .ProxyToUserService⟩,
       ⟨"POST", "/api/v1/orders/", Gateway.globalStack ++ [.JWTAuthMiddleware],
         .ProxyToOrderService⟩,
       ⟨"GET", "/api/v1/orders/", Gateway.globalStack ++ [.JWTAuthMiddleware],
         .ProxyToOrderService⟩,
       ⟨"GET", "/api/v1/orders/{id}", Gateway.globalStack ++ [.JWTAuthMiddleware],
         .ProxyToOrderService⟩,
       ⟨"PUT", "/api/v1/orders/{id}/status", Gateway.globalStack ++ [.JWTAuthMiddleware],
         .ProxyToOrderService⟩,
       ⟨"DELETE", "/api/v1/orders/{id}", Gateway.globalStack ++ [.JWTAuthMiddleware],
         .ProxyToOrderService⟩] ∧
    (∀ rt ∈ Gateway.router.routes.getD [],
      (rt.endpoint = .health ∨ Gateway.isPublic rt = true →
        rt.stack = Gateway.globalStack) ∧
      (rt.endpoint ≠ .health ∧ Gateway.isPublic rt = false →
        rt.stack = Gateway.globalStack ++ [.JWTAuthMiddleware]) ∧
      (rt.endpoint = .ProxyToUserService ↔ "/api/v1/users/".data <+: rt.pattern.data) ∧
      (rt.endpoint = .ProxyToOrderService ↔ "/api/v1/orders/".data <+: rt.pattern.data)) ∧
    (∀ (global : Gateway.Mw → Chi.Middleware) (lib : Jwt.Lib) (now : Time) (env : Env)
        (cfg : Gateway.Config),
      ∀ rt ∈ Gateway.router.routes.getD [],
        rt.handler (Gateway.middlewareOf global lib now cfg) (Gateway.endpointOf env cfg) =
          global .Logger (global .Recoverer (global .RequestIDMiddleware
            (global .CORSMiddleware (global .RateLimiter
              (if rt.endpoint ≠ .health ∧ Gateway.isPublic rt = false then
                Middleware.JWTAuthMiddleware lib now cfg.jwtSecret
                  (Proxy.proxy env
                    (if rt.endpoint = .ProxyToUserService then cfg.userServiceURL
                     else cfg.orderServiceURL))
              else Gateway.endpointOf env cfg rt.endpoint)))))) := by
  have htable : Gateway.router.routes = some
      [⟨"GET", "/health", Gateway.globalStack, .health⟩,
       ⟨"POST", "/api/v1/users/register", Gateway.globalStack, .ProxyToUserService⟩,
       ⟨"POST", "/api/v1/users/login", Gateway.globalStack, .ProxyToUserService⟩,
       ⟨"GET", "/api/v1/users/profile", Gateway.globalStack ++ [.JWTAuthMiddleware],
         .ProxyToUserService⟩,
       ⟨"PUT", "/api/v1/users/profile", Gateway.globalStack ++ [.JWTAuthMiddleware],
         .ProxyToUserService⟩,
       ⟨"GET", "/api/v1/users/", Gateway.globalStack ++ [.JWTAuthMiddleware],
         .ProxyToUserService⟩,
       ⟨"POST", "/api/v1/orders/", Gateway.globalStack ++ [.JWTAuthMiddleware],
         .ProxyToOrderService⟩,
       ⟨"GET", "/api/v1/orders/", Gateway.globalStack ++ [.JWTAuthMiddleware],
         .ProxyToOrderService⟩,
       ⟨"GET", "/api/v1/orders/{id}", Gateway.globalStack ++ [.JWTAuthMiddleware],
         .ProxyToOrderService⟩,
       ⟨"PUT", "/api/v1/orders/{id}/status", Gateway.globalStack ++ [.JWTAuthMiddleware],
         .ProxyToOrderService⟩,
       ⟨"DELETE", "/api/v1/orders/{id}", Gateway.globalStack ++ [.JWTAuthMiddleware],
         .ProxyToOrderService⟩] := by decide
  refine ⟨htable, ?_, ?_⟩
  · rw [htable]
    decide
  · intro global lib now env cfg
    rw [htable]
    simp only [Option.getD_some, List.forall_mem_cons, List.not_mem_nil, false_implies,
      implies_true, and_true]
    refine ⟨rfl, rfl, rfl, rfl, rfl, rfl, rfl, rfl, rfl, rfl, rfl⟩

/-! ## The admin gate of the user service: claim C11 -/

namespace UserService

/-- What `respondWithError` of the user service leaves on a connection on
which no header was sent. -/
theorem userservice_respondWithError_fresh (c : Conn) (status : Nat) (code message : String)
    (hfresh : c.w.sent = none) (hs : 100 ≤ status ∧ status ≤ 999) :
    respondWithError c status code message =
      some { c with w :=
        { header := c.w.header.Set "Content-Type" "application/json"
          sent := some (status, c.w.header.Set "Content-Type" "application/json")
          body := c.w.body ++ bytes (errorBody code message) } } := by
  have h1 : ¬ (status < 100 ∨ 999 < status) := by omega
  simp [respondWithError, ResponseWriter.WriteHeader, ResponseWriter.Write, hfresh, h1]

/-- The loop over the roles finds `admin` exactly when it is among them. -/
theorem hasAdminRole_iff (roles : List String) :
    hasAdminRole roles = true ↔ "admin" ∈ roles := by
  induction roles with
  | nil => simp [hasAdminRole]
  | cons role rest ih =>
    by_cases h : role = "admin"
    · simp [hasAdminRole, h]
    · have h' : ¬ "admin" = role := fun e => h e.symm
      simp [hasAdminRole, h, h', ih]

/-- `AuthMiddleware` of the user service on a token that `ValidateToken`
accepts. -/
theorem AuthMiddleware_accepted (lib : Jwt.Lib) (s : jwtService) (now : Time) (next : Handler)
    (c : Conn) (r : Request) (tok : String) (claims : Claims)
    (h : splitSpace (r.Header.Get "Authorization") = ["Bearer", tok])
    (hv : ValidateToken lib s now tok = .ok claims) :
    AuthMiddleware lib s now next c r =
      next c { r with ctx := { r.ctx with user := some claims } } := by
  obtain ⟨h1, h2, h3⟩ := Gateway.Middleware.splitSpace_bearer _ _ h
  simp only [AuthMiddleware, if_neg h1, if_neg h2, h3, hv]

end UserService

/-- C11.  In the user service the route `GET /api/v1/users/` is the only one
that ends in `GetUsers`, and chi runs it as the global middlewares around
`AuthMiddleware` around `AdminMiddleware` around `GetUsers`.  On a connection
on which nothing is sent yet, for a request whose context holds verified
claims, `AdminMiddleware` invokes the next handler when the roles hold the
string `admin`, and otherwise answers 403 with code `FORBIDDEN` whatever the
next handler is; without claims in the context it answers 401 with code
`UNAUTHORIZED`.  The same holds behind `AuthMiddleware` for a token that
`ValidateToken` accepts. -/
theorem admin_listing_requires_admin_role (lib : Jwt.Lib) (s : UserService.jwtService)
    (now : Time) (c : Conn) (r : Request) (hfresh : c.w.sent = none) :
    (UserService.router.routes.getD []).filter (fun rt => rt.endpoint == .GetUsers) =
      [⟨"GET", "/api/v1/users/",
        [.Logger, .Recoverer, .RequestIDMiddleware, .CORSMiddleware, .AuthMiddleware,
          .AdminMiddleware], .GetUsers⟩] ∧
    (∀ (global : UserService.Mw → Chi.Middleware) (ep : UserService.Endpoint → Handler),
      (⟨"GET", "/api/v1/users/",
        [.Logger, .Recoverer, .RequestIDMiddleware, .CORSMiddleware, .AuthMiddleware,
          .AdminMiddleware], .GetUsers⟩ : Chi.Route UserService.Mw UserService.Endpoint).handler
        (UserService.middlewareOf global lib s now) ep =
      global .Logger (global .Recoverer (global .RequestIDMiddleware (global .CORSMiddleware
        (UserService.AuthMiddleware lib s now
          (UserService.AdminMiddleware (ep .GetUsers))))))) ∧
    (∀ claims, r.ctx.user = some claims →
      ("admin" ∈ claims.Roles →
        ∀ next, UserService.AdminMiddleware next c r = next c r) ∧
      ("admin" ∉ claims.Roles →
        ∃ c', (∀ next, UserService.AdminMiddleware next c r = some c') ∧
          c'.w.status = some 403 ∧
          c'.w.body = c.w.body ++ bytes
            "\x7b\"success\":false,\"error\":\x7b\"code\":\"FORBIDDEN\",\"message\":\"admin access required\"\x7d\x7d\n" ∧
          c'.calls = c.calls)) ∧
    (r.ctx.user = none →
      ∃ c', (∀ next, UserService.AdminMiddleware next c r = some c') ∧
        c'.w.status = some 401 ∧
        c'.w.body = c.w.body ++ bytes
          "\x7b\"success\":false,\"error\":\x7b\"code\":\"UNAUTHORIZED\",\"message\":\"user not authenticated\"\x7d\x7d\n" ∧
        c'.calls = c.calls) ∧
    (∀ (tok : String) (claims : Claims),
      splitSpace (r.Header.Get "Authorization") = ["Bearer", tok] →
      UserService.ValidateToken lib s now tok = .ok claims →
      ∀ next, UserService.AuthMiddleware lib s now (UserService.AdminMiddleware next) c r =
        if "admin" ∈ claims.Roles then
          next c { r with ctx := { r.ctx with user := some claims } }
        else UserService.respondWithError c 403 "FORBIDDEN" "admin access required") := by
  have hb403 : UserService.errorBody "FORBIDDEN" "admin access required" =
      "\x7b\"success\":false,\"error\":\x7b\"code\":\"FORBIDDEN\",\"message\":\"admin access required\"\x7d\x7d\n" := by
    decide
  have hb401 : UserService.errorBody "UNAUTHORIZED" "user not authenticated" =
      "\x7b\"success\":false,\"error\":\x7b\"code\":\"UNAUTHORIZED\",\"message\":\"user not authenticated\"\x7d\x7d\n" := by
    decide
  have h403 := UserService.userservice_respondWithError_fresh c 403 "FORBIDDEN"
    "admin access required" hfresh (by omega)
  have h401 := UserService.userservice_respondWithError_fresh c 401 "UNAUTHORIZED"
    "user not authenticated" hfresh (by omega)
  rw [hb403] at h403
  rw [hb401] at h401
  refine ⟨by decide, fun global ep => rfl, ?_, ?_, ?_⟩
  · intro claims hctx
    constructor
    · intro hadmin next
      have := (UserService.hasAdminRole_iff claims.Roles).mpr hadmin
      simp [UserService.AdminMiddleware, hctx, this]
    · intro hnot
      have hfalse : UserService.hasAdminRole claims.Roles = false := by
        cases hh : UserService.hasAdminRole claims.Roles with
        | false => rfl
        | true => exact absurd ((UserService.hasAdminRole_iff _).mp hh) hnot
      have hrun : ∀ next, UserService.AdminMiddleware next c r =
          UserService.respondWithError c 403 "FORBIDDEN" "admin access required" := by
        intro next
        simp only [UserService.AdminMiddleware, hctx, hfalse, Bool.not_false, if_true]
      exact ⟨_, fun next => (hrun next).trans h403, rfl, rfl, rfl⟩
  · intro hctx
    have hrun : ∀ next, UserService.AdminMiddleware next c r =
        UserService.respondWithError c 401 "UNAUTHORIZED" "user not authenticated" := by
      intro next
      simp only [UserService.AdminMiddleware, hctx]
    exact ⟨_, fun next => (hrun next).trans h401, rfl, rfl, rfl⟩
  · intro tok claims hsplit hvalid next
    rw [UserService.AuthMiddleware_accepted lib s now _ c r tok claims hsplit hvalid]
    by_cases hadmin : "admin" ∈ claims.Roles
    · have := (UserService.hasAdminRole_iff claims.Roles).mpr hadmin
      simp [UserService.AdminMiddleware, this, hadmin]
    · have hfalse : UserService.hasAdminRole claims.Roles = false := by
        cases hh : UserService.hasAdminRole claims.Roles with
        | false => rfl
        | true => exact absurd ((UserService.hasAdminRole_iff _).mp hh) hadmin
      simp [UserService.AdminMiddleware, hfalse, hadmin]

/-- C11 on concrete inputs: a user with the role `user` is answered 403 and the
listing handler is not invoked; a user who also has `admin` reaches it. -/
theorem admin_listing_requires_admin_role_witness :
    Sample.conn.w.sent = none ∧
    (UserService.AdminMiddleware Sample.listingHandler Sample.conn
        (Sample.listUsers ["user", "admin"])).map (fun c => c.w.status) = some (some 200) ∧
    (UserService.AdminMiddleware Sample.listingHandler Sample.conn
        (Sample.listUsers ["user"])).map (fun c => c.w.status) = some (some 403) ∧
    ∃ c', (∀ next, UserService.AdminMiddleware next Sample.conn (Sample.listUsers ["user"]) =
        some c') ∧
      c'.w.status = some 403 ∧
      c'.w.body = Sample.conn.w.body ++ bytes
        "\x7b\"success\":false,\"error\":\x7b\"code\":\"FORBIDDEN\",\"message\":\"admin access required\"\x7d\x7d\n" ∧
      c'.calls = Sample.conn.calls :=
  ⟨rfl, by decide, by decide,
    ((admin_listing_requires_admin_role Sample.lib (UserService.NewJWTService "k")
      (Sample.issuedAt + 5) Sample.conn (Sample.listUsers ["user"]) rfl).2.2.1
        (Sample.claimsWithRoles ["user"]) rfl).2 (by decide)⟩

/-! ## The correlation id: claim C17 -/

/-- C17.  `RequestIDMiddleware` works with one id: the first value of the
inbound `X-Request-ID` header when that is not empty, else the string form of
a new UUID.  Its result is that of one invocation of the next handler, on a
writer whose header map holds exactly this id under `X-Request-ID` and on a
request whose context holds this id; nothing else of the writer or of the
request is changed. -/
theorem request_id_is_one_per_request (newID : UUID) (next : Handler) (c : Conn) (r : Request) :
    ∃ id : String,
      (r.Header.Get "X-Request-ID" ≠ "" → id = r.Header.Get "X-Request-ID") ∧
      (r.Header.Get "X-Request-ID" = "" → id = newID.String) ∧
      OrderService.RequestIDMiddleware newID next c r =
        next { c with w := { c.w with header := c.w.header.Set "X-Request-ID" id } }
          { r with ctx := { r.ctx with requestID := some id } } ∧
      (c.w.header.Set "X-Request-ID" id).Values "X-Request-ID" = [id] ∧
      ({ r with ctx := { r.ctx with requestID := some id } } : Request).ctx.requestID =
        some id := by
  refine ⟨if r.Header.Get "X-Request-ID" = "" then newID.String
    else r.Header.Get "X-Request-ID", ?_, ?_, rfl, ?_, rfl⟩
  · intro h; rw [if_neg h]
  · intro h; rw [if_pos h]
  · simp only [Header.Values, Header.index_Set, if_true]

/-! ## The `Authorization` header: claim C18 -/

namespace Go

theorem splitChars_ne_nil (sep : Char) (s : List Char) : splitChars sep s ≠ [] := by
  cases s with
  | nil => simp [splitChars]
  | cons c cs =>
    by_cases hc : c = sep
    · simp [splitChars, hc]
    · cases hsp : splitChars sep cs with
      | nil => simp [splitChars, hc, hsp]
      | cons q qs => simp [splitChars, hc, hsp]

/-- No separator: one piece, the string itself. -/
theorem splitChars_of_not_mem (sep : Char) (s : List Char) (h : sep ∉ s) :
    splitChars sep s = [s] := by
  induction s with
  | nil => rfl
  | cons c cs ih =>
    have hc : c ≠ sep := fun e => h (by simp [e])
    have hcs : sep ∉ cs := fun e => h (List.mem_cons_of_mem _ e)
    simp only [splitChars, if_neg hc, ih hcs]

/-- A first piece without separator, then the separator: the first piece is
split off. -/
theorem splitChars_append (sep : Char) (a b : List Char) (h : sep ∉ a) :
    splitChars sep (a ++ sep :: b) = a :: splitChars sep b := by
  induction a with
  | nil => simp [splitChars]
  | cons c cs ih =>
    have hc : c ≠ sep := fun e => h (by simp [e])
    have hcs : sep ∉ cs := fun e => h (List.mem_cons_of_mem _ e)
    have hrec := ih hcs
    show splitChars sep (c :: (cs ++ sep :: b)) = (c :: cs) :: splitChars sep b
    simp only [splitChars, if_neg hc, hrec]

/-- One piece: the string holds no separator. -/
theorem splitChars_eq_single (sep : Char) (s p : List Char) (h : splitChars sep s = [p]) :
    p = s ∧ sep ∉ s := by
  induction s generalizing p with
  | nil =>
    simp only [splitChars, List.cons.injEq, and_true] at h
    simp [← h]
  | cons c cs ih =>
    by_cases hc : c = sep
    · simp only [splitChars, if_pos hc, List.cons.injEq] at h
      exact absurd h.2 (splitChars_ne_nil sep cs)
    · cases hsp : splitChars sep cs with
      | nil => exact absurd hsp (splitChars_ne_nil sep cs)
      | cons q qs =>
        simp only [splitChars, if_neg hc, hsp, List.cons.injEq] at h
        obtain ⟨hp, hqs⟩ := h
        subst hqs
        obtain ⟨hq, hn⟩ := ih q hsp
        subst hq
        refine ⟨hp.symm, ?_⟩
        simp only [List.mem_cons, not_or]
        exact ⟨fun e => hc e.symm, hn⟩

/-- Two pieces: the string is the first piece, the separator and the second
piece, and neither piece holds the separator. -/
theorem splitChars_eq_pair (sep : Char) (s a b : List Char) (h : splitChars sep s = [a, b]) :
    s = a ++ sep :: b ∧ sep ∉ a ∧ sep ∉ b := by
  induction s generalizing a with
  | nil => simp [splitChars] at h
  | cons c cs ih =>
    by_cases hc : c = sep
    · simp only [splitChars, if_pos hc, List.cons.injEq] at h
      obtain ⟨ha, hb⟩ := h
      obtain ⟨hb1, hb2⟩ := splitChars_eq_single sep cs b hb
      subst ha; subst hb1; subst hc
      exact ⟨rfl, by simp, hb2⟩
    · cases hsp : splitChars sep cs with
      | nil => exact absurd hsp (splitChars_ne_nil sep cs)
      | cons q qs =>
        simp only [splitChars, if_neg hc, hsp, List.cons.injEq] at h
        obtain ⟨ha, hqs⟩ := h
        subst hqs
        obtain ⟨h1, h2, h3⟩ := ih q hsp
        subst ha
        refine ⟨by rw [h1]; rfl, ?_, h3⟩
        simp only [List.mem_cons, not_or]
        exact ⟨fun e => hc e.symm, h2⟩

/-- A header value splits into `Bearer` and a token exactly when it is the
word `Bearer`, one space and a remainder without a space, the token. -/
theorem splitSpace_eq_bearer_iff (s tok : String) :
    splitSpace s = ["Bearer", tok] ↔ s = "Bearer " ++ tok ∧ ' ' ∉ tok.data := by
  have hB : ' ' ∉ "Bearer".data := by decide
  constructor
  · intro h
    unfold splitSpace at h
    cases hsp : splitChars ' ' s.data with
    | nil => rw [hsp] at h; simp at h
    | cons a rest =>
      cases rest with
      | nil => rw [hsp] at h; simp at h
      | cons b rest2 =>
        cases rest2 with
        | cons _ _ => rw [hsp] at h; simp at h
        | nil =>
          rw [hsp] at h
          simp only [List.map_cons, List.map_nil, List.cons.injEq, and_true] at h
          obtain ⟨ha, hb⟩ := h
          obtain ⟨h1, -, h3⟩ := splitChars_eq_pair ' ' s.data a b hsp
          have ha' : a = "Bearer".data := by rw [← ha]
          have hb' : b = tok.data := by rw [← hb]
          subst ha' hb'
          refine ⟨?_, h3⟩
          apply String.ext
          rw [h1]
          rfl
  · rintro ⟨hs, hn⟩
    subst hs
    unfold splitSpace
    have : ("Bearer " ++ tok).data = "Bearer".data ++ ' ' :: tok.data := rfl
    rw [this, splitChars_append ' ' _ _ hB, splitChars_of_not_mem ' ' _ hn]
    rfl

end Go

/-- C18.  On a connection on which nothing is sent yet: when the
`Authorization` value is the word `Bearer`, one space and a remainder without
a space, `JWTAuthMiddleware` hands exactly the remainder to
`jwt.ParseWithClaims` and goes on as its result says.  Every other non-empty
value gets 401 with the message "invalid authorization header format", the
same for every token library, clock and next handler: no verification is
attempted. -/
theorem bearer_header_gate (lib : Jwt.Lib) (now : Time) (secret : String) (next : Handler)
    (c : Conn) (r : Request) (hfresh : c.w.sent = none) :
    (∀ tok : String, r.Header.Get "Authorization" = "Bearer " ++ tok → ' ' ∉ tok.data →
      Middleware.JWTAuthMiddleware lib now secret next c r =
        match Jwt.ParseWithClaims lib now tok (Middleware.keyFunc secret) with
        | .ok token =>
          if token.Valid then next c (Middleware.authenticated r token.Claims)
          else Middleware.respondWithError c 401 "UNAUTHORIZED" "invalid or expired token"
        | .error _ =>
          Middleware.respondWithError c 401 "UNAUTHORIZED" "invalid or expired token") ∧
    (r.Header.Get "Authorization" ≠ "" →
      (¬ ∃ tok : String, r.Header.Get "Authorization" = "Bearer " ++ tok ∧ ' ' ∉ tok.data) →
      ∃ c', (∀ (lib' : Jwt.Lib) (now' : Time) (next' : Handler),
          Middleware.JWTAuthMiddleware lib' now' secret next' c r = some c') ∧
        c'.w.status = some 401 ∧
        c'.w.body = c.w.body ++ bytes
          "\x7b\"success\":false,\"error\":\x7b\"code\":\"UNAUTHORIZED\",\"message\":\"invalid authorization header format\"\x7d\x7d\n" ∧
        c'.calls = c.calls) := by
  constructor
  · intro tok hform hnospace
    have hsplit := (splitSpace_eq_bearer_iff _ tok).mpr ⟨hform, hnospace⟩
    obtain ⟨h1, h2, h3⟩ := Middleware.splitSpace_bearer _ _ hsplit
    simp only [Middleware.JWTAuthMiddleware, if_neg h1, if_neg h2, h3]
  · intro hne hnot
    have hbad : (splitSpace (r.Header.Get "Authorization")).length ≠ 2 ∨
        (splitSpace (r.Header.Get "Authorization")).getD 0 "" ≠ "Bearer" := by
      by_contra hgood
      have hs := Middleware.splitSpace_wellformed _ hgood
      exact hnot ⟨_, (splitSpace_eq_bearer_iff _ _).mp hs⟩
    have hb : Middleware.errorBody "UNAUTHORIZED" "invalid authorization header format" =
        "\x7b\"success\":false,\"error\":\x7b\"code\":\"UNAUTHORIZED\",\"message\":\"invalid authorization header format\"\x7d\x7d\n" := by
      decide
    have hresp := Middleware.middleware_respondWithError_fresh c 401 "UNAUTHORIZED"
      "invalid authorization header format" hfresh (by omega)
    rw [hb] at hresp
    exact ⟨_, fun lib' now' next' =>
      (Middleware.JWTAuthMiddleware_malformed lib' now' secret next' c r hne hbad).trans hresp,
      rfl, rfl, rfl⟩

/-- C18 on concrete inputs: a lower-case scheme, two spaces, another scheme and
a trailing extra part are refused as malformed; `Bearer expired` reaches the
verification, which refuses the token. -/
theorem bearer_header_gate_witness :
    Sample.conn.w.sent = none ∧
    [["bearer expired"], ["Bearer  expired"], ["Basic expired"], ["Bearer expired x"]].map
      (fun auth =>
        (Middleware.JWTAuthMiddleware Sample.lib (Sample.issuedAt + 5) Sample.secret
          (Proxy.proxy Sample.envUp "http://order:3002") Sample.conn (Sample.withAuth auth)).map
          fun c => c.w.body) =
      List.replicate 4 (some (bytes
        "\x7b\"success\":false,\"error\":\x7b\"code\":\"UNAUTHORIZED\",\"message\":\"invalid authorization header format\"\x7d\x7d\n")) ∧
    (Middleware.JWTAuthMiddleware Sample.lib (Sample.issuedAt + 5) Sample.secret
        (Proxy.proxy Sample.envUp "http://order:3002") Sample.conn
        (Sample.withAuth ["Bearer expired"])).map (fun c => c.w.body) =
      some (bytes
        "\x7b\"success\":false,\"error\":\x7b\"code\":\"UNAUTHORIZED\",\"message\":\"invalid or expired token\"\x7d\x7d\n") ∧
    (∀ tok : String, (Sample.withAuth ["Bearer expired"]).Header.Get "Authorization" =
        "Bearer " ++ tok → ' ' ∉ tok.data →
      Middleware.JWTAuthMiddleware Sample.lib (Sample.issuedAt + 5) Sample.secret
          (Proxy.proxy Sample.envUp "http://order:3002") Sample.conn
          (Sample.withAuth ["Bearer expired"]) =
        match Jwt.ParseWithClaims Sample.lib (Sample.issuedAt + 5) tok
          (Middleware.keyFunc Sample.secret) with
        | .ok token =>
          if token.Valid then
            Proxy.proxy Sample.envUp "http://order:3002" Sample.conn
              (Middleware.authenticated (Sample.withAuth ["Bearer expired"]) token.Claims)
          else Middleware.respondWithError Sample.conn 401 "UNAUTHORIZED"
            "invalid or expired token"
        | .error _ =>
          Middleware.respondWithError Sample.conn 401 "UNAUTHORIZED"
            "invalid or expired token") :=
  ⟨rfl, by decide, by decide,
    (bearer_header_gate Sample.lib (Sample.issuedAt + 5) Sample.secret
      (Proxy.proxy Sample.envUp "http://order:3002") Sample.conn
      (Sample.withAuth ["Bearer expired"]) rfl).1⟩

/-! ## The error bodies of the gateway: claim C16 -/

namespace Gateway

/-- The body `respondWithError` of package `proxy` writes is the encoding of
its map value, ended by a newline. -/
theorem proxy_errorBody_eq_encode (code message : String) :
    Proxy.errorBody code message = (Proxy.errorValue code message).encode ++ "\n" := by
  have h1 : jsonString "error" = "\"error\"" := by decide
  have h2 : jsonString "code" = "\"code\"" := by decide
  have h3 : jsonString "message" = "\"message\"" := by decide
  have h4 : jsonString "success" = "\"success\"" := by decide
  simp only [Proxy.errorValue, JSON.encode, Members.encode, Proxy.errorBody, h1, h2, h3, h4]
  generalize jsonString code = x
  generalize jsonString message = y
  obtain ⟨lx⟩ := x
  obtain ⟨ly⟩ := y
  apply String.ext
  simp [String.data_append, List.append_assoc]

/-- The body `respondWithError` of package `middleware` writes is the encoding
of its `ErrorResponse`, ended by a newline. -/
theorem middleware_errorBody_eq_encode (code message : String) :
    Middleware.errorBody code message =
      (Middleware.ErrorResponse.toJSON ⟨false, some ⟨code, message⟩⟩).encode ++ "\n" := by
  have h1 : jsonString "error" = "\"error\"" := by decide
  have h2 : jsonString "code" = "\"code\"" := by decide
  have h3 : jsonString "message" = "\"message\"" := by decide
  have h4 : jsonString "success" = "\"success\"" := by decide
  simp only [Middleware.ErrorResponse.toJSON, JSON.encode, Members.encode, Middleware.errorBody,
    h1, h2, h3, h4]
  generalize jsonString code = x
  generalize jsonString message = y
  obtain ⟨lx⟩ := x
  obtain ⟨ly⟩ := y
  apply String.ext
  simp [String.data_append, List.append_assoc]

/-- The map value of package `proxy` has the shape of the error envelope. -/
theorem proxy_errorValue_envelope (code message : String) :
    (Proxy.errorValue code message).IsErrorEnvelope code message := by
  refine ⟨?_, by simp [Proxy.errorValue, JSON.get, Members.get],
    .obj (.cons "code" (.str code) (.cons "message" (.str message) .nil)), ?_, ?_, ?_, ?_⟩
  · simp only [Proxy.errorValue, JSON.keys, Members.keys]
    exact List.Perm.swap _ _ _
  · simp [Proxy.errorValue, JSON.get, Members.get]
  · simp [JSON.keys, Members.keys]
  · simp [JSON.get, Members.get]
  · simp [JSON.get, Members.get]

/-- The `ErrorResponse` of package `middleware` has the shape of the error
envelope. -/
theorem middleware_errorValue_envelope (code message : String) :
    (Middleware.ErrorResponse.toJSON ⟨false, some ⟨code, message⟩⟩).IsErrorEnvelope
      code message := by
  refine ⟨?_, by simp [Middleware.ErrorResponse.toJSON, JSON.get, Members.get],
    .obj (.cons "code" (.str code) (.cons "message" (.str message) .nil)), ?_, ?_, ?_, ?_⟩
  · simp [Middleware.ErrorResponse.toJSON, JSON.keys, Members.keys]
  · simp [Middleware.ErrorResponse.toJSON, JSON.get, Members.get]
  · simp [JSON.keys, Members.keys]
  · simp [JSON.get, Members.get]
  · simp [JSON.get, Members.get]

/-- The ways through `JWTAuthMiddleware`: the next handler on the
authenticated request, or one of its three `respondWithError` calls. -/
theorem JWTAuthMiddleware_cases (lib : Jwt.Lib) (now : Time) (secret : String) (next : Handler)
    (c : Conn) (r : Request) :
    (∃ claims, Middleware.JWTAuthMiddleware lib now secret next c r =
      next c (Middleware.authenticated r claims)) ∨
    (∃ message ∈ ["authorization header required", "invalid authorization header format",
        "invalid or expired token"],
      Middleware.JWTAuthMiddleware lib now secret next c r =
        Middleware.respondWithError c 401 "UNAUTHORIZED" message) := by
  by_cases h0 : r.Header.Get "Authorization" = ""
  · exact Or.inr ⟨_, by simp, Middleware.JWTAuthMiddleware_missing lib now secret next c r h0⟩
  · by_cases hbad : (splitSpace (r.Header.Get "Authorization")).length ≠ 2 ∨
        (splitSpace (r.Header.Get "Authorization")).getD 0 "" ≠ "Bearer"
    · exact Or.inr ⟨_, by simp,
        Middleware.JWTAuthMiddleware_malformed lib now secret next c r h0 hbad⟩
    · have hs := Middleware.splitSpace_wellformed _ hbad
      cases hrej : Middleware.rejects lib now secret
          ((splitSpace (r.Header.Get "Authorization")).getD 1 "") with
      | true =>
        exact Or.inr ⟨_, by simp,
          Middleware.JWTAuthMiddleware_rejected lib now secret next c r _ hs hrej⟩
      | false =>
        unfold Middleware.rejects at hrej
        cases hp : Jwt.ParseWithClaims lib now
            ((splitSpace (r.Header.Get "Authorization")).getD 1 "")
            (Middleware.keyFunc secret) with
        | error e => rw [hp] at hrej; cases hrej
        | ok token =>
          rw [hp] at hrej
          have hv : token.Valid = true := by simpa using hrej
          exact Or.inl ⟨_,
            Middleware.JWTAuthMiddleware_accepted lib now secret next c r _ token hs hp hv⟩

/-- The ways through `proxy`: an upstream response was received, or one of its
four `respondWithError` calls was made. -/
theorem proxy_cases (env : Env) (targetURL : String) (c : Conn) (r : Request) :
    (∃ q resp, Proxy.buildProxyReq env r targetURL = .ok q ∧ env.clientDo q = .ok resp) ∨
    (∃ c0 : Conn, c0.w = c.w ∧
      ∃ e ∈ [((500 : Nat), "PROXY_ERROR", "failed to parse target URL"),
          (400, "INVALID_REQUEST", "failed to read request body"),
          (500, "PROXY_ERROR", "failed to create proxy request"),
          (502, "SERVICE_UNAVAILABLE", "target service is unavailable")],
        Proxy.proxy env targetURL c r = Proxy.respondWithError c0 e.1 e.2.1 e.2.2) := by
  cases hb : Proxy.buildProxyReq env r targetURL with
  | error e =>
    right
    refine ⟨c, rfl, e, ?_, ?_⟩
    · unfold Proxy.buildProxyReq at hb
      split at hb
      · cases hb; simp
      · split at hb
        · cases hb; simp
        · split at hb
          · cases hb; simp
          · cases hb
    · obtain ⟨status, code, message⟩ := e
      simp only [Proxy.proxy, hb]
  | ok q =>
    cases hd : env.clientDo q with
    | ok resp => exact Or.inl ⟨q, resp, rfl, hd⟩
    | error err =>
      right
      refine ⟨{ c with calls := c.calls ++ [q] }, rfl,
        (502, "SERVICE_UNAVAILABLE", "target service is unavailable"), by simp, ?_⟩
      simp only [Proxy.proxy, hb, hd]

end Gateway

/-- C16.  On a connection on which nothing is sent yet, `JWTAuthMiddleware`
either goes on to the next handler or writes a body that is the encoding of a
JSON value of the shape `{"success": false, "error": {"code": c, "message": m}}`
with `c` = `UNAUTHORIZED`; `proxy` either received an upstream response or
writes the encoding of a value of that shape with `c` one of
`SERVICE_UNAVAILABLE`, `PROXY_ERROR`, `INVALID_REQUEST`.  The two packages
write the two members in different orders. -/
theorem gateway_error_bodies_have_envelope (env : Env) (lib : Jwt.Lib) (now : Time)
    (secret targetURL : String) (next : Handler) (c : Conn) (r : Request)
    (hfresh : c.w.sent = none) :
    ((∃ claims, Middleware.JWTAuthMiddleware lib now secret next c r =
        next c (Middleware.authenticated r claims)) ∨
      ∃ (c' : Conn) (v : JSON) (message : String),
        Middleware.JWTAuthMiddleware lib now secret next c r = some c' ∧
        c'.w.body = c.w.body ++ bytes (v.encode ++ "\n") ∧
        v.IsErrorEnvelope "UNAUTHORIZED" message) ∧
    ((∃ q resp, Proxy.buildProxyReq env r targetURL = .ok q ∧ env.clientDo q = .ok resp) ∨
      ∃ (c' : Conn) (v : JSON) (code message : String),
        Proxy.proxy env targetURL c r = some c' ∧
        c'.w.body = c.w.body ++ bytes (v.encode ++ "\n") ∧
        v.IsErrorEnvelope code message ∧
        code ∈ ["SERVICE_UNAVAILABLE", "PROXY_ERROR", "INVALID_REQUEST"]) := by
  constructor
  · rcases Gateway.JWTAuthMiddleware_cases lib now secret next c r with h | ⟨message, -, h⟩
    · exact Or.inl h
    · right
      rw [Middleware.middleware_respondWithError_fresh c 401 _ _ hfresh (by omega),
        Gateway.middleware_errorBody_eq_encode] at h
      exact ⟨_, _, message, h, rfl, Gateway.middleware_errorValue_envelope _ _⟩
  · rcases Gateway.proxy_cases env targetURL c r with h | ⟨c0, hc0, e, he, h⟩
    · exact Or.inl h
    · right
      have hfresh0 : c0.w.sent = none := by rw [hc0]; exact hfresh
      have hstatus : 100 ≤ e.1 ∧ e.1 ≤ 999 := by
        simp only [List.mem_cons, List.mem_singleton, List.not_mem_nil, or_false] at he
        rcases he with rfl | rfl | rfl | rfl <;> simp
      have hcode : e.2.1 ∈ ["SERVICE_UNAVAILABLE", "PROXY_ERROR", "INVALID_REQUEST"] := by
        simp only [List.mem_cons, List.mem_singleton, List.not_mem_nil, or_false] at he
        rcases he with rfl | rfl | rfl | rfl <;> simp
      rw [Proxy.proxy_respondWithError_fresh c0 e.1 _ _ hfresh0 hstatus,
        Gateway.proxy_errorBody_eq_encode, hc0] at h
      exact ⟨_, _, e.2.1, e.2.2, h, rfl, Gateway.proxy_errorValue_envelope _ _, hcode⟩

/-- C16 on concrete inputs: a request without an `Authorization` header, and
the same request proxied to a backend that cannot be reached. -/
theorem gateway_error_bodies_have_envelope_witness :
    Sample.conn.w.sent = none ∧
    (Middleware.JWTAuthMiddleware Sample.lib (Sample.issuedAt + 5) Sample.secret
        (Proxy.proxy Sample.envDown "http://order:3002") Sample.conn Sample.noAuth).map
      (fun c => c.w.body) =
      some (bytes ((Middleware.ErrorResponse.toJSON
        ⟨false, some ⟨"UNAUTHORIZED", "authorization header required"⟩⟩).encode ++ "\n")) ∧
    (Proxy.proxy Sample.envDown "http://order:3002" Sample.conn Sample.noAuth).map
      (fun c => c.w.body) =
      some (bytes ((Proxy.errorValue "SERVICE_UNAVAILABLE"
        "target service is unavailable").encode ++ "\n")) ∧
    ((∃ claims, Middleware.JWTAuthMiddleware Sample.lib (Sample.issuedAt + 5) Sample.secret
        (Proxy.proxy Sample.envDown "http://order:3002") Sample.conn Sample.noAuth =
        Proxy.proxy Sample.envDown "http://order:3002" Sample.conn
          (Middleware.authenticated Sample.noAuth claims)) ∨
      ∃ (c' : Conn) (v : JSON) (message : String),
        Middleware.JWTAuthMiddleware Sample.lib (Sample.issuedAt + 5) Sample.secret
          (Proxy.proxy Sample.envDown "http://order:3002") Sample.conn Sample.noAuth = some c' ∧
        c'.w.body = Sample.conn.w.body ++ bytes (v.encode ++ "\n") ∧
        v.IsErrorEnvelope "UNAUTHORIZED" message) ∧
    ((∃ q resp, Proxy.buildProxyReq Sample.envDown Sample.noAuth "http://order:3002" = .ok q ∧
        Sample.envDown.clientDo q = .ok resp) ∨
      ∃ (c' : Conn) (v : JSON) (code message : String),
        Proxy.proxy Sample.envDown "http://order:3002" Sample.conn Sample.noAuth = some c' ∧
        c'.w.body = Sample.conn.w.body ++ bytes (v.encode ++ "\n") ∧
        v.IsErrorEnvelope code message ∧
        code ∈ ["SERVICE_UNAVAILABLE", "PROXY_ERROR", "INVALID_REQUEST"]) :=
  ⟨rfl, by decide, by decide,
    gateway_error_bodies_have_envelope Sample.envDown Sample.lib (Sample.issuedAt + 5)
      Sample.secret "http://order:3002" (Proxy.proxy Sample.envDown "http://order:3002")
      Sample.conn Sample.noAuth rfl⟩

/-! ## The default secrets: claim C15 -/

/-- C15, the code at the failing input.  With `JWT_SECRET` set in no process,
the user service signs with `your-secret-key-change-in-production`, while the
gateway and the order service verify with
`your-super-secret-jwt-key-change-in-production-12345`.  A token the user
service issues (and itself accepts) is answered 401 by the gateway and by the
order service, here with a stand-in for HMAC that tells the keys apart. -/
theorem default_secrets_differ :
    (UserService.NewJWTService (Sample.noEnvironment "JWT_SECRET")).secretKey =
      "your-secret-key-change-in-production" ∧
    (Gateway.loadConfig Sample.noEnvironment).jwtSecret =
      "your-super-secret-jwt-key-change-in-production-12345" ∧
    OrderService.jwtSecret Sample.noEnvironment =
      "your-super-secret-jwt-key-change-in-production-12345" ∧
    (UserService.NewJWTService (Sample.noEnvironment "JWT_SECRET")).secretKey ≠
      (Gateway.loadConfig Sample.noEnvironment).jwtSecret ∧
    UserService.GenerateToken Sample.libDefault
      (UserService.NewJWTService (Sample.noEnvironment "JWT_SECRET"))
      Sample.issuedAt Sample.issuedAt Sample.user = Sample.defaultToken ∧
    (UserService.ValidateToken Sample.libDefault
      (UserService.NewJWTService (Sample.noEnvironment "JWT_SECRET")) (Sample.issuedAt + 5)
      Sample.defaultToken).toOption = some (Sample.claimsUntil 1700086400) ∧
    (Middleware.JWTAuthMiddleware Sample.libDefault (Sample.issuedAt + 5)
        (Gateway.loadConfig Sample.noEnvironment).jwtSecret
        (Proxy.proxy Sample.envUp "http://order:3002") Sample.conn
        (Sample.withAuth ["Bearer " ++ Sample.defaultToken])).map
      (fun c => (c.w.status, c.calls.length)) = some (some 401, 0) ∧
    (OrderService.AuthMiddleware Sample.libDefault (Sample.issuedAt + 5)
        (OrderService.jwtSecret Sample.noEnvironment) Sample.listingHandler Sample.conn
        (Sample.withAuth ["Bearer " ++ Sample.defaultToken])).map
      (fun c => c.w.status) = some (some 401) := by
  refine ⟨by decide, by decide, by decide, by decide, by decide, by decide, by decide,
    by decide⟩

/-! ## The order service: claims C19 and C20 -/

/-- C19, the code at the failing input.  The status `cancelled` passes
`ValidateOrderStatus`.  On a stored order that is completed, `CancelOrder` by
the owner is refused with "cannot cancel completed order" and changes
nothing, but `UpdateOrderStatus` by the owner with the status `cancelled`
succeeds and leaves the stored order cancelled. -/
theorem completed_order_gets_cancelled :
    (Sample.orderState.orders.lookup Sample.orderID).map (fun o => (o.UserID, o.Status)) =
      some (Sample.userID, "completed") ∧
    OrderService.ValidateOrderStatus "cancelled" = none ∧
    (OrderService.CancelOrder Sample.orderState Sample.fresh Sample.orderID Sample.userID
      false).1 = .error "cannot cancel completed order" ∧
    ((OrderService.CancelOrder Sample.orderState Sample.fresh Sample.orderID Sample.userID
      false).2.orders.lookup Sample.orderID).map (fun o => o.Status) = some "completed" ∧
    (OrderService.UpdateOrderStatus Sample.orderState Sample.fresh Sample.orderID Sample.userID
      "cancelled" false).1.toOption.map (fun o => o.Status) = some "cancelled" ∧
    ((OrderService.UpdateOrderStatus Sample.orderState Sample.fresh Sample.orderID
      Sample.userID "cancelled" false).2.orders.lookup Sample.orderID).map
      (fun o => o.Status) = some OrderService.StatusCancelled := by
  refine ⟨by decide, by decide, rfl, by decide, by decide, by decide⟩

/-- C20.  For a stored order and a caller who is not its owner and whose roles
do not hold `admin`, `GetOrder`, `UpdateOrderStatus` and `CancelOrder` return
the error "access denied" and no order, and leave the orders and the
published events as they were.  For the owner, or a caller with the role
`admin`, `GetOrder` returns the order and the other two never return "access
denied". -/
theorem order_access_check_is_atomic (st : OrderService.State) (f : OrderService.Fresh)
    (orderID userID : UUID) (status : String) (roles : List String) (order : OrderService.Order)
    (hfound : st.orders.lookup orderID = some order) :
    (OrderService.hasRole roles "admin" = false → order.UserID ≠ userID →
      OrderService.GetOrder st orderID userID (OrderService.hasRole roles "admin") =
        .error "access denied" ∧
      OrderService.UpdateOrderStatus st f orderID userID status
        (OrderService.hasRole roles "admin") = (.error "access denied", st) ∧
      OrderService.CancelOrder st f orderID userID (OrderService.hasRole roles "admin") =
        (.error "access denied", st)) ∧
    (OrderService.hasRole roles "admin" = true ∨ order.UserID = userID →
      OrderService.GetOrder st orderID userID (OrderService.hasRole roles "admin") =
        .ok order ∧
      (OrderService.UpdateOrderStatus st f orderID userID status
        (OrderService.hasRole roles "admin")).1 ≠ .error "access denied" ∧
      (OrderService.CancelOrder st f orderID userID
        (OrderService.hasRole roles "admin")).1 ≠ .error "access denied") := by
  have hfind : OrderService.FindByID st.orders orderID = .ok order := by
    simp [OrderService.FindByID, hfound]
  constructor
  · intro hadmin howner
    simp [OrderService.GetOrder, OrderService.UpdateOrderStatus, OrderService.CancelOrder,
      hfind, hadmin, howner]
  · intro hallowed
    have hpass : (!OrderService.hasRole roles "admin" && decide (order.UserID ≠ userID)) =
        false := by
      rcases hallowed with h | h
      · simp [h]
      · simp [h]
    have hnot : ∀ (orders : OrderService.Orders) (o : OrderService.Order) (e : String),
        OrderService.Update orders o = .error e → e ≠ "access denied" := by
      intro orders o e he
      unfold OrderService.Update at he
      split at he
      · cases he; decide
      · cases he
    refine ⟨?_, ?_, ?_⟩
    · simp only [OrderService.GetOrder, hfind]
      rw [if_neg (by simpa using hpass)]
    · simp only [OrderService.UpdateOrderStatus, hfind]
      rw [if_neg (by simpa using hpass)]
      cases hu : OrderService.Update (st.orders.insert orderID (order.UpdateStatus status f.now))
          (order.UpdateStatus status f.now) with
      | error e =>
        intro hbad
        exact hnot _ _ e hu (by simpa using hbad)
      | ok orders => simp
    · simp only [OrderService.CancelOrder, hfind]
      rw [if_neg (by simpa using hpass)]
      by_cases hc : order.Status = OrderService.StatusCompleted
      · rw [if_pos hc]
        simp
      · rw [if_neg hc]
        cases hu : OrderService.Update (st.orders.insert orderID (order.Cancel f.now))
            (order.Cancel f.now) with
        | error e =>
          intro hbad
          exact hnot _ _ e hu (by simpa using hbad)
        | ok orders => simp

/-- C20 on a concrete input: the completed order of the sample user, asked for
by another user with the role `user`. -/
theorem order_access_check_is_atomic_witness :
    Sample.orderState.orders.lookup Sample.orderID = some Sample.completedOrder ∧
    (OrderService.hasRole ["user"] "admin" = false →
      Sample.completedOrder.UserID ≠ Sample.otherUserID →
      OrderService.GetOrder Sample.orderState Sample.orderID Sample.otherUserID
        (OrderService.hasRole ["user"] "admin") = .error "access denied" ∧
      OrderService.UpdateOrderStatus Sample.orderState Sample.fresh Sample.orderID
        Sample.otherUserID "cancelled" (OrderService.hasRole ["user"] "admin") =
        (.error "access denied", Sample.orderState) ∧
      OrderService.CancelOrder Sample.orderState Sample.fresh Sample.orderID
        Sample.otherUserID (OrderService.hasRole ["user"] "admin") =
        (.error "access denied", Sample.orderState)) ∧
    OrderService.hasRole ["user"] "admin" = false ∧
    Sample.completedOrder.UserID ≠ Sample.otherUserID :=
  ⟨by decide,
    (order_access_check_is_atomic Sample.orderState Sample.fresh Sample.orderID
      Sample.otherUserID "cancelled" ["user"] Sample.completedOrder (by decide)).1,
    by decide, by decide⟩

/-! ## Validation of an order request: claim C21 -/

namespace OrderService

/-- A price passes the two price checks exactly when it is greater than zero
or is NaN, for which both comparisons are false. -/
theorem price_checks_pass_iff (p : Float64) :
    (p.lt (.finite 0) = false ∧ p.eq (.finite 0) = false) ↔
      (Float64.lt (.finite 0) p = true ∨ p = .nan) := by
  cases p with
  | finite q =>
    simp only [Float64.lt, Float64.eq, decide_eq_false_iff_not, decide_eq_true_eq,
      Float64.finite.injEq, reduceCtorEq, or_false]
    constructor
    · rintro ⟨h1, h2⟩
      exact lt_of_le_of_ne (not_lt.mp h1) (Ne.symm h2)
    · intro h
      exact ⟨not_lt.mpr h.le, h.ne'⟩
  | posInf => simp [Float64.lt, Float64.eq]
  | negInf => simp [Float64.lt, Float64.eq]
  | nan => simp [Float64.lt, Float64.eq]

/-- The loop body lets an item through exactly when it has a name, a positive
quantity and a price that is positive or NaN. -/
theorem validateItem_eq_none_iff (item : OrderItemRequest) :
    validateItem item = none ↔
      item.ProductName ≠ "" ∧ 0 < item.Quantity ∧
        (Float64.lt (.finite 0) item.Price = true ∨ item.Price = .nan) := by
  rw [← price_checks_pass_iff]
  unfold validateItem
  by_cases hn : item.ProductName = ""
  · simp [hn]
  by_cases hq : item.Quantity ≤ 0
  · simp [hn, hq]
  by_cases hl : item.Price.lt (.finite 0) = true
  · simp [hn, hq, hl]
  by_cases he : item.Price.eq (.finite 0) = true
  · simp [hn, hq, hl, he]
  simp [hn, hq, hl, he]
  omega

/-- The loop finds no error exactly when the body lets every item through. -/
theorem validateItems_eq_none_iff (items : List OrderItemRequest) :
    validateItems items = none ↔ ∀ item ∈ items, validateItem item = none := by
  induction items with
  | nil => simp [validateItems]
  | cons item rest ih =>
    cases h : validateItem item with
    | none => simp [validateItems, h, ih]
    | some err => simp [validateItems, h]

/-- The loop returns the error of the first item the body stops at. -/
theorem validateItems_first (pre : List OrderItemRequest) (item : OrderItemRequest)
    (post : List OrderItemRequest) (hpre : ∀ p ∈ pre, validateItem p = none) :
    validateItems (pre ++ item :: post) =
      match validateItem item with
      | some err => some err
      | none => validateItems post := by
  induction pre with
  | nil => rfl
  | cons p rest ih =>
    have hp : validateItem p = none := hpre p (List.mem_cons_self _ _)
    have hrest := ih (fun q hq => hpre q (List.mem_cons_of_mem _ hq))
    show validateItems (p :: (rest ++ item :: post)) = _
    rw [validateItems, hp]
    exact hrest

end OrderService
/-- The first item of a list that fails a test, with the items before it, which
pass. -/
theorem OrderService.exists_first_failing {α : Type} (ok : α → Prop) (l : List α)
    (h : ¬ ∀ x ∈ l, ok x) :
    ∃ pre item post, l = pre ++ item :: post ∧ (∀ p ∈ pre, ok p) ∧ ¬ ok item := by
  induction l with
  | nil => exact absurd (fun x hx => absurd hx (List.not_mem_nil x)) h
  | cons x rest ih =>
    by_cases hx : ok x
    · have hrest : ¬ ∀ y ∈ rest, ok y := by
        intro hall
        apply h
        intro y hy
        rcases List.mem_cons.mp hy with rfl | hy
        · exact hx
        · exact hall y hy
      obtain ⟨pre, item, post, hl, hpre, hitem⟩ := ih hrest
      refine ⟨x :: pre, item, post, by rw [hl]; rfl, ?_, hitem⟩
      intro p hp
      rcases List.mem_cons.mp hp with rfl | hp
      · exact hx
      · exact hpre p hp
    · exact ⟨[], x, rest, rfl, fun p hp => absurd hp (List.not_mem_nil p), hx⟩

/-- Outside what the handler can decode from JSON: for a price that is NaN both
`item.Price < 0` and `item.Price == 0` are false, and the item passes. -/
theorem OrderService.nan_price_is_not_checked :
    OrderService.ValidateCreateOrderRequest Sample.nanPriceRequest = none := by
  decide

/-- C21.  For a request whose prices are numbers, as every request is that
`CreateOrder` decodes from JSON (no price is NaN): `ValidateCreateOrderRequest`
returns no error iff the request has at least one item and every item has a
non-empty product name, a quantity greater than 0 and a price greater than 0.
Otherwise the request is empty, with the error of the empty list, or has a
first failing item, and the error is that of the first check this item fails,
in the order name, quantity, negative price, zero price. -/
theorem create_order_validation (req : OrderService.CreateOrderRequest)
    (hnum : ∀ item ∈ req.Items, item.Price ≠ Float64.nan) :
    (OrderService.ValidateCreateOrderRequest req = none ↔
      req.Items ≠ [] ∧ ∀ item ∈ req.Items,
        item.ProductName ≠ "" ∧ 0 < item.Quantity ∧
          Float64.lt (.finite 0) item.Price = true) ∧
    (req.Items = [] →
      OrderService.ValidateCreateOrderRequest req =
        some "order must contain at least one item") ∧
    (OrderService.ValidateCreateOrderRequest req ≠ none → req.Items ≠ [] →
      ∃ pre item post, req.Items = pre ++ item :: post ∧
        (∀ p ∈ pre, p.ProductName ≠ "" ∧ 0 < p.Quantity ∧
          Float64.lt (.finite 0) p.Price = true) ∧
        ¬ (item.ProductName ≠ "" ∧ 0 < item.Quantity ∧
          Float64.lt (.finite 0) item.Price = true)) ∧
    (∀ (pre : List OrderService.OrderItemRequest) (item : OrderService.OrderItemRequest)
        (post : List OrderService.OrderItemRequest),
      req.Items = pre ++ item :: post →
      (∀ p ∈ pre, p.ProductName ≠ "" ∧ 0 < p.Quantity ∧
        Float64.lt (.finite 0) p.Price = true) →
      ¬ (item.ProductName ≠ "" ∧ 0 < item.Quantity ∧
        Float64.lt (.finite 0) item.Price = true) →
      (item.ProductName = "" ∧
        OrderService.ValidateCreateOrderRequest req =
          some "product name is required for all items") ∨
      (item.ProductName ≠ "" ∧ item.Quantity ≤ 0 ∧
        OrderService.ValidateCreateOrderRequest req =
          some "quantity must be greater than 0") ∨
      (item.ProductName ≠ "" ∧ 0 < item.Quantity ∧ item.Price.lt (.finite 0) = true ∧
        OrderService.ValidateCreateOrderRequest req = some "price cannot be negative") ∨
      (item.ProductName ≠ "" ∧ 0 < item.Quantity ∧ item.Price.lt (.finite 0) = false ∧
        item.Price.eq (.finite 0) = true ∧
        OrderService.ValidateCreateOrderRequest req =
          some "price must be greater than 0")) := by
  have hpass : ∀ item ∈ req.Items,
      (OrderService.validateItem item = none ↔
        item.ProductName ≠ "" ∧ 0 < item.Quantity ∧
          Float64.lt (.finite 0) item.Price = true) := by
    intro item hi
    rw [OrderService.validateItem_eq_none_iff]
    constructor
    · rintro ⟨h1, h2, h3⟩
      exact ⟨h1, h2, h3.resolve_right (hnum item hi)⟩
    · rintro ⟨h1, h2, h3⟩
      exact ⟨h1, h2, Or.inl h3⟩
  have hmain : OrderService.ValidateCreateOrderRequest req = none ↔
      req.Items ≠ [] ∧ ∀ item ∈ req.Items,
        item.ProductName ≠ "" ∧ 0 < item.Quantity ∧
          Float64.lt (.finite 0) item.Price = true := by
    unfold OrderService.ValidateCreateOrderRequest
    by_cases hlen : req.Items.length = 0
    · have hnil : req.Items = [] := List.length_eq_zero.mp hlen
      simp [hnil]
    · have hne : req.Items ≠ [] := fun h => hlen (by rw [h]; rfl)
      rw [if_neg hlen, OrderService.validateItems_eq_none_iff]
      constructor
      · intro h
        exact ⟨hne, fun item hi => (hpass item hi).mp (h item hi)⟩
      · intro h item hi
        exact (hpass item hi).mpr (h.2 item hi)
  refine ⟨hmain, ?_, ?_, ?_⟩
  · intro hnil
    simp [OrderService.ValidateCreateOrderRequest, hnil]
  · intro herr hne
    have hnot : ¬ ∀ item ∈ req.Items,
        item.ProductName ≠ "" ∧ 0 < item.Quantity ∧
          Float64.lt (.finite 0) item.Price = true :=
      fun hall => herr (hmain.mpr ⟨hne, hall⟩)
    exact OrderService.exists_first_failing _ req.Items hnot
  · intro pre item post hitems hpre hfail
    have hmem : ∀ p ∈ pre, p ∈ req.Items := by
      intro p hp; rw [hitems]; exact List.mem_append_left _ hp
    have himem : item ∈ req.Items := by
      rw [hitems]; exact List.mem_append_right _ (List.mem_cons_self _ _)
    have hlen : ¬ req.Items.length = 0 := by
      rw [hitems]; simp
    have hrun : OrderService.ValidateCreateOrderRequest req =
        match OrderService.validateItem item with
        | some err => some err
        | none => OrderService.validateItems post := by
      unfold OrderService.ValidateCreateOrderRequest
      rw [if_neg hlen, hitems]
      exact OrderService.validateItems_first pre item post
        (fun p hp => (hpass p (hmem p hp)).mpr (hpre p hp))
    by_cases hn : item.ProductName = ""
    · left
      refine ⟨hn, ?_⟩
      rw [hrun]; simp [OrderService.validateItem, hn]
    by_cases hq : item.Quantity ≤ 0
    · right; left
      refine ⟨hn, hq, ?_⟩
      rw [hrun]; simp [OrderService.validateItem, hn, hq]
    have hq' : 0 < item.Quantity := not_le.mp hq
    by_cases hl : item.Price.lt (.finite 0) = true
    · right; right; left
      refine ⟨hn, hq', hl, ?_⟩
      rw [hrun]; simp [OrderService.validateItem, hn, hq, hl]
    have hl' : item.Price.lt (.finite 0) = false := by simpa using hl
    right; right; right
    have he : item.Price.eq (.finite 0) = true := by
      by_contra he
      have he' : item.Price.eq (.finite 0) = false := by simpa using he
      have hpos := (OrderService.price_checks_pass_iff item.Price).mp ⟨hl', he'⟩
      exact hfail ⟨hn, hq', hpos.resolve_right (hnum item himem)⟩
    refine ⟨hn, hq', hl', he, ?_⟩
    rw [hrun]; simp [OrderService.validateItem, hn, hq, hl', he]

/-- C21 on a concrete input: a good item followed by one without a name; the
error is the one for the name, the first check that item fails. -/
theorem create_order_validation_witness :
    (∀ item ∈ Sample.mixedRequest.Items, item.Price ≠ Float64.nan) ∧
    Sample.mixedRequest.Items =
      [⟨"pen", 2, .finite 3⟩] ++ ⟨"", 0, .finite (-1)⟩ :: [] ∧
    ((⟨"", 0, .finite (-1)⟩ : OrderService.OrderItemRequest).ProductName = "" ∧
      OrderService.ValidateCreateOrderRequest Sample.mixedRequest =
        some "product name is required for all items") :=
  ⟨by decide, rfl,
    ((create_order_validation Sample.mixedRequest (by decide)).2.2.2
      [⟨"pen", 2, .finite 3⟩] ⟨"", 0, .finite (-1)⟩ [] rfl (by decide) (by decide)).resolve_right
      (by decide)⟩

/-! ## Paging in the repositories: claim C22 -/

namespace Go

/-- No wrap-around for a value within the range of `int`. -/
theorem wrapInt_of_range (x : Int) (hlo : -9223372036854775808 ≤ x)
    (hhi : x ≤ 9223372036854775807) : wrapInt x = x := by
  unfold wrapInt
  omega

/-- The iteration over a map visits each stored value once. -/
theorem rangeValues_perm {κ β : Type} (rank : κ → Nat) (m : AList (fun _ : κ => β)) :
    (rangeValues rank m).Perm (m.entries.map (fun e => e.2)) :=
  (List.perm_insertionSort _ _).map _

/-- The values of the iteration are the values stored under some key. -/
theorem mem_rangeValues {κ β : Type} [DecidableEq κ] (rank : κ → Nat)
    (m : AList (fun _ : κ => β)) (v : β) :
    v ∈ rangeValues rank m ↔ ∃ k, m.lookup k = some v := by
  rw [(rangeValues_perm rank m).mem_iff, List.mem_map]
  constructor
  · rintro ⟨⟨k, w⟩, hmem, rfl⟩
    exact ⟨k, AList.mem_lookup_iff.mpr hmem⟩
  · rintro ⟨k, hk⟩
    exact ⟨⟨k, v⟩, AList.mem_lookup_iff.mp hk, rfl⟩

/-- Sorting rearranges. -/
theorem sortSlice_perm {α : Type} (less : α → α → Bool) (s : List α) :
    (sortSlice less s).Perm s :=
  List.perm_insertionSort _ _

/-- The slice of one page, for a start within the slice. -/
theorem sliceRange_page {α : Type} (s : List α) (start limit : Int) (h0 : 0 ≤ start)
    (hs : start ≤ (s.length : Int)) (hl : 1 ≤ limit) :
    sliceRange s start (if start + limit > (s.length : Int) then (s.length : Int)
      else start + limit) = some ((s.drop start.toNat).take limit.toNat) := by
  unfold sliceRange
  by_cases hover : start + limit > (s.length : Int)
  · rw [if_pos hover, if_pos ⟨h0, hs, le_refl _⟩]
    congr 1
    rw [List.take_of_length_le, List.take_of_length_le]
    · rw [List.length_drop]; omega
    · rw [List.length_drop]; omega
  · rw [if_neg hover, if_pos ⟨h0, by omega, by omega⟩]
    congr 2
    omega

end Go
namespace Go

/-- The paging arithmetic shared by `FindByUserID` and `FindAll`, when
`page * limit` fits in an `int`: the page is the `limit` records after the
first `(page - 1) * limit`. -/
theorem page_in_range {α : Type} (l : List α) (page limit : Int) (hp : 1 ≤ page)
    (hl : 1 ≤ limit) (hfit : page * limit ≤ 9223372036854775807) :
    (if wrapInt (wrapInt (page - 1) * limit) > (l.length : Int) then
        some (([] : List α), (l.length : Int))
      else
        (sliceRange l (wrapInt (wrapInt (page - 1) * limit))
          (if wrapInt (wrapInt (wrapInt (page - 1) * limit) + limit) > (l.length : Int) then
            (l.length : Int)
          else wrapInt (wrapInt (wrapInt (page - 1) * limit) + limit))).map
          (fun x => (x, (l.length : Int)))) =
      some ((l.drop ((page - 1) * limit).toNat).take limit.toNat, (l.length : Int)) := by
  have hs0 : 0 ≤ (page - 1) * limit := mul_nonneg (by omega) (by omega)
  have hsum : (page - 1) * limit + limit = page * limit := by ring
  have hpage : page - 1 ≤ (page - 1) * limit := by nlinarith
  have hw1 : wrapInt (page - 1) = page - 1 := wrapInt_of_range _ (by omega) (by omega)
  have hw2 : wrapInt ((page - 1) * limit) = (page - 1) * limit :=
    wrapInt_of_range _ (by omega) (by omega)
  have hw3 : wrapInt ((page - 1) * limit + limit) = (page - 1) * limit + limit :=
    wrapInt_of_range _ (by omega) (by omega)
  rw [hw1, hw2, hw3]
  generalize (page - 1) * limit = start at hs0 hsum hpage
  by_cases hpast : start > (l.length : Int)
  · rw [if_pos hpast]
    have hdrop : l.drop start.toNat = [] := List.drop_eq_nil_of_le (by omega)
    rw [hdrop, List.take_nil]
  · rw [if_neg hpast, sliceRange_page l start limit hs0 (by omega) hl]
    rfl

/-- The number of records on the page cut out of `total` records. -/
theorem page_length {α : Type} (l : List α) (start limit : Int) (hs : 0 ≤ start)
    (hl : 1 ≤ limit) :
    (((l.drop start.toNat).take limit.toNat).length : Int) =
      min limit (max 0 ((l.length : Int) - start)) := by
  rw [List.length_take, List.length_drop]
  omega

end Go

namespace OrderService

/-- The sort of `FindByUserID` rearranges. -/
theorem sortOrders_perm (sortBy : String) (l : List Order) : (sortOrders sortBy l).Perm l := by
  unfold sortOrders
  split
  · exact sortSlice_perm _ _
  split
  · exact sortSlice_perm _ _
  split
  · exact sortSlice_perm _ _
  split
  · exact sortSlice_perm _ _
  exact List.Perm.refl _

/-- While `page * limit` fits in an `int`, `FindByUserID` does what C22 says:
no panic, the total is the number of stored orders of the user, the page has
`min(limit, max(0, total - (page-1)*limit))` orders, and each of them is a
stored order of the user. -/
theorem FindByUserID_in_range (rank : UUID → Nat) (orders : Orders) (userID : UUID)
    (page limit : Int) (sortBy : String) (hp : 1 ≤ page) (hl : 1 ≤ limit)
    (hfit : page * limit ≤ 9223372036854775807) :
    ∃ (pg : List Order) (total : Int),
      FindByUserID rank orders userID page limit sortBy = some (pg, total) ∧
      total = (((orders.entries.map (fun e => e.2)).filter
        (fun order => order.UserID = userID)).length : Int) ∧
      (pg.length : Int) = min limit (max 0 (total - (page - 1) * limit)) ∧
      ∀ order ∈ pg, order.UserID = userID ∧ ∃ id, orders.lookup id = some order := by
  have hperm : (sortOrders sortBy
      ((rangeValues rank orders).filter (fun order => order.UserID = userID))).Perm
      ((orders.entries.map (fun e => e.2)).filter (fun order => order.UserID = userID)) :=
    (sortOrders_perm _ _).trans ((rangeValues_perm rank orders).filter _)
  refine ⟨_, _, page_in_range _ page limit hp hl hfit, ?_, ?_, ?_⟩
  · rw [hperm.length_eq]
  · exact page_length _ _ _ (mul_nonneg (by omega) (by omega)) hl
  · intro order hmem
    have h1 := List.mem_of_mem_drop (List.mem_of_mem_take hmem)
    have h2 := (sortOrders_perm _ _).mem_iff.mp h1
    obtain ⟨h3, h4⟩ := List.mem_filter.mp h2
    exact ⟨by simpa using h4, (mem_rangeValues rank orders order).mp h3⟩

end OrderService

namespace UserService

/-- The inner loop of `FindAll` tells whether the role is among the roles. -/
theorem hasRole_iff (roles : List String) (role : String) :
    hasRole roles role = true ↔ role ∈ roles := by
  induction roles with
  | nil => simp [hasRole]
  | cons r rest ih =>
    by_cases h : r = role
    · simp [hasRole, h]
    · simp [hasRole, h, ih, Ne.symm h]

/-- While `page * limit` fits in an `int`, `FindAll` does what C22 says: no
panic, the total is the number of stored users that pass the role filter, the
page has `min(limit, max(0, total - (page-1)*limit))` users, and each of them
is a stored user that passes the filter. -/
theorem FindAll_in_range (rank : UUID → Nat) (users : Users) (page limit : Int)
    (role : String) (hp : 1 ≤ page) (hl : 1 ≤ limit)
    (hfit : page * limit ≤ 9223372036854775807) :
    ∃ (pg : List User) (total : Int),
      FindAll rank users page limit role = some (pg, total) ∧
      total = (((users.entries.map (fun e => e.2)).filter
        (fun user => if role ≠ "" then hasRole user.Roles role else true)).length : Int) ∧
      (pg.length : Int) = min limit (max 0 (total - (page - 1) * limit)) ∧
      ∀ user ∈ pg, (role = "" ∨ role ∈ user.Roles) ∧ ∃ id, users.lookup id = some user := by
  refine ⟨_, _, page_in_range _ page limit hp hl hfit, ?_, ?_, ?_⟩
  · rw [((rangeValues_perm rank users).filter _).length_eq]
  · exact page_length _ _ _ (mul_nonneg (by omega) (by omega)) hl
  · intro user hmem
    have h1 := List.mem_of_mem_drop (List.mem_of_mem_take hmem)
    obtain ⟨h3, h4⟩ := List.mem_filter.mp h1
    refine ⟨?_, (mem_rangeValues rank users user).mp h3⟩
    by_cases hr : role = ""
    · exact Or.inl hr
    · right
      have h5 : hasRole user.Roles role = true := by simpa [hr] using h4
      exact (hasRole_iff _ _).mp h5

end UserService
/-- C22, the code at the failing input.  `page=4611686018427387905` and
`limit=2` pass `strconv.Atoi` and the clamps of the handlers; `(page - 1) *
limit` is `2^63`, which wraps around to `-2^63`, so `start` is negative, neither
`start > total` nor `end > total` holds, and the slice expression
`[start:end]` panics, in `FindByUserID` and in `FindAll`, whatever is stored.
With `page=4294967297` and `limit=4294967296` the product wraps around to 0 and
the page far past the end holds the first records. -/
theorem paging_overflow_panics (rank : UUID → Nat) (orders : OrderService.Orders)
    (users : UserService.Users) (userID : UUID) (sortBy role : String) :
    Atoi "4611686018427387905" = some 4611686018427387905 ∧
    Atoi "2" = some 2 ∧
    wrapInt (wrapInt (4611686018427387905 - 1) * 2) = -9223372036854775808 ∧
    OrderService.FindByUserID rank orders userID 4611686018427387905 2 sortBy = none ∧
    UserService.FindAll rank users 4611686018427387905 2 role = none ∧
    (UserService.FindAll (fun _ => 0) Sample.users 4294967297 4294967296 "").map
      (fun r => (r.1.map (fun u => u.Name), r.2)) = some (["Bob", "Ann"], 2) := by
  have hstart : wrapInt (wrapInt (4611686018427387905 - 1) * 2) = -9223372036854775808 := by
    decide
  have hend : wrapInt (-9223372036854775808 + 2) = -9223372036854775806 := by decide
  have hcut : ∀ {α : Type} (l : List α),
      (if (-9223372036854775808 : Int) > (l.length : Int) then
          some (([] : List α), (l.length : Int))
        else
          (sliceRange l (-9223372036854775808)
            (if (-9223372036854775806 : Int) > (l.length : Int) then (l.length : Int)
              else -9223372036854775806)).map (fun x => (x, (l.length : Int)))) = none := by
    intro α l
    have h1 : ¬ (-9223372036854775808 : Int) > (l.length : Int) := by omega
    have h2 : ¬ (-9223372036854775806 : Int) > (l.length : Int) := by omega
    rw [if_neg h1, if_neg h2]
    unfold sliceRange
    rw [if_neg (by omega)]
    rfl
  refine ⟨by decide, by decide, hstart, ?_, ?_, by decide⟩
  · unfold OrderService.FindByUserID
    simp only [hstart, hend]
    exact hcut _
  · unfold UserService.FindAll
    simp only [hstart, hend]
    exact hcut _

/-! ## The user store: what the operations of `UserService` do to it -/

namespace UserService

/-- A user `FindByEmail` returns is stored and has the email. -/
theorem FindByEmail_ok (rank : UUID → Nat) (users : Users) (email : String) (u : User)
    (h : FindByEmail rank users email = .ok u) :
    (∃ id, users.lookup id = some u) ∧ u.Email = email := by
  unfold FindByEmail at h
  cases hf : (rangeValues rank users).find? (fun user => decide (user.Email = email)) with
  | none => rw [hf] at h; cases h
  | some v =>
    rw [hf] at h
    have hv : v = u := by injection h
    subst hv
    exact ⟨(mem_rangeValues rank users v).mp (List.mem_of_find?_eq_some hf),
      by simpa using List.find?_some hf⟩

/-- When `FindByEmail` fails, no stored user has the email. -/
theorem FindByEmail_error (rank : UUID → Nat) (users : Users) (email err : String)
    (h : FindByEmail rank users email = .error err) :
    err = "user not found" ∧ ∀ id u, users.lookup id = some u → u.Email ≠ email := by
  unfold FindByEmail at h
  cases hf : (rangeValues rank users).find? (fun user => decide (user.Email = email)) with
  | some v => rw [hf] at h; cases h
  | none =>
    rw [hf] at h
    refine ⟨by injection h with h; exact h.symm, fun id u hu => ?_⟩
    have hmem : u ∈ rangeValues rank users := (mem_rangeValues rank users u).mpr ⟨id, hu⟩
    simpa using List.find?_eq_none.mp hf u hmem

/-- The two outcomes of `Register`: an error with the store as it was, or a new
user with the roles `user`, stored under the new id, whose email no stored
user had. -/
theorem Register_cases (f : Outside) (users : Users) (req : RegisterRequest) :
    (∃ err, Register f users req = (.error err, users)) ∨
    (∃ user, Register f users req = (.ok user, users.insert f.newID user) ∧
      user.ID = f.newID ∧ user.Email = req.Email ∧ user.Roles = ["user"] ∧
      ∀ id u, users.lookup id = some u → u.Email ≠ req.Email) := by
  unfold Register
  cases hfind : FindByEmail f.rankFind users req.Email with
  | ok u => exact Or.inl ⟨_, rfl⟩
  | error e =>
    have hnone := (FindByEmail_error _ _ _ _ hfind).2
    unfold NewUser
    cases hgen : f.generateFromPassword req.Password with
    | error e2 => exact Or.inl ⟨_, rfl⟩
    | ok hashed =>
      unfold Create
      by_cases hany : (rangeValues f.rankCreate users).any
          (fun u => decide (u.Email = req.Email)) = true
      · left
        refine ⟨"user with this email already exists", ?_⟩
        simp only [hany, if_true]
      · right
        exact ⟨User.mk f.newID req.Email hashed req.Name ["user"] f.createdAt f.updatedAt,
          by simp only [hany, Bool.false_eq_true, if_false], rfl, rfl, rfl, hnone⟩

/-- The two outcomes of `UpdateProfile` on a store whose users are stored under
their ids: "user not found" with the store as it was, or the stored user with
the new name and time, stored under the same id. -/
theorem UpdateProfile_cases (users : Users) (userID : UUID) (req : UpdateProfileRequest)
    (now : Time) (hkey : ∀ id u, users.lookup id = some u → u.ID = id) :
    (users.lookup userID = none ∧
      UpdateProfile users userID req now = (.error "user not found", users)) ∨
    (∃ user, users.lookup userID = some user ∧
      UpdateProfile users userID req now =
        (.ok { user with Name := req.Name, UpdatedAt := now },
          (users.insert userID { user with Name := req.Name, UpdatedAt := now }).insert userID
            { user with Name := req.Name, UpdatedAt := now })) := by
  unfold UpdateProfile FindByID
  cases hlook : users.lookup userID with
  | none => exact Or.inl ⟨rfl, rfl⟩
  | some user =>
    right
    refine ⟨user, rfl, ?_⟩
    have hid : user.ID = userID := hkey userID user hlook
    subst hid
    simp only [Update, AList.lookup_insert]

/-- Looking up an id after storing twice under one id. -/
theorem lookup_insert_twice (users : Users) (k id : UUID) (v : User) :
    ((users.insert k v).insert k v).lookup id = if id = k then some v else users.lookup id := by
  by_cases h : id = k
  · subst h; simp
  · simp [h, AList.lookup_insert_ne h]

/-- Looking up an id after storing under an id. -/
theorem lookup_insert_once (users : Users) (k id : UUID) (v : User) :
    (users.insert k v).lookup id = if id = k then some v else users.lookup id := by
  by_cases h : id = k
  · subst h; simp
  · simp [h, AList.lookup_insert_ne h]

/-- A call keeps the store sound. -/
theorem Call.run_sound (users : Users) (c : Call) (h : Sound users) : Sound (c.run users) := by
  obtain ⟨hkey, huniq, hroles⟩ := h
  cases c with
  | login rank now now2 req => exact ⟨hkey, huniq, hroles⟩
  | getProfile userID => exact ⟨hkey, huniq, hroles⟩
  | getUsers rank page limit role => exact ⟨hkey, huniq, hroles⟩
  | register f req =>
    show Sound (Register f users req).2
    rcases Register_cases f users req with ⟨err, herr⟩ | ⟨user, hok, hid, hemail, hrole, hnew⟩
    · rw [herr]; exact ⟨hkey, huniq, hroles⟩
    · rw [hok]
      refine ⟨?_, ?_, ?_⟩
      · intro id u hu
        rw [lookup_insert_once] at hu
        by_cases hk : id = f.newID
        · rw [if_pos hk] at hu
          have : user = u := by injection hu
          rw [← this, hid, hk]
        · rw [if_neg hk] at hu
          exact hkey id u hu
      · intro id1 id2 u1 u2 h1 h2 he
        rw [lookup_insert_once] at h1 h2
        by_cases hk1 : id1 = f.newID
        · by_cases hk2 : id2 = f.newID
          · rw [hk1, hk2]
          · rw [if_pos hk1] at h1
            rw [if_neg hk2] at h2
            have h1u : user = u1 := by injection h1
            exact absurd (by rw [← he, ← h1u, hemail]) (hnew id2 u2 h2)
        · by_cases hk2 : id2 = f.newID
          · rw [if_neg hk1] at h1
            rw [if_pos hk2] at h2
            have h2u : user = u2 := by injection h2
            exact absurd (by rw [he, ← h2u, hemail]) (hnew id1 u1 h1)
          · rw [if_neg hk1] at h1
            rw [if_neg hk2] at h2
            exact huniq id1 id2 u1 u2 h1 h2 he
      · intro id u hu
        rw [lookup_insert_once] at hu
        by_cases hk : id = f.newID
        · rw [if_pos hk] at hu
          have : user = u := by injection hu
          rw [← this, hrole]
        · rw [if_neg hk] at hu
          exact hroles id u hu
  | updateProfile userID req now =>
    show Sound (UpdateProfile users userID req now).2
    rcases UpdateProfile_cases users userID req now hkey with ⟨_, herr⟩ | ⟨user, hlook, hok⟩
    · rw [herr]; exact ⟨hkey, huniq, hroles⟩
    · rw [hok]
      refine ⟨?_, ?_, ?_⟩
      · intro id u hu
        rw [lookup_insert_twice] at hu
        by_cases hk : id = userID
        · rw [if_pos hk] at hu
          have : { user with Name := req.Name, UpdatedAt := now } = u := by injection hu
          rw [← this, hk]
          exact hkey userID user hlook
        · rw [if_neg hk] at hu
          exact hkey id u hu
      · intro id1 id2 u1 u2 h1 h2 he
        rw [lookup_insert_twice] at h1 h2
        by_cases hk1 : id1 = userID
        · by_cases hk2 : id2 = userID
          · rw [hk1, hk2]
          · rw [if_pos hk1] at h1
            rw [if_neg hk2] at h2
            have h1u : { user with Name := req.Name, UpdatedAt := now } = u1 := by injection h1
            have he' : user.Email = u2.Email := by rw [← he, ← h1u]
            exact absurd (huniq userID id2 user u2 hlook h2 he').symm hk2
        · by_cases hk2 : id2 = userID
          · rw [if_neg hk1] at h1
            rw [if_pos hk2] at h2
            have h2u : { user with Name := req.Name, UpdatedAt := now } = u2 := by injection h2
            have he' : u1.Email = user.Email := by rw [he, ← h2u]
            exact absurd (huniq id1 userID u1 user h1 hlook he') hk1
          · rw [if_neg hk1] at h1
            rw [if_neg hk2] at h2
            exact huniq id1 id2 u1 u2 h1 h2 he
      · intro id u hu
        rw [lookup_insert_twice] at hu
        by_cases hk : id = userID
        · rw [if_pos hk] at hu
          have : { user with Name := req.Name, UpdatedAt := now } = u := by injection hu
          rw [← this]
          exact hroles userID user hlook
        · rw [if_neg hk] at hu
          exact hroles id u hu

/-- The empty store is sound. -/
theorem sound_empty : Sound (∅ : Users) := by
  refine ⟨?_, ?_, ?_⟩
  · intro id u hu; simp at hu
  · intro id1 id2 u1 u2 h1; simp at h1
  · intro id u hu; simp at hu

/-- Every sequence of calls keeps the store sound. -/
theorem runAll_sound (calls : List Call) : ∀ users : Users, Sound users →
    Sound (runAll users calls) := by
  induction calls with
  | nil => intro users h; exact h
  | cons c rest ih =>
    intro users h
    exact ih (c.run users) (Call.run_sound users c h)

end UserService
/-- `Register` with an email that a stored user has: the error, and the store
as it was. -/
theorem UserService.Register_known_email (f : UserService.Outside) (users : UserService.Users)
    (req : UserService.RegisterRequest)
    (hknown : ∃ id u, users.lookup id = some u ∧ u.Email = req.Email) :
    UserService.Register f users req =
      (.error "user with this email already exists", users) := by
  obtain ⟨id, u, hu, he⟩ := hknown
  unfold UserService.Register
  cases hfind : UserService.FindByEmail f.rankFind users req.Email with
  | ok v => rfl
  | error e => exact absurd he ((UserService.FindByEmail_error _ _ _ _ hfind).2 id u hu)

/-! ## The invariants of the user store: claims C23 and C24 -/

/-- C23.  Starting from the empty repository, after any sequence of calls of
`Register`, `Login`, `GetProfile`, `UpdateProfile` and `GetUsers` no two stored
users have the same email; and `Register` with an email that a stored user has
returns the error "user with this email already exists" and leaves the store
as it was. -/
theorem emails_stay_unique (calls : List UserService.Call) (f : UserService.Outside)
    (users : UserService.Users) (req : UserService.RegisterRequest) :
    UserService.EmailsUnique (UserService.runAll ∅ calls) ∧
    ((∃ id u, users.lookup id = some u ∧ u.Email = req.Email) →
      UserService.Register f users req =
        (.error "user with this email already exists", users)) :=
  ⟨(UserService.runAll_sound calls ∅ UserService.sound_empty).2.1,
    UserService.Register_known_email f users req⟩

/-- C23 on a concrete input: after Ann has registered, logged in and changed
her name, a registration with her email fails and changes nothing. -/
theorem emails_stay_unique_witness :
    (∃ id u, (UserService.runAll ∅ Sample.calls).lookup id = some u ∧
      u.Email = Sample.registerAnnAgain.Email) ∧
    UserService.Register (Sample.outside Sample.secondUserID 40)
      (UserService.runAll ∅ Sample.calls) Sample.registerAnnAgain =
      (.error "user with this email already exists", UserService.runAll ∅ Sample.calls) :=
  ⟨⟨Sample.userID,
      UserService.User.mk Sample.userID "ann@example.com" "$2a$10$secret1" "Ann B." ["user"] 10 30,
      by decide, by decide⟩,
    (emails_stay_unique Sample.calls (Sample.outside Sample.secondUserID 40)
      (UserService.runAll ∅ Sample.calls) Sample.registerAnnAgain).2
      ⟨Sample.userID,
        UserService.User.mk Sample.userID "ann@example.com" "$2a$10$secret1" "Ann B." ["user"]
          10 30,
        by decide, by decide⟩⟩

/-- C24.  A user that `Register` creates has the roles `["user"]`.  On a store
reached from the empty repository, a call (with an id from `uuid.New()` that is
not in use) leaves every stored user stored under its id with the same id,
email, roles, password hash and creation time, so `UpdateProfile` changes the
name and `updatedAt` only.  Hence every stored user has the roles `["user"]`,
none has `admin`, and a token that `Login` issues is the signed form of claims
with the roles `["user"]`. -/
theorem roles_fixed_at_registration (calls : List UserService.Call) (c : UserService.Call)
    (f : UserService.Outside) (rreq : UserService.RegisterRequest) (rank : UUID → Nat)
    (compare : String → String → Bool) (lib : Jwt.Lib) (s : UserService.jwtService)
    (now now2 : Time) (req : UserService.LoginRequest) :
    (∀ (users users' : UserService.Users) (user : UserService.User),
      UserService.Register f users rreq = (.ok user, users') → user.Roles = ["user"]) ∧
    (c.NewIDUnused (UserService.runAll ∅ calls) →
      ∀ id u, (UserService.runAll ∅ calls).lookup id = some u →
        ∃ u', (c.run (UserService.runAll ∅ calls)).lookup id = some u' ∧
          u'.ID = u.ID ∧ u'.Email = u.Email ∧ u'.Roles = u.Roles ∧
          u'.Password = u.Password ∧ u'.CreatedAt = u.CreatedAt) ∧
    (∀ id u, (UserService.runAll ∅ calls).lookup id = some u →
      u.Roles = ["user"] ∧ "admin" ∉ u.Roles) ∧
    (∀ user token,
      UserService.Login rank compare lib s now now2 (UserService.runAll ∅ calls) req =
        .ok (user, token) →
      user.Roles = ["user"] ∧ token = UserService.GenerateToken lib s now now2 user ∧
        (UserService.tokenClaims s now now2 user).Roles = ["user"]) := by
  have hsound := UserService.runAll_sound calls ∅ UserService.sound_empty
  generalize UserService.runAll ∅ calls = st at hsound
  obtain ⟨hkey, huniq, hroles⟩ := hsound
  refine ⟨?_, ?_, ?_, ?_⟩
  · intro users users' user hreg
    rcases UserService.Register_cases f users rreq with ⟨err, herr⟩ | ⟨v, hok, _, _, hrole, _⟩
    · rw [herr] at hreg
      have h1 := congrArg Prod.fst hreg
      cases h1
    · rw [hok] at hreg
      have h1 : Except.ok v = (Except.ok user : Except String UserService.User) :=
        congrArg Prod.fst hreg
      have h2 : v = user := by injection h1
      rw [← h2, hrole]
  · intro hunused id u hu
    cases c with
    | login rank1 n1 n2 req1 => exact ⟨u, hu, rfl, rfl, rfl, rfl, rfl⟩
    | getProfile userID => exact ⟨u, hu, rfl, rfl, rfl, rfl, rfl⟩
    | getUsers rank1 page limit role => exact ⟨u, hu, rfl, rfl, rfl, rfl, rfl⟩
    | register f1 req1 =>
      show ∃ u', (UserService.Register f1 st req1).2.lookup id = some u' ∧ _
      rcases UserService.Register_cases f1 st req1 with ⟨err, herr⟩ | ⟨v, hok, _, _, _, _⟩
      · rw [herr]; exact ⟨u, hu, rfl, rfl, rfl, rfl, rfl⟩
      · rw [hok]
        have hne : id ≠ f1.newID := by
          intro h
          have hnone : st.lookup f1.newID = none := hunused
          rw [h, hnone] at hu
          cases hu
        refine ⟨u, ?_, rfl, rfl, rfl, rfl, rfl⟩
        show (st.insert f1.newID v).lookup id = some u
        rw [UserService.lookup_insert_once, if_neg hne]
        exact hu
    | updateProfile userID req1 now1 =>
      show ∃ u', (UserService.UpdateProfile st userID req1 now1).2.lookup id = some u' ∧ _
      rcases UserService.UpdateProfile_cases st userID req1 now1 hkey with
        ⟨_, herr⟩ | ⟨user, hlook, hok⟩
      · rw [herr]; exact ⟨u, hu, rfl, rfl, rfl, rfl, rfl⟩
      · rw [hok]
        show ∃ u', ((st.insert userID { user with Name := req1.Name, UpdatedAt := now1 }).insert
          userID { user with Name := req1.Name, UpdatedAt := now1 }).lookup id = some u' ∧ _
        rw [UserService.lookup_insert_twice]
        by_cases hk : id = userID
        · rw [if_pos hk]
          rw [hk, hlook] at hu
          have huser : user = u := by injection hu
          rw [← huser]
          exact ⟨_, rfl, rfl, rfl, rfl, rfl, rfl⟩
        · rw [if_neg hk]
          exact ⟨u, hu, rfl, rfl, rfl, rfl, rfl⟩
  · intro id u hu
    have h := hroles id u hu
    refine ⟨h, ?_⟩
    rw [h]
    decide
  · intro user token hlogin
    unfold UserService.Login at hlogin
    cases hfind : UserService.FindByEmail rank st req.Email with
    | error e => rw [hfind] at hlogin; cases hlogin
    | ok v =>
      rw [hfind] at hlogin
      obtain ⟨⟨id, hv⟩, _⟩ := UserService.FindByEmail_ok _ _ _ _ hfind
      by_cases hpw : (!v.CheckPassword compare req.Password) = true
      · simp only [hpw, if_true] at hlogin
        cases hlogin
      · simp only [hpw, Bool.false_eq_true, if_false] at hlogin
        have hpair : (v, UserService.GenerateToken lib s now now2 v) = (user, token) := by
          injection hlogin
        have h1 : v = user := congrArg Prod.fst hpair
        have h2 : UserService.GenerateToken lib s now now2 v = token := congrArg Prod.snd hpair
        subst h1
        exact ⟨hroles id v hv, h2.symm, hroles id v hv⟩

/-- C24 on a concrete input: Ann after her registration, her login, her change
of name and the refused second registration. -/
theorem roles_fixed_at_registration_witness :
    (UserService.runAll ∅ Sample.calls).lookup Sample.userID =
      some (UserService.User.mk Sample.userID "ann@example.com" "$2a$10$secret1" "Ann B."
        ["user"] 10 30) ∧
    (UserService.User.mk Sample.userID "ann@example.com" "$2a$10$secret1" "Ann B."
        ["user"] 10 30).Roles = ["user"] ∧
    "admin" ∉ (UserService.User.mk Sample.userID "ann@example.com" "$2a$10$secret1" "Ann B."
        ["user"] 10 30).Roles :=
  ⟨by decide,
    (roles_fixed_at_registration Sample.calls (.getProfile Sample.userID)
      (Sample.outside Sample.secondUserID 40) Sample.registerAnnAgain (fun _ => 0) Sample.compare
      Sample.lib (UserService.NewJWTService "k") 20 20 ⟨"ann@example.com", "secret1"⟩).2.2.1
      Sample.userID _ (by decide)⟩
/-! ## What a failed login tells: claim C25 -/

/-- C25.  `Login` with an email that no stored user has, and `Login` with an
email whose stored user has a hash the password does not match, both return
the error "invalid credentials" (with which Go returns no user and the empty
token), so the two results are the same; and when `Login` returns a user and a
token, that user is stored, has the email of the request, the password matches
its stored hash, and the token is the one `GenerateToken` makes for it. -/
theorem login_hides_registration (rank rank2 : UUID → Nat) (compare : String → String → Bool)
    (lib : Jwt.Lib) (s : UserService.jwtService) (now now2 : Time)
    (users users2 : UserService.Users) (req req2 : UserService.LoginRequest) :
    ((∀ id u, users.lookup id = some u → u.Email ≠ req.Email) →
      UserService.Login rank compare lib s now now2 users req =
        .error "invalid credentials") ∧
    ((∃ id u, users2.lookup id = some u ∧ u.Email = req2.Email) →
      (∀ id u, users2.lookup id = some u → u.Email = req2.Email →
        u.CheckPassword compare req2.Password = false) →
      UserService.Login rank2 compare lib s now now2 users2 req2 =
        .error "invalid credentials") ∧
    ((∀ id u, users.lookup id = some u → u.Email ≠ req.Email) →
      (∃ id u, users2.lookup id = some u ∧ u.Email = req2.Email) →
      (∀ id u, users2.lookup id = some u → u.Email = req2.Email →
        u.CheckPassword compare req2.Password = false) →
      UserService.Login rank compare lib s now now2 users req =
        UserService.Login rank2 compare lib s now now2 users2 req2) ∧
    (∀ user token,
      UserService.Login rank compare lib s now now2 users req = .ok (user, token) →
      (∃ id, users.lookup id = some user) ∧ user.Email = req.Email ∧
        user.CheckPassword compare req.Password = true ∧
        token = UserService.GenerateToken lib s now now2 user) := by
  have hunknown : (∀ id u, users.lookup id = some u → u.Email ≠ req.Email) →
      UserService.Login rank compare lib s now now2 users req =
        .error "invalid credentials" := by
    intro hno
    unfold UserService.Login
    cases hfind : UserService.FindByEmail rank users req.Email with
    | error e => rfl
    | ok v =>
      obtain ⟨⟨id, hv⟩, he⟩ := UserService.FindByEmail_ok _ _ _ _ hfind
      exact absurd he (hno id v hv)
  have hwrong : (∀ id u, users2.lookup id = some u → u.Email = req2.Email →
        u.CheckPassword compare req2.Password = false) →
      UserService.Login rank2 compare lib s now now2 users2 req2 =
        .error "invalid credentials" := by
    intro hbad
    unfold UserService.Login
    cases hfind : UserService.FindByEmail rank2 users2 req2.Email with
    | error e => rfl
    | ok v =>
      obtain ⟨⟨id, hv⟩, he⟩ := UserService.FindByEmail_ok _ _ _ _ hfind
      have hpw := hbad id v hv he
      simp only [hpw, Bool.not_false, if_true]
  refine ⟨hunknown, fun _ => hwrong, fun h1 _ h2 => (hunknown h1).trans (hwrong h2).symm, ?_⟩
  intro user token hlogin
  unfold UserService.Login at hlogin
  cases hfind : UserService.FindByEmail rank users req.Email with
  | error e => rw [hfind] at hlogin; cases hlogin
  | ok v =>
    rw [hfind] at hlogin
    obtain ⟨hstored, he⟩ := UserService.FindByEmail_ok _ _ _ _ hfind
    by_cases hpw : (!v.CheckPassword compare req.Password) = true
    · simp only [hpw, if_true] at hlogin
      cases hlogin
    · simp only [hpw, Bool.false_eq_true, if_false] at hlogin
      have hpair : (v, UserService.GenerateToken lib s now now2 v) = (user, token) := by
        injection hlogin
      have h1 : v = user := congrArg Prod.fst hpair
      have h2 : UserService.GenerateToken lib s now now2 v = token := congrArg Prod.snd hpair
      subst h1
      refine ⟨hstored, he, ?_, h2.symm⟩
      simpa using hpw

/-- C25 on a concrete input: with Ann and Bob stored, a login for an email
that is not stored and a login for Ann with a wrong password give the same
result. -/
theorem login_hides_registration_witness :
    (∀ id u, Sample.users.lookup id = some u → u.Email ≠ "carol@example.com") ∧
    (∃ id u, Sample.users.lookup id = some u ∧ u.Email = "ann@example.com") ∧
    (∀ id u, Sample.users.lookup id = some u → u.Email = "ann@example.com" →
      u.CheckPassword Sample.compare "guess" = false) ∧
    UserService.Login (fun _ => 0) Sample.compare Sample.lib (UserService.NewJWTService "k")
        20 20 Sample.users ⟨"carol@example.com", "guess"⟩ =
      UserService.Login Sample.byFirstByte Sample.compare Sample.lib
        (UserService.NewJWTService "k") 20 20 Sample.users ⟨"ann@example.com", "guess"⟩ := by
  have hcases : ∀ id u, Sample.users.lookup id = some u →
      u = Sample.secondUser ∨ u = Sample.user := by
    intro id u hu
    unfold Sample.users at hu
    rw [UserService.lookup_insert_once] at hu
    by_cases h2 : id = Sample.secondUserID
    · rw [if_pos h2] at hu
      exact Or.inl (by injection hu with h; exact h.symm)
    · rw [if_neg h2, UserService.lookup_insert_once] at hu
      by_cases h1 : id = Sample.userID
      · rw [if_pos h1] at hu
        exact Or.inr (by injection hu with h; exact h.symm)
      · rw [if_neg h1] at hu
        simp at hu
  have hunknown : ∀ id u, Sample.users.lookup id = some u → u.Email ≠ "carol@example.com" := by
    intro id u hu
    rcases hcases id u hu with h | h <;> rw [h] <;> decide
  have hknown : ∃ id u, Sample.users.lookup id = some u ∧ u.Email = "ann@example.com" :=
    ⟨Sample.userID, Sample.user, by decide, by decide⟩
  have hwrong : ∀ id u, Sample.users.lookup id = some u → u.Email = "ann@example.com" →
      u.CheckPassword Sample.compare "guess" = false := by
    intro id u hu _
    rcases hcases id u hu with h | h <;> rw [h] <;> decide
  exact ⟨hunknown, hknown, hwrong,
    (login_hides_registration (fun _ => 0) Sample.byFirstByte Sample.compare Sample.lib
      (UserService.NewJWTService "k") 20 20 Sample.users Sample.users
      ⟨"carol@example.com", "guess"⟩ ⟨"ann@example.com", "guess"⟩).2.2.1
      hunknown hknown hwrong⟩
